import Mathlib

/-!
# ecr-secret-operator

A shallow embedding of the operator: the secret extensions of `internal/ksecret/ksecret.go`
(`GetSecretUuid`, `IsExpired`, `IsChanged`, `GetSecretData`, `UpdateSecret`), the loader of
credentials of `internal/config/config.go`, and of `controllers` the reconciler
(`getKubeSecretName`, `constructSecret`, `Reconcile`) and the renewal scanner
(`CreateRenewalEvent`, `pollSecrets`), and the validation pattern that `api/v1beta1`
declares on the registry; together with the library routines these functions call:
`crypto/md5`, `github.com/google/uuid`, `strings`, `unicode/utf8` and the parts of Go's
`time` package that parse and print RFC3339 timestamps and durations.

Conventions of the embedding:

* Go strings and byte slices are byte sequences, a byte being a natural number below 256;
  string literals of the source are written with `str`.
* Go maps are partial functions from keys to values; a nil map reads as the empty map.
* Signed 64-bit quantities (`time.Duration`) are integers, reduced explicitly into the
  `int64` range where the source computes on them.
* A function that returns an `error` returns `none` for it here when only the fact of the
  error is used; a call that can dereference a nil pointer ends in an `Outcome`.
* The mutation of a secret through its pointer is a function from the secret before the
  call to the secret after it.
* An interface value of the environment (the client of the API server, the credential
  source, the clock) is known by what its calls return; the writes a call submits and the
  events it sends are part of its result.
-/

namespace EcrSecret

/-! ## Byte strings and maps -/

/-- A Go `string` or `[]byte`: a sequence of bytes. -/
abbrev GoString := List Nat

/-- The bytes of an ASCII literal. -/
def str (s : String) : GoString := s.data.map Char.toNat

/-- A Go `map[string]V`, read only through lookups. -/
abbrev GoMap (V : Type) := GoString → Option V

/-- The map without entries (a nil map reads the same way). -/
def GoMap.empty {V : Type} : GoMap V := fun _ => none

/-- Map assignment `m[k] = v`. -/
def GoMap.set {V : Type} (m : GoMap V) (k : GoString) (v : V) : GoMap V :=
  fun k2 => if k2 = k then some v else m k2

/-! ## crypto/md5 -/

/-- Reduction to an unsigned 32-bit word. -/
def w32 (x : Nat) : Nat := x % 4294967296

/-- Complement of a 32-bit word. -/
def not32 (x : Nat) : Nat := 4294967295 - w32 x

/-- Left rotation of a 32-bit word. -/
def rotl32 (x c : Nat) : Nat := w32 ((x <<< c) ||| (w32 x >>> (32 - c)))

/-- Per-step rotation amounts of MD5. -/
def md5Shift : List Nat :=
  [7, 12, 17, 22, 7, 12, 17, 22, 7, 12, 17, 22, 7, 12, 17, 22,
   5, 9, 14, 20, 5, 9, 14, 20, 5, 9, 14, 20, 5, 9, 14, 20,
   4, 11, 16, 23, 4, 11, 16, 23, 4, 11, 16, 23, 4, 11, 16, 23,
   6, 10, 15, 21, 6, 10, 15, 21, 6, 10, 15, 21, 6, 10, 15, 21]

/-- Per-step additive constants of MD5. -/
def md5Table : List Nat :=
  [0xd76aa478, 0xe8c7b756, 0x242070db, 0xc1bdceee,
   0xf57c0faf, 0x4787c62a, 0xa8304613, 0xfd469501,
   0x698098d8, 0x8b44f7af, 0xffff5bb1, 0x895cd7be,
   0x6b901122, 0xfd987193, 0xa679438e, 0x49b40821,
   0xf61e2562, 0xc040b340, 0x265e5a51, 0xe9b6c7aa,
   0xd62f105d, 0x02441453, 0xd8a1e681, 0xe7d3fbc8,
   0x21e1cde6, 0xc33707d6, 0xf4d50d87, 0x455a14ed,
   0xa9e3e905, 0xfcefa3f8, 0x676f02d9, 0x8d2a4c8a,
   0xfffa3942, 0x8771f681, 0x6d9d6122, 0xfde5380c,
   0xa4beea44, 0x4bdecfa9, 0xf6bb4b60, 0xbebfbc70,
   0x289b7ec6, 0xeaa127fa, 0xd4ef3085, 0x04881d05,
   0xd9d4d039, 0xe6db99e5, 0x1fa27cf8, 0xc4ac5665,
   0xf4292244, 0x432aff97, 0xab9423a7, 0xfc93a039,
   0x655b59c3, 0x8f0ccc92, 0xffeff47d, 0x85845dd1,
   0x6fa87e4f, 0xfe2ce6e0, 0xa3014314, 0x4e0811a1,
   0xf7537e82, 0xbd3af235, 0x2ad7d2bb, 0xeb86d391]

/-- The chaining state of MD5: four 32-bit words. -/
structure Md5State where
  a : Nat
  b : Nat
  c : Nat
  d : Nat
deriving DecidableEq, Repr

/-- Initial chaining value. -/
def md5Init : Md5State := ⟨0x67452301, 0xefcdab89, 0x98badcfe, 0x10325476⟩

/-- Little-endian 32-bit word number `j` of a block of bytes. -/
def leWord (blk : List Nat) (j : Nat) : Nat :=
  blk.getD (4 * j) 0 + 256 * blk.getD (4 * j + 1) 0
    + 65536 * blk.getD (4 * j + 2) 0 + 16777216 * blk.getD (4 * j + 3) 0

/-- One of the 64 steps of the MD5 compression function. -/
def md5Step (blk : List Nat) (st : Md5State) (i : Nat) : Md5State :=
  let f :=
    if i < 16 then (st.b &&& st.c) ||| (not32 st.b &&& st.d)
    else if i < 32 then (st.d &&& st.b) ||| (not32 st.d &&& st.c)
    else if i < 48 then st.b ^^^ st.c ^^^ st.d
    else st.c ^^^ (st.b ||| not32 st.d)
  let g :=
    if i < 16 then i
    else if i < 32 then (5 * i + 1) % 16
    else if i < 48 then (3 * i + 5) % 16
    else (7 * i) % 16
  let x := w32 (f + st.a + md5Table.getD i 0 + leWord blk g)
  ⟨st.d, w32 (st.b + rotl32 x (md5Shift.getD i 0)), st.b, st.c⟩

/-- The compression function on one 64-byte block. -/
def md5Block (st : Md5State) (blk : List Nat) : Md5State :=
  let r := (List.range 64).foldl (md5Step blk) st
  ⟨w32 (st.a + r.a), w32 (st.b + r.b), w32 (st.c + r.c), w32 (st.d + r.d)⟩

/-- Absorb `n` consecutive 64-byte blocks. -/
def md5Blocks : Nat → List Nat → Md5State → Md5State
  | 0, _, st => st
  | n + 1, bs, st => md5Blocks n (bs.drop 64) (md5Block st (bs.take 64))

/-- Little-endian bytes of a word, `n` of them. -/
def leBytes (x : Nat) (n : Nat) : List Nat :=
  (List.range n).map (fun k => (x >>> (8 * k)) % 256)

/-- Message padding: a one bit, zeros up to 56 modulo 64, the bit length. -/
def md5Pad (msg : List Nat) : List Nat :=
  let zeros := (119 - msg.length % 64) % 64
  msg ++ [128] ++ List.replicate zeros 0 ++ leBytes ((8 * msg.length) % 18446744073709551616) 8

/-- The function `md5.Sum`: the 16-byte MD5 digest of a byte sequence. -/
def md5Sum (msg : List Nat) : List Nat :=
  let p := md5Pad msg
  let st := md5Blocks (p.length / 64) p md5Init
  leBytes st.a 4 ++ leBytes st.b 4 ++ leBytes st.c 4 ++ leBytes st.d 4

/-! ## github.com/google/uuid -/

/-- A `uuid.UUID`: an array of 16 bytes. -/
abbrev UUID := List Nat

/-- The value `uuid.Nil`: sixteen zero bytes. -/
def uuidNil : UUID := List.replicate 16 0

/-- The function `uuid.FromBytes`: the bytes copied into a UUID, and whether the call
reports an error (the length is not 16; the UUID returned is then the zero value). -/
def FromBytes (b : List Nat) : UUID × Bool :=
  if b.length = 16 then (b, false) else (uuidNil, true)

/-- Lower-case hexadecimal digit of a nibble. -/
def hexDigit (n : Nat) : Nat := if n < 10 then 48 + n else 87 + n

/-- The function `hex.Encode`: two lower-case digits per byte. -/
def encodeHex : List Nat → GoString
  | [] => []
  | b :: bs => hexDigit (b / 16) :: hexDigit (b % 16) :: encodeHex bs

/-- The method `UUID.String`: the form `xxxxxxxx-xxxx-xxxx-xxxx-xxxxxxxxxxxx`. -/
def UUID.String (u : UUID) : GoString :=
  encodeHex (u.take 4) ++ [45] ++ encodeHex ((u.drop 4).take 2) ++ [45]
    ++ encodeHex ((u.drop 6).take 2) ++ [45] ++ encodeHex ((u.drop 8).take 2) ++ [45]
    ++ encodeHex ((u.drop 10).take 6)

/-- Entry of the table `xvalues`: the value of a hexadecimal digit, 255 for any other byte. -/
def xvalue (c : Nat) : Nat :=
  if 48 ≤ c ∧ c ≤ 57 then c - 48
  else if 65 ≤ c ∧ c ≤ 70 then c - 55
  else if 97 ≤ c ∧ c ≤ 102 then c - 87
  else 255

/-- The function `xtob`: the byte written by two hexadecimal digits, and whether both are digits. -/
def xtob (x1 x2 : Nat) : Nat × Bool :=
  (((xvalue x1 <<< 4) ||| xvalue x2) % 256, xvalue x1 != 255 && xvalue x2 != 255)

/-- Decode the bytes whose first digits stand at the listed positions of `s`. -/
def xtobAt (s : GoString) : List Nat → Option (List Nat)
  | [] => some []
  | x :: xs =>
    match xtob (s.getD x 0) (s.getD (x + 1) 0), xtobAt s xs with
    | (v, true), some vs => some (v :: vs)
    | _, _ => none

/-- ASCII lower-casing of a byte. -/
def lowerByte (c : Nat) : Nat := if 65 ≤ c ∧ c ≤ 90 then c + 32 else c

/-- The body of `uuid.Parse` for the dashed form, `s` being at least 36 bytes long. -/
def parseDashed (s : GoString) : Option UUID :=
  if s.getD 8 0 != 45 || s.getD 13 0 != 45 || s.getD 18 0 != 45 || s.getD 23 0 != 45 then none
  else xtobAt s [0, 2, 4, 6, 9, 11, 14, 16, 19, 21, 24, 26, 28, 30, 32, 34]

/-- The function `uuid.Parse`; `none` stands for a returned error.  The accepted forms are the
dashed form (36 bytes), the same after `urn:uuid:` in any letter case (45 bytes), the same
between two enclosing bytes, which this version of the library does not inspect (38 bytes),
and 32 hexadecimal digits. -/
def uuidParse (s : GoString) : Option UUID :=
  if s.length = 36 then parseDashed s
  else if s.length = 45 then
    if (s.take 9).map lowerByte = str "urn:uuid:" then parseDashed (s.drop 9) else none
  else if s.length = 38 then parseDashed (s.drop 1)
  else if s.length = 32 then xtobAt s (List.range' 0 16 2)
  else none

/-! ## time: durations -/

/-- A `time.Duration`: a signed 64-bit count of nanoseconds. -/
abbrev Duration := Int

/-- The constant `minDuration`. -/
def minDuration : Duration := -9223372036854775808

/-- The constant `maxDuration`. -/
def maxDuration : Duration := 9223372036854775807

/-- Reduction of an integer into the `int64` range (two's complement wrap-around). -/
def wrap64 (x : Int) : Int := (x + 9223372036854775808) % 18446744073709551616 - 9223372036854775808

/-- The conversion `uint64(x)` of a signed 64-bit value. -/
def toU64 (x : Int) : Nat := (x % 18446744073709551616).toNat

/-- Subtraction of two durations, `a - b` on `int64`. -/
def Duration.sub (a b : Duration) : Duration := wrap64 (a - b)

/-- The constant `time.Second`. -/
def Second : Duration := 1000000000

/-- The constant `time.Minute`. -/
def Minute : Duration := 60000000000

/-- The function `lessThanHalf`: whether `x + x < y` on `uint64`. -/
def lessThanHalf (x y : Duration) : Bool :=
  decide ((toU64 x + toU64 x) % 18446744073709551616 < toU64 y)

/-- The method `Duration.Round`: the multiple of `m` nearest to `d`, halves away from zero,
saturating at the ends of the range; `d` itself when `m` is not positive. -/
def Duration.Round (d m : Duration) : Duration :=
  if m ≤ 0 then d
  else
    let r := Int.tmod d m
    if d < 0 then
      let r := -r
      if lessThanHalf r m then wrap64 (d + r)
      else
        let d1 := wrap64 (wrap64 (d - m) + r)
        if d1 < d then d1 else minDuration
    else
      if lessThanHalf r m then wrap64 (d - r)
      else
        let d1 := wrap64 (wrap64 (d + m) - r)
        if d1 > d then d1 else maxDuration

/-- The decimal digits of a natural number, least significant first, none for zero. -/
def revDigits : Nat → Nat → List Nat
  | 0, _ => []
  | fuel + 1, v => if v = 0 then [] else (48 + v % 10) :: revDigits fuel (v / 10)

/-- The function `fmtInt`: the decimal form of `v`. -/
def fmtInt (v : Nat) : GoString :=
  if v = 0 then [48] else (revDigits 20 v).reverse

/-- The loop of `fmtFrac`: the digits kept so far (most significant first), whether a
non-zero digit has been seen, and what is left of `v`. -/
def fmtFracLoop : Nat → Nat → Bool → GoString → GoString × Bool × Nat
  | 0, v, pr, acc => (acc, pr, v)
  | prec + 1, v, pr, acc =>
    let digit := v % 10
    let pr := pr || digit != 0
    fmtFracLoop prec (v / 10) pr (if pr then (48 + digit) :: acc else acc)

/-- The function `fmtFrac`: the fraction of `v / 10^prec` without trailing zeros (with its
point, or nothing when the fraction is zero), and the integer part. -/
def fmtFrac (v prec : Nat) : GoString × Nat :=
  match fmtFracLoop prec v false [] with
  | (acc, pr, v) => (if pr then 46 :: acc else acc, v)

/-- The method `Duration.String` (what `fmt.Sprintf("%v", d)` prints), such as `12h0m0s`. -/
def Duration.String (d : Duration) : GoString :=
  let neg := decide (d < 0)
  let u := if neg then toU64 (-d) else toU64 d
  let body : GoString :=
    if u < 1000000000 then
      if u = 0 then str "0s"
      else if u < 1000 then fmtInt u ++ str "ns"
      else if u < 1000000 then
        let (frac, v) := fmtFrac u 3
        fmtInt v ++ frac ++ [194, 181] ++ str "s"
      else
        let (frac, v) := fmtFrac u 6
        fmtInt v ++ frac ++ str "ms"
    else
      let (frac, v) := fmtFrac u 9
      let secs := fmtInt (v % 60) ++ frac ++ str "s"
      let v := v / 60
      if v > 0 then
        let mins := fmtInt (v % 60) ++ str "m"
        let v := v / 60
        if v > 0 then fmtInt v ++ str "h" ++ mins ++ secs else mins ++ secs
      else secs
  if neg then 45 :: body else body

/-- Whether a byte is a decimal digit. -/
def isDigitByte (c : Nat) : Bool := decide (48 ≤ c ∧ c ≤ 57)

/-- The function `leadingInt`: the number written by the leading digits and the rest of the
string; `none` when the number exceeds `1 << 63`. -/
def leadingInt : GoString → Nat → Option (Nat × GoString)
  | [], x => some (x, [])
  | c :: cs, x =>
    if !isDigitByte c then some (x, c :: cs)
    else if x > 9223372036854775808 / 10 then none
    else
      let x := x * 10 + (c - 48)
      if x > 9223372036854775808 then none else leadingInt cs x

/-- The position of the highest set bit of `n` (zero for `n ≤ 1`), searched below `fuel`. -/
def log2Fuel : Nat → Nat → Nat
  | 0, _ => 0
  | fuel + 1, n => if n < 2 then 0 else log2Fuel fuel (n / 2) + 1

/-- A `float64` that is neither negative nor a NaN: the finite value `mant * 2 ^ exp`, or
`+Inf`. -/
inductive F64 where
  | finite (mant : Nat) (exp : Int)
  | inf
deriving DecidableEq, Repr

/-- The `float64` nearest to the rational `num / den` (ties to even): a mantissa of 53
bits, of fewer bits below `2 ^ -1022` where the exponent stays at -1074, and `+Inf` when
the rounded value reaches `2 ^ 1024`. -/
def roundF64 (num den : Nat) : F64 :=
  if num = 0 then .finite 0 0
  else
    let scaled (e : Int) : Nat × Nat :=
      if e ≥ 0 then (num, den * 2 ^ e.toNat) else (num * 2 ^ (-e).toNat, den)
    let e0 : Int := (log2Fuel 8192 num : Int) - (log2Fuel 8192 den : Int) - 52
    let e1 := if (scaled e0).1 / (scaled e0).2 < 4503599627370496 then e0 - 1 else e0
    let e := if e1 < -1074 then -1074 else e1
    let n := (scaled e).1
    let d := (scaled e).2
    let m := n / d
    let r := n % d
    let m := if 2 * r > d ∨ (2 * r = d ∧ m % 2 = 1) then m + 1 else m
    if e > 971 ∨ (e = 971 ∧ m ≥ 9007199254740992) then .inf else .finite m e

/-- The conversion `float64(n)` of an unsigned integer. -/
def F64.ofNat (n : Nat) : F64 := roundF64 n 1

/-- The product of two `float64`, rounded once.  A product with `+Inf` is `+Inf`; that of
zero and `+Inf`, a NaN, does not occur in `ParseDuration`. -/
def F64.mul : F64 → F64 → F64
  | .finite ma ea, .finite mb eb =>
    if ea + eb ≥ 0 then roundF64 (ma * mb * 2 ^ (ea + eb).toNat) 1
    else roundF64 (ma * mb) (2 ^ (-(ea + eb)).toNat)
  | _, _ => .inf

/-- The quotient of two `float64`, rounded once.  A finite value divided by `+Inf` is zero;
a quotient by zero does not occur in `ParseDuration`, whose divisor is at least 1. -/
def F64.div : F64 → F64 → F64
  | .finite ma ea, .finite mb eb =>
    if mb = 0 then .inf
    else if ea - eb ≥ 0 then roundF64 (ma * 2 ^ (ea - eb).toNat) mb
    else roundF64 ma (mb * 2 ^ (-(ea - eb)).toNat)
  | .finite _ _, .inf => .finite 0 0
  | .inf, _ => .inf

/-- The conversion `uint64(x)` of a `float64` below `2 ^ 64`: the integer part.  The value
`+Inf` is not converted in `ParseDuration`. -/
def F64.toUint64 : F64 → Nat
  | .finite m e => if e ≥ 0 then m * 2 ^ e.toNat else m / 2 ^ (-e).toNat
  | .inf => 0

/-- The function `leadingFraction`: the number written by the leading digits, the scale (a
`float64` multiplied by ten for every digit taken into the number) and the rest of the
string; digits past the capacity of the accumulator are skipped. -/
def leadingFraction : GoString → Nat → F64 → Bool → Nat × F64 × GoString
  | [], x, scale, _ => (x, scale, [])
  | c :: cs, x, scale, overflow =>
    if !isDigitByte c then (x, scale, c :: cs)
    else if overflow then leadingFraction cs x scale true
    else if x > 9223372036854775807 / 10 then leadingFraction cs x scale true
    else
      let y := x * 10 + (c - 48)
      if y > 9223372036854775808 then leadingFraction cs x scale true
      else leadingFraction cs y (scale.mul (F64.ofNat 10)) false

/-- The expression `uint64(float64(f) * (float64(unit) / scale))` of `ParseDuration`. -/
def fracNanos (f : Nat) (scale : F64) (unit : Nat) : Nat :=
  ((F64.ofNat f).mul ((F64.ofNat unit).div scale)).toUint64

/-- The table `unitMap`: nanoseconds of each unit name. -/
def unitMap (u : GoString) : Option Nat :=
  if u = str "ns" then some 1
  else if u = str "us" then some 1000
  else if u = [194, 181, 115] then some 1000
  else if u = [206, 188, 115] then some 1000
  else if u = str "ms" then some 1000000
  else if u = str "s" then some 1000000000
  else if u = str "m" then some 60000000000
  else if u = str "h" then some 3600000000000
  else none

/-- The unit name at the head of a string: the bytes before the first digit or point. -/
def unitSpan : GoString → GoString × GoString
  | [] => ([], [])
  | c :: cs =>
    if c = 46 ∨ isDigitByte c then ([], c :: cs)
    else ((c :: (unitSpan cs).1), (unitSpan cs).2)

/-- The main loop of `ParseDuration` over the terms `[0-9]*(\.[0-9]*)?[a-z]+`, with the sum
`d` of the terms read so far; every round consumes at least one byte, so a fuel of the
length of the string is never exhausted. -/
def parseDurationLoop : Nat → GoString → Nat → Option Nat
  | 0, s, d => if s = [] then some d else none
  | fuel + 1, s, d =>
    match s with
    | [] => some d
    | c :: _ =>
      if !(c = 46 ∨ isDigitByte c) then none
      else
        match leadingInt s 0 with
        | none => none
        | some (v, s1) =>
          let pre := s.length != s1.length
          let (f, scale, s2, post) :=
            match s1 with
            | 46 :: t =>
              let r := leadingFraction t 0 (F64.ofNat 1) false
              (r.1, r.2.1, r.2.2, t.length != r.2.2.length)
            | _ => (0, F64.ofNat 1, s1, false)
          if !pre && !post then none
          else
            let (u, s3) := unitSpan s2
            if u = [] then none
            else
              match unitMap u with
              | none => none
              | some unit =>
                if v > 9223372036854775808 / unit then none
                else
                  let v := v * unit
                  let v := if f > 0 then (v + fracNanos f scale unit) % 18446744073709551616 else v
                  if f > 0 ∧ v > 9223372036854775808 then none
                  else
                    let d := (d + v) % 18446744073709551616
                    if d > 9223372036854775808 then none
                    else parseDurationLoop fuel s3 d

/-- The function `time.ParseDuration`; `none` stands for a returned error. -/
def ParseDuration (s : GoString) : Option Duration :=
  let (neg, s) :=
    match s with
    | 45 :: t => (true, t)
    | 43 :: t => (false, t)
    | _ => (false, s)
  if s = str "0" then some 0
  else if s = [] then none
  else
    match parseDurationLoop s.length s 0 with
    | none => none
    | some d =>
      if neg then some (wrap64 (-(d : Int)))
      else if d > 9223372036854775807 then none
      else some (d : Int)

/-! ## time: instants -/

/-- A `time.Time` without monotonic clock reading: the instant as nanoseconds since the Unix
epoch, and the offset of its location in seconds east of UTC (used for printing only).
The second counter of Go is a signed 64-bit number, which overflows only some 292 billion
years away from the epoch; the instant is kept here as an exact integer. -/
structure Time where
  unixNano : Int
  offset : Int
deriving DecidableEq, Repr

/-- The method `Time.Add`. -/
def Time.Add (t : Time) (d : Duration) : Time := { t with unixNano := t.unixNano + d }

/-- The method `Time.After`. -/
def Time.After (t u : Time) : Bool := decide (t.unixNano > u.unixNano)

/-- The method `Time.Sub`: the difference `t - u`, saturating at the ends of the range. -/
def Time.Sub (t u : Time) : Duration :=
  let d := t.unixNano - u.unixNano
  if d < minDuration then minDuration else if d > maxDuration then maxDuration else d

/-- Days from the civil date `y-m-d` of the proleptic Gregorian calendar to 1970-01-01. -/
def daysFromCivil (y m d : Int) : Int :=
  let y := if m ≤ 2 then y - 1 else y
  let era := y / 400
  let yoe := y - era * 400
  let doy := (153 * (if m > 2 then m - 3 else m + 9) + 2) / 5 + d - 1
  let doe := yoe * 365 + yoe / 4 - yoe / 100 + doy
  era * 146097 + doe - 719468

/-- The civil date (year, month, day) of a day number counted from 1970-01-01. -/
def civilFromDays (z : Int) : Int × Int × Int :=
  let z := z + 719468
  let era := z / 146097
  let doe := z - era * 146097
  let yoe := (doe - doe / 1460 + doe / 36524 - doe / 146096) / 365
  let doy := doe - (365 * yoe + yoe / 4 - yoe / 100)
  let mp := (5 * doy + 2) / 153
  let d := doy - (153 * mp + 2) / 5 + 1
  let m := if mp < 10 then mp + 3 else mp - 9
  (if m ≤ 2 then yoe + era * 400 + 1 else yoe + era * 400, m, d)

/-- The function `daysIn`: the number of days of a month. -/
def daysIn (m year : Nat) : Nat :=
  if m = 2 then (if year % 4 = 0 ∧ (year % 100 ≠ 0 ∨ year % 400 = 0) then 29 else 28)
  else if m = 4 ∨ m = 6 ∨ m = 9 ∨ m = 11 then 30
  else 31

/-- The function `appendInt`: a decimal number padded with zeros to a width, after its sign. -/
def appendInt (x : Int) (width : Nat) : GoString :=
  let ds := fmtInt x.natAbs
  (if x < 0 then [45] else []) ++ List.replicate (width - ds.length) 48 ++ ds

/-- The method `Time.Format` for the layout `time.RFC3339`, `2006-01-02T15:04:05Z07:00`. -/
def Time.FormatRFC3339 (t : Time) : GoString :=
  let secs := t.unixNano / 1000000000 + t.offset
  let days := secs / 86400
  let rem := secs % 86400
  let (year, month, day) := civilFromDays days
  let zone :=
    if t.offset = 0 then str "Z"
    else
      let z := Int.tdiv t.offset 60
      (if z < 0 then [45] else [43]) ++ appendInt (z.natAbs / 60 : Nat) 2 ++ [58]
        ++ appendInt (z.natAbs % 60 : Nat) 2
  appendInt year 4 ++ [45] ++ appendInt month 2 ++ [45] ++ appendInt day 2 ++ [84]
    ++ appendInt (rem / 3600) 2 ++ [58] ++ appendInt (rem % 3600 / 60) 2 ++ [58]
    ++ appendInt (rem % 60) 2 ++ zone

/-- The function `getnum`: a number of two digits, or of one digit when the width is not
fixed and no second digit follows, and the rest of the string. -/
def getnum (s : GoString) (fixed : Bool) : Option (Nat × GoString) :=
  match s with
  | c0 :: c1 :: rest =>
    if !isDigitByte c0 then none
    else if !isDigitByte c1 then (if fixed then none else some (c0 - 48, c1 :: rest))
    else some ((c0 - 48) * 10 + (c1 - 48), rest)
  | [c0] => if !isDigitByte c0 then none else if fixed then none else some (c0 - 48, [])
  | [] => none

/-- The function `skip` for a one-byte literal of the layout. -/
def skipByte (c : Nat) (s : GoString) : Option GoString :=
  match s with
  | x :: rest => if x = c then some rest else none
  | [] => none

/-- The number written by a sequence of digits. -/
def digitsValue (ds : GoString) : Nat := ds.foldl (fun acc c => acc * 10 + (c - 48)) 0

/-- A fractional second in the input where the layout has none: a point or comma followed
by digits, of which nine count; the nanoseconds and the rest of the string. -/
def parseFraction (s : GoString) : Nat × GoString :=
  match s with
  | c :: d :: rest =>
    if (c = 46 ∨ c = 44) ∧ isDigitByte d then
      let ds := (d :: rest).takeWhile isDigitByte
      let kept := ds.take 9
      (digitsValue kept * 10 ^ (9 - kept.length), (d :: rest).dropWhile isDigitByte)
    else (0, s)
  | _ => (0, s)

/-- The zone of the layout element `Z07:00`: `Z`, or a sign, two digits of hours (at most
24), a colon and two digits of minutes (at most 60); the offset in seconds and the rest. -/
def parseZone (s : GoString) : Option (Int × GoString) :=
  match s with
  | 90 :: rest => some (0, rest)
  | sign :: h1 :: h2 :: colon :: m1 :: m2 :: rest =>
    if colon ≠ 58 then none
    else
      match getnum [h1, h2] true, getnum [m1, m2] true with
      | some (hr, _), some (mm, _) =>
        if hr > 24 ∨ mm > 60 then none
        else if sign = 43 then some ((((hr * 60 + mm) * 60 : Nat) : Int), rest)
        else if sign = 45 then some (-(((hr * 60 + mm) * 60 : Nat) : Int), rest)
        else none
      | _, _ => none
  | _ => none

/-- The layout element `2006`: exactly four digits. -/
def parseYear (s : GoString) : Option (Nat × GoString) :=
  match s with
  | y0 :: y1 :: y2 :: y3 :: rest =>
    if isDigitByte y0 && isDigitByte y1 && isDigitByte y2 && isDigitByte y3
    then some (digitsValue [y0, y1, y2, y3], rest) else none
  | _ => none

/-- A call of `getnum` followed by the range test of its field: `lo ≤ n ≤ hi`. -/
def getnumIn (s : GoString) (fixed : Bool) (lo hi : Nat) : Option (Nat × GoString) :=
  match getnum s fixed with
  | some (n, rest) => if lo ≤ n ∧ n ≤ hi then some (n, rest) else none
  | none => none

/-- The instant of a civil date and clock time at a zone offset. -/
def dateTime (year month day hour min sec nsec : Nat) (zoneOffset : Int) : Time :=
  let secs : Int := daysFromCivil year month day * 86400 + hour * 3600 + min * 60 + sec - zoneOffset
  { unixNano := secs * 1000000000 + nsec, offset := zoneOffset }

/-- The layout elements `2006-01-02`: year, month and day, and the rest of the string.  The
day is any number of two digits here. -/
def parseDate (s : GoString) : Option (Nat × Nat × Nat × GoString) := do
  let (year, s) ← parseYear s
  let s ← skipByte 45 s
  let (month, s) ← getnumIn s true 1 12
  let s ← skipByte 45 s
  let (day, s) ← getnum s true
  some (year, month, day, s)

/-- The layout elements `15:04:05`: hour, minute, second and the nanoseconds of a
fractional second, and the rest of the string.  The hour may be written with one digit. -/
def parseClock (s : GoString) : Option (Nat × Nat × Nat × Nat × GoString) := do
  let (hour, s) ← getnumIn s false 0 23
  let s ← skipByte 58 s
  let (min, s) ← getnumIn s true 0 59
  let s ← skipByte 58 s
  let (sec, s) ← getnumIn s true 0 59
  some (hour, min, sec, (parseFraction s).1, (parseFraction s).2)

/-- The function `time.Parse` for the layout `time.RFC3339`; `none` stands for a returned
error.  As in Go, the hour may be written with one digit, a fractional second may follow
the seconds, and the day of the month is checked against the calendar at the end. -/
def timeParseRFC3339 (s : GoString) : Option Time := do
  let (year, month, day, s) ← parseDate s
  let s ← skipByte 84 s
  let (hour, min, sec, nsec, s) ← parseClock s
  let (zoneOffset, s) ← parseZone s
  if s ≠ [] ∨ day < 1 ∨ day > daysIn month year then none
  else some (dateTime year month day hour min sec nsec zoneOffset)

/-! ## Kubernetes objects and the credential source -/

/-- A `metav1.OwnerReference`. -/
structure OwnerReference where
  APIVersion : GoString
  Kind : GoString
  Name : GoString
  UID : GoString
deriving DecidableEq, Repr

/-- A `corev1.Secret`, with the fields the operator reads or writes.  `OwnerReferences` is a
slice: `none` is the nil slice, `some []` an empty slice that is not nil. -/
structure Secret where
  Name : GoString
  Namespace : GoString
  Annotations : GoMap GoString
  OwnerReferences : Option (List OwnerReference)
  Type_ : GoString
  Data : GoMap GoString

/-- A Go `error` value, known by its message. -/
structure GoError where
  msg : GoString
deriving DecidableEq, Repr

/-- The `ecr.AuthorizationData` of the AWS SDK: three pointer fields, `none` for nil. -/
structure AuthorizationData where
  AuthorizationToken : Option GoString
  ExpiresAt : Option Time
  ProxyEndpoint : Option GoString
deriving DecidableEq, Repr

/-- An `aws.ECRAuthentication`, known by what its method `GetAuthorizationToken` returns:
a pointer to the authorization data (`none` for nil) and an error (`none` for nil). -/
structure ECRAuthentication where
  GetAuthorizationToken : Option AuthorizationData × Option GoError

/-- A `clock.Clock`, known by what its method `Now` returns. -/
structure Clock where
  Now : Time
deriving DecidableEq, Repr

/-- How a call ends: it returns a value, or the goroutine panics (a nil pointer is
dereferenced). -/
inductive Outcome (α : Type) where
  | returned (value : α)
  | panicked

/-! ## internal/ksecret -/

/-- The constant `ANNOTATION_UID`. -/
def ANNOTATION_UID : GoString := str "secrets.fireflycons.io/uuid"

/-- The constant `ANNOTATION_EXPIRES`. -/
def ANNOTATION_EXPIRES : GoString := str "secrets.fireflycons.io/expires"

/-- The constant `ANNOTATION_LIFETIME`. -/
def ANNOTATION_LIFETIME : GoString := str "secrets.fireflycons.io/validity"

/-- The key of the payload in the data of a secret. -/
def dockerConfigKey : GoString := str ".dockerconfigjson"

/-- Compute a UUID based on a hash of the relevant secret content (`GetSecretUuid`). -/
def GetSecretUuid (secret : Secret) : UUID :=
  match secret.Data dockerConfigKey with
  | none => uuidNil
  | some data =>
    match secret.Annotations ANNOTATION_EXPIRES with
    | none => uuidNil
    | some expires =>
      match secret.Annotations ANNOTATION_LIFETIME with
      | none => uuidNil
      | some validity => (FromBytes (md5Sum ((data ++ expires) ++ validity))).1

/-- Check if the secret should be renewed (`IsExpired`). -/
def IsExpired (secret : Secret) (maxAge : Duration) (clock : Clock) : Bool :=
  match secret.Annotations ANNOTATION_EXPIRES with
  | none => false
  | some expires =>
    match timeParseRFC3339 expires with
    | none => true
    | some expireTime =>
      match secret.Annotations ANNOTATION_LIFETIME with
      | none => true
      | some lifetime =>
        match ParseDuration lifetime with
        | none => true
        | some lifeTime =>
          let t1 := expireTime.Add (Duration.sub maxAge lifeTime)
          let now := clock.Now
          secret.OwnerReferences.isSome && now.After t1

/-- Determine if the secret has drifted from desired state (`IsChanged`). -/
def IsChanged (secret : Secret) : Bool :=
  let actualUid := GetSecretUuid secret
  if actualUid = uuidNil then true
  else
    match secret.Annotations ANNOTATION_UID with
    | none => true
    | some uid =>
      match uuidParse uid with
      | none => true
      | some statedUid => statedUid != actualUid

/-- The payload `fmt.Sprintf` renders for a proxy endpoint and an authorization token. -/
def authPayload (proxyEndpoint token : GoString) : GoString :=
  str "\x7b\"auths\":\x7b\"" ++ proxyEndpoint ++ str "\":\x7b\"auth\":\"" ++ token ++ str "\"\x7d\x7d\x7d"

/-- Get the data needed to populate the secret (`GetSecretData`): the annotations, the data
and the error.  On an error both maps are nil. -/
def GetSecretData (ecr : ECRAuthentication) (clock : Clock) :
    Outcome (GoMap GoString × GoMap GoString × Option GoError) :=
  match ecr.GetAuthorizationToken with
  | (_, some err) => .returned (GoMap.empty, GoMap.empty, some err)
  | (none, none) => .panicked
  | (some authData, none) =>
    match authData.ExpiresAt, authData.ProxyEndpoint, authData.AuthorizationToken with
    | some expiresAt, some proxyEndpoint, some token =>
      let validity := (expiresAt.Sub clock.Now).Round Minute
      let anotations : GoMap GoString :=
        ((GoMap.empty.set ANNOTATION_EXPIRES expiresAt.FormatRFC3339).set ANNOTATION_UID
          (str "00000000-0000-0000-0000-000000000000")).set ANNOTATION_LIFETIME validity.String
      let data : GoMap GoString :=
        GoMap.empty.set dockerConfigKey (authPayload proxyEndpoint token)
      .returned (anotations, data, none)
    | _, _, _ => .panicked

/-- Update a secret to desired state (`UpdateSecret`): the secret as the call leaves it and
the error returned. -/
def UpdateSecret (ecr : ECRAuthentication) (secret : Secret) (clock : Clock) :
    Outcome (Secret × Option GoError) :=
  match GetSecretData ecr clock with
  | .panicked => .panicked
  | .returned (_, _, some err) => .returned (secret, some err)
  | .returned (annotations, data, none) =>
    let secret := { secret with Annotations := annotations, Data := data }
    let uid := GetSecretUuid secret
    let annotations := annotations.set ANNOTATION_UID uid.String
    .returned ({ secret with Annotations := annotations }, none)

/-! ## Values of the test suites (`internal/aws/aws.go`, `internal/ksecret/suite_test.go`) -/

/-- Character of the standard base64 alphabet. -/
def b64Char (n : Nat) : Nat :=
  if n < 26 then 65 + n else if n < 52 then 71 + n else if n < 62 then n - 4
  else if n = 62 then 43 else 47

/-- The method `base64.StdEncoding.EncodeToString`. -/
def base64Encode : List Nat → GoString
  | a :: b :: c :: rest =>
    b64Char (a / 4) :: b64Char (a % 4 * 16 + b / 16) :: b64Char (b % 16 * 4 + c / 64)
      :: b64Char (c % 64) :: base64Encode rest
  | [a, b] => [b64Char (a / 4), b64Char (a % 4 * 16 + b / 16), b64Char (b % 16 * 4), 61]
  | [a] => [b64Char (a / 4), b64Char (a % 4 * 16), 61, 61]
  | [] => []

/-- The variable `TEST_REGISTRY`. -/
def TEST_REGISTRY : GoString := str "123456789012.dkr.ecr.eu-west-1.amazonaws.com"

/-- The variable `TEST_USER`. -/
def TEST_USER : GoString := str "jdoe"

/-- The variable `TEST_PASSWORD`. -/
def TEST_PASSWORD : GoString := str "pasword123"

/-- The variable `TEST_EXPIRY`. -/
def TEST_EXPIRY : GoString := str "2023-01-01T12:00:00Z"

/-- The variable `TEST_AUTH_DATA`. -/
def TEST_AUTH_DATA : GoString := base64Encode (TEST_USER ++ str ":" ++ TEST_PASSWORD)

/-- The variable `VALID_LIFETIME`. -/
def VALID_LIFETIME : GoString := str "12h0m0s"

/-- The instant `clock.MustParseTime(TEST_EXPIRY)`: noon of the first of January 2023, UTC. -/
def testExpiryTime : Time := { unixNano := 1672574400000000000, offset := 0 }

/-- The variable `TEST_NOW`: twelve hours before the test expiry. -/
def TEST_NOW : Time := testExpiryTime.Add (-43200000000000)

/-- The mock of the test suites, `MockECRAuthentication`. -/
def MockECRAuthentication : ECRAuthentication :=
  { GetAuthorizationToken :=
      (some { ExpiresAt := some testExpiryTime, AuthorizationToken := some TEST_AUTH_DATA,
              ProxyEndpoint := some TEST_REGISTRY }, none) }

/-- The failing source of the test suite, `errorECRAuthentication`. -/
def errorECRAuthentication : ECRAuthentication :=
  { GetAuthorizationToken := (none, some { msg := str "Error" }) }

/-- The secret every test starts from: a name and the docker type, nothing else. -/
def testSecret : Secret :=
  { Name := str "test", Namespace := [], Annotations := GoMap.empty, OwnerReferences := none,
    Type_ := str "kubernetes.io/dockerconfigjson", Data := GoMap.empty }

/-- The secret a call leaves behind, the secret given when the call panics. -/
def secretAfter (given : Secret) : Outcome (Secret × Option GoError) → Secret
  | .returned (s, _) => s
  | .panicked => given

/-- The test secret after `prepareUpdateSecret`: updated from the mock at `TEST_NOW`. -/
def preparedSecret : Secret :=
  secretAfter testSecret (UpdateSecret MockECRAuthentication testSecret { Now := TEST_NOW })

/-- An owner reference to a declared resource. -/
def testOwner : OwnerReference :=
  { APIVersion := str "secrets.fireflycons.io/v1beta1", Kind := str "ECRSecret",
    Name := str "test", UID := str "d9607e19-f88f-11e6-a518-42010a800195" }

/-- An instant of the first of March 2023 (UTC), `sec` seconds after midnight. -/
def march1 (sec : Int) : Time := { unixNano := (1677628800 + sec) * 1000000000, offset := 0 }

/-- The test secret with given timing annotations and owner references. -/
def timedSecret (expires lifetime : GoString) (owners : Option (List OwnerReference)) : Secret :=
  { testSecret with
    Annotations := (GoMap.empty.set ANNOTATION_EXPIRES expires).set ANNOTATION_LIFETIME lifetime
    OwnerReferences := owners }

/-- The secret of the test "Does not need renewal if lifetime annotation is missing": an
expires annotation, no validity annotation, no owner reference. -/
def noLifetimeSecret : Secret :=
  { testSecret with Annotations := GoMap.empty.set ANNOTATION_EXPIRES (str "2023-01-01T20:00:00Z") }

/-- The test secret with a payload and timing annotations, without uuid annotation. -/
def contentSecret (payload expires lifetime : GoString) : Secret :=
  { testSecret with
    Annotations := (GoMap.empty.set ANNOTATION_EXPIRES expires).set ANNOTATION_LIFETIME lifetime
    Data := GoMap.empty.set dockerConfigKey payload }


/-! ## strings and unicode/utf8 -/

/-- The function `strings.Split` for the separator `"."`: the pieces between the dots, one
more than there are dots. -/
def splitDot : GoString → List GoString
  | [] => [[]]
  | c :: cs =>
    if c = 46 then [] :: splitDot cs
    else
      match splitDot cs with
      | piece :: pieces => (c :: piece) :: pieces
      | [] => [[c]]

/-- The function `strings.Join`. -/
def stringsJoin : List GoString → GoString → GoString
  | [], _ => []
  | [a], _ => a
  | a :: b :: rest, sep => a ++ sep ++ stringsJoin (b :: rest) sep

/-- The constant `utf8.RuneError`. -/
def RuneError : Nat := 65533

/-- Whether a byte is a UTF-8 continuation byte, `0x80` to `0xBF`. -/
def isCont (b : Nat) : Bool := decide (128 ≤ b ∧ b ≤ 191)

/-- The function `utf8.DecodeRuneInString`: the first rune of a string and its width in
bytes; an invalid or incomplete encoding gives `RuneError` of width 1, the empty string
`RuneError` of width 0. -/
def decodeRune (s : GoString) : Nat × Nat :=
  match s with
  | [] => (RuneError, 0)
  | s0 :: rest =>
    if s0 < 128 then (s0, 1)
    else if s0 < 194 ∨ s0 > 244 then (RuneError, 1)
    else
      let sz := if s0 < 224 then 2 else if s0 < 240 then 3 else 4
      let lo := if s0 = 224 then 160 else if s0 = 240 then 144 else 128
      let hi := if s0 = 237 then 159 else if s0 = 244 then 143 else 191
      if rest.length + 1 < sz then (RuneError, 1)
      else
        let s1 := rest.getD 0 0
        let s2 := rest.getD 1 0
        let s3 := rest.getD 2 0
        if s1 < lo ∨ hi < s1 then (RuneError, 1)
        else if sz = 2 then ((s0 % 32) * 64 + s1 % 64, 2)
        else if !isCont s2 then (RuneError, 1)
        else if sz = 3 then ((s0 % 16) * 4096 + (s1 % 64) * 64 + s2 % 64, 3)
        else if !isCont s3 then (RuneError, 1)
        else ((s0 % 8) * 262144 + (s1 % 64) * 4096 + (s2 % 64) * 64 + s3 % 64, 4)

/-- The loop of `utf8.DecodeLastRuneInString` that walks back from `start` to the limit
`lim` until a byte that starts a rune; the index it stops at, as an integer. -/
def lastRuneStart (s : GoString) (lim : Nat) : Nat → Int
  | 0 => if 0 < lim then 0 else if !isCont (s.getD 0 0) then 0 else -1
  | start + 1 =>
    if start + 1 < lim then ((start + 1 : Nat) : Int)
    else if !isCont (s.getD (start + 1) 0) then ((start + 1 : Nat) : Int)
    else lastRuneStart s lim start

/-- The function `utf8.DecodeLastRuneInString`: the last rune of a string and its width. -/
def decodeLastRune (s : GoString) : Nat × Nat :=
  let «end» := s.length
  if «end» = 0 then (RuneError, 0)
  else
    let r := s.getD («end» - 1) 0
    if r < 128 then (r, 1)
    else
      let lim := «end» - 4
      let start : Int := if «end» < 2 then -1 else lastRuneStart s lim («end» - 2)
      let start := if start < 0 then 0 else start.toNat
      let d := decodeRune (s.drop start)
      if start + d.2 ≠ «end» then (RuneError, 1) else d

/-- The function `unicode.IsSpace`. -/
def isSpaceRune (r : Nat) : Bool :=
  decide ((9 ≤ r ∧ r ≤ 13) ∨ r = 32 ∨ r = 133 ∨ r = 160 ∨ r = 5760 ∨ (8192 ≤ r ∧ r ≤ 8202)
    ∨ r = 8232 ∨ r = 8233 ∨ r = 8239 ∨ r = 8287 ∨ r = 12288)

/-- The function `strings.TrimLeftFunc` for `unicode.IsSpace`; the fuel is the length of
the string, every round dropping at least one byte. -/
def trimLeftSpace : Nat → GoString → GoString
  | 0, _ => []
  | fuel + 1, s =>
    if s = [] then []
    else if isSpaceRune (decodeRune s).1 then trimLeftSpace fuel (s.drop (decodeRune s).2)
    else s

/-- The function `lastIndexFunc` for `unicode.IsSpace` and the truth value false: the start
of the last rune of the first `i` bytes that is not white space, `none` when there is none;
the fuel is `i`. -/
def lastIndexNotSpace (s : GoString) : Nat → Nat → Option Nat
  | 0, _ => none
  | fuel + 1, i =>
    if i = 0 then none
    else
      let d := decodeLastRune (s.take i)
      if !isSpaceRune d.1 then some (i - d.2) else lastIndexNotSpace s fuel (i - d.2)

/-- The function `strings.TrimRightFunc` for `unicode.IsSpace`. -/
def trimRightSpace (s : GoString) : GoString :=
  match lastIndexNotSpace s s.length s.length with
  | none => []
  | some i => if s.getD i 0 ≥ 128 then s.take (i + (decodeRune (s.drop i)).2) else s.take (i + 1)

/-- The function `strings.TrimSpace`: all leading and trailing white space removed, as
defined by Unicode.  (The byte loops Go runs first for ASCII give the same result.) -/
def TrimSpace (s : GoString) : GoString := trimRightSpace (trimLeftSpace s.length s)

/-! ## internal/config -/

/-- The type `aws.Credentials`. -/
structure Credentials where
  AccessKeyID : GoString
  SecretAccessKey : GoString
deriving DecidableEq, Repr

/-- The type `Configuration`, `map[string]map[string]string`: the decoded configuration. -/
abbrev Configuration := GoMap (GoMap GoString)

/-- The constant `ACCESS_KEY`. -/
def ACCESS_KEY : GoString := str "access_key"

/-- The constant `SECRET_KEY`. -/
def SECRET_KEY : GoString := str "secret_key"

/-- The message `fmt.Sprintf(ERROR_FMT_MISSING_CREDS, accountId)`. -/
def missingCredsMessage (accountId : GoString) : GoString :=
  str "FATAL: Credentials for account '" ++ accountId ++ str "' not present in configuration"

/-- The message `fmt.Sprintf(ERROR_FMT_MISSING_KEY, key)`. -/
def missingKeyMessage (key : GoString) : GoString :=
  str "'" ++ key ++ str "' missing from config"

/-- Load creds for given AWS account from config (`LoadCredentials`).  The reader is known
by what the TOML decoder makes of it: an error, or the decoded table.  The result is the
pair of the credentials pointer and the error, `none` for nil. -/
def LoadCredentials (config : Except GoError Configuration) (accountId : GoString) :
    Option Credentials × Option GoError :=
  match config with
  | .error err => (none, some err)
  | .ok configuration =>
    match configuration accountId with
    | none => (none, some { msg := missingCredsMessage accountId })
    | some creds =>
      match creds ACCESS_KEY, creds SECRET_KEY with
      | some access_key, some secret_key =>
        (some { AccessKeyID := access_key, SecretAccessKey := secret_key }, none)
      | ok1, ok2 =>
        let errors : List GoString := []
        let errors := if ok1.isNone then errors ++ [missingKeyMessage ACCESS_KEY] else errors
        let errors := if ok2.isNone then errors ++ [missingKeyMessage SECRET_KEY] else errors
        (none, some { msg := str "FATAL: " ++ stringsJoin errors (str ", ") })

/-! ## api/v1beta1 and the client -/

/-- The type `ECRSecretSpec`. -/
structure ECRSecretSpec where
  Registry : GoString
  SecretName : GoString
deriving DecidableEq, Repr

/-- The type `ECRSecret`, with the metadata the operator reads. -/
structure ECRSecret where
  Name : GoString
  Namespace : GoString
  UID : GoString
  Spec : ECRSecretSpec
deriving DecidableEq, Repr

/-- A `types.NamespacedName`. -/
structure NamespacedName where
  Namespace : GoString
  Name : GoString
deriving DecidableEq, Repr

/-- An error returned by the client, with what `apierrs.IsNotFound` and
`errors.As(err, &cache.ErrCacheNotStarted{})` report on it. -/
structure ClientError where
  err : GoError
  IsNotFound : Bool
  IsCacheNotStarted : Bool
deriving DecidableEq, Repr

/-- A `client.Client`, known by what its calls return. -/
structure Client where
  GetECRSecret : NamespacedName → Except ClientError ECRSecret
  GetSecret : NamespacedName → Except ClientError Secret
  Create : Secret → Option GoError
  Update : Secret → Option GoError
  ListNamespaces : Except ClientError (List GoString)
  ListSecrets : GoString → Except ClientError (List Secret)

/-! ## controllers: the reconciler -/

/-- The field `Auth` of the reconciler as `Reconcile` uses it: `SetCredentials` returns an
error or nil, and leaves a credential source known by what `GetAuthorizationToken` then
returns. -/
structure ReconcilerAuth where
  SetCredentials : Credentials → GoString → Option GoError × ECRAuthentication

/-- The type `ECRSecretReconciler`.  `Scheme` is known by what it gives for the kind of
`ECRSecret` (an API version and a kind, or an error); `ConfigFile` by what `os.Open` gives
for it (an error, or a stream known by what the TOML decoder makes of it).  The clock is
known by the reading it gives during the call. -/
structure ECRSecretReconciler where
  Client : Client
  Scheme : Except GoError (GoString × GoString)
  ConfigFile : Except GoError (Except GoError Configuration)
  MaxAge : Duration
  Clock : Clock
  Auth : ReconcilerAuth

/-- Get the name for the Kubernetes docker-registry secret (`getKubeSecretName`). -/
def getKubeSecretName (ecrSecret : ECRSecret) : GoString :=
  if (TrimSpace ecrSecret.Spec.SecretName).length > 0 then ecrSecret.Spec.SecretName
  else ecrSecret.Name ++ str "-secret"

/-- The function `ctrl.SetControllerReference` on a secret of the namespace of its owner
that has no owner reference yet: the secret with the reference to its owner, and the error
(the scheme does not know the kind of the owner).  The two flags of the reference, both
true, are not kept. -/
def SetControllerReference (owner : ECRSecret) (secret : Secret)
    (scheme : Except GoError (GoString × GoString)) : Secret × Option GoError :=
  match scheme with
  | .error err => (secret, some err)
  | .ok (apiVersion, kind) =>
    ({ secret with
        OwnerReferences := some (secret.OwnerReferences.getD [] ++
          [{ APIVersion := apiVersion, Kind := kind, Name := owner.Name, UID := owner.UID }]) },
      none)

/-- Build the kube-secret and make it owned by this custom resource (`constructSecret`):
the pointer to the secret and the error. -/
def constructSecret (r : ECRSecretReconciler) (owner : ECRSecret) (ecr : ECRAuthentication)
    (clock : Clock) : Outcome (Option Secret × Option GoError) :=
  match GetSecretData ecr clock with
  | .panicked => .panicked
  | .returned (_, _, some err) => .returned (none, some err)
  | .returned (annotations, data, none) =>
    let secret : Secret :=
      { Name := getKubeSecretName owner, Namespace := owner.Namespace,
        Annotations := annotations, OwnerReferences := none,
        Type_ := str "kubernetes.io/dockerconfigjson", Data := data }
    match SetControllerReference owner secret r.Scheme with
    | (_, some err) => .returned (none, some err)
    | (secret, none) => .returned (some secret, none)

/-- The function literal of `Reconcile` that takes the account id and the region out of the
registry: components 0 and 3 of the split on dots; with fewer than four components the
index is out of range. -/
def registryParts (registry : GoString) : Outcome (GoString × GoString) :=
  let arr := splitDot registry
  match arr.get? 0, arr.get? 3 with
  | some accountId, some region => .returned (accountId, region)
  | _, _ => .panicked

/-- A write submitted to the API server. -/
inductive Write where
  | create (secret : Secret)
  | update (secret : Secret)

/-- How a call of `Reconcile` ends: it returns an error or nil, having submitted some
writes; the process exits (`os.Exit(1)`); or the goroutine panics. -/
inductive ReconcileOutcome where
  | returned (writes : List Write) (err : Option GoError)
  | exited
  | panicked

/-- The branch of `Reconcile` for an owned secret that exists (`err == nil`). -/
def reconcileFound (r : ECRSecretReconciler) (auth : ECRAuthentication) (foundSecret : Secret) :
    ReconcileOutcome :=
  if IsChanged foundSecret || IsExpired foundSecret r.MaxAge r.Clock then
    match UpdateSecret auth foundSecret r.Clock with
    | .panicked => .panicked
    | .returned (_, some err) => .returned [] (some err)
    | .returned (foundSecret, none) => .returned [.update foundSecret] (r.Client.Update foundSecret)
  else .returned [] none

/-- The branch of `Reconcile` for an owned secret that does not exist yet. -/
def reconcileCreate (r : ECRSecretReconciler) (auth : ECRAuthentication) (ecrSecret : ECRSecret) :
    ReconcileOutcome :=
  match constructSecret r ecrSecret auth r.Clock with
  | .panicked => .panicked
  | .returned (_, some err) => .returned [] (some err)
  | .returned (none, none) => .panicked
  | .returned (some secret, none) =>
    let id := GetSecretUuid secret
    let secret := { secret with Annotations := secret.Annotations.set ANNOTATION_UID id.String }
    .returned [.create secret] (r.Client.Create secret)

/-- The method `Reconcile`. -/
def Reconcile (r : ECRSecretReconciler) (req : NamespacedName) : ReconcileOutcome :=
  match r.Client.GetECRSecret req with
  | .error e => if e.IsNotFound then .returned [] none else .returned [] (some e.err)
  | .ok ecrSecret =>
    match registryParts ecrSecret.Spec.Registry with
    | .panicked => .panicked
    | .returned (accountId, region) =>
      match r.ConfigFile with
      | .error _ => .exited
      | .ok configStream =>
        match LoadCredentials configStream accountId with
        | (_, some _) => .exited
        | (none, none) => .panicked
        | (some credentials, none) =>
          match r.Auth.SetCredentials credentials region with
          | (some err, _) => .returned [] (some err)
          | (none, auth) =>
            match r.Client.GetSecret
              { Name := getKubeSecretName ecrSecret, Namespace := ecrSecret.Namespace } with
            | .error e =>
              if e.IsNotFound then reconcileCreate r auth ecrSecret
              else .returned [] (some e.err)
            | .ok foundSecret => reconcileFound r auth foundSecret

/-! ## controllers: the renewal scanner -/

/-- The type `RenewalEvent`, with the fields a sweep reads.  The clock is known by the
reading it gives during the sweep; the events sent on the channel are what a sweep
returns here. -/
structure RenewalEvent where
  client : Client
  maxAge : Duration
  Clock : Clock

/-- The function `CreateRenewalEvent`: the fields it sets are the context, the logger, the
client, the lock, the channel and the clock (a `clock.RealClock`, whose reading is a
parameter here); `maxAge` is left at its zero value. -/
def CreateRenewalEvent (client : Client) (realClock : Clock) : RenewalEvent :=
  { client := client, maxAge := 0, Clock := realClock }

/-- The renewal scanner that `SetupWithManager` starts for a reconciler: it is made by
`CreateRenewalEvent` from the client of the manager and a fresh channel. -/
def SetupWithManager (_r : ECRSecretReconciler) (mgrClient : Client) (realClock : Clock) :
    RenewalEvent :=
  CreateRenewalEvent mgrClient realClock

/-- What a sweep has done when it ends: the declared resources of the events sent on the
channel, in order; whether it ended in a panic; the error returned otherwise. -/
structure PollResult where
  sent : List ECRSecret
  panicked : Bool
  err : Option GoError
deriving DecidableEq, Repr

/-- The inner loop of `pollSecrets` over the secrets of a namespace: the events sent, and
whether the loop panicked (the owner list indexed at 0 is empty). -/
def pollSecretItems (t : RenewalEvent) : List Secret → List ECRSecret × Bool
  | [] => ([], false)
  | secret :: rest =>
    if secret.Type_ ≠ str "kubernetes.io/dockerconfigjson" then pollSecretItems t rest
    else if IsExpired secret t.maxAge t.Clock then
      match secret.OwnerReferences.getD [] with
      | [] => ([], true)
      | owner :: _ =>
        match t.client.GetECRSecret { Name := owner.Name, Namespace := secret.Namespace } with
        | .error _ => pollSecretItems t rest
        | .ok ecrSecret =>
          (ecrSecret :: (pollSecretItems t rest).1, (pollSecretItems t rest).2)
    else pollSecretItems t rest

/-- The outer loop of `pollSecrets` over the namespaces. -/
def pollNamespaces (t : RenewalEvent) : List GoString → List ECRSecret × Bool
  | [] => ([], false)
  | ns :: rest =>
    match t.client.ListSecrets ns with
    | .error _ => pollNamespaces t rest
    | .ok items =>
      match pollSecretItems t items with
      | (sent, true) => (sent, true)
      | (sent, false) => (sent ++ (pollNamespaces t rest).1, (pollNamespaces t rest).2)

/-- The method `pollSecrets`, one sweep of the scanner. -/
def pollSecrets (t : RenewalEvent) : PollResult :=
  match t.client.ListNamespaces with
  | .error e =>
    if e.IsCacheNotStarted then { sent := [], panicked := false, err := none }
    else { sent := [], panicked := false, err := some e.err }
  | .ok namespaces =>
    { sent := (pollNamespaces t namespaces).1, panicked := (pollNamespaces t namespaces).2,
      err := none }

/-! ## The spec's arithmetic -/

/-- The multiple of `m` nearest to `d`, halves away from zero, in exact arithmetic. -/
def roundHalfAway (d m : Int) : Int :=
  if 0 ≤ d then (2 * d + m) / (2 * m) * m else -((2 * (-d) + m) / (2 * m) * m)

/-- An integer brought into the signed 64-bit range by saturation. -/
def clamp64 (x : Int) : Int :=
  if x < minDuration then minDuration else if x > maxDuration then maxDuration else x

/-! ## Values of the test suites (`internal/config`, `controllers`) -/

/-- The zero value `time.Time{}`, what an unset `clock.TestClock` reads: the first of
January of the year 1, UTC. -/
def zeroTime : Time := { unixNano := -62135596800000000000, offset := 0 }

/-- The configuration of the test "Configuration Load Scenarios". -/
def testConfiguration : Configuration :=
  (GoMap.empty.set (str "123456789012")
      ((GoMap.empty.set ACCESS_KEY (str "AKAIEXAMPLE1")).set SECRET_KEY (str "secretEXAMPLE1"))).set
    (str "2109878654321")
      ((GoMap.empty.set ACCESS_KEY (str "AKAIEXAMPLE2")).set SECRET_KEY (str "secretEXAMPLE2"))

/-- The configuration of the test "Should fail when access_key not found". -/
def noAccessKeyConfiguration : Configuration :=
  GoMap.empty.set (str "123456789012")
    ((GoMap.empty.set (str "accesskey") (str "AKAIEXAMPLE")).set SECRET_KEY (str "dsfdsfdfEXAMPLE"))

/-- The declared resource of the test "Should create secret". -/
def testECRSecret : ECRSecret :=
  { Name := str "test-secret", Namespace := str "default",
    UID := str "d9607e19-f88f-11e6-a518-42010a800195",
    Spec := { Registry := TEST_REGISTRY, SecretName := str "test-secret" } }

/-- The annotations a call of `GetSecretData` returns, the nil map when it panics. -/
def annotationsOf : Outcome (GoMap GoString × GoMap GoString × Option GoError) → GoMap GoString
  | .returned (annotations, _, _) => annotations
  | .panicked => GoMap.empty

/-- The data a call of `GetSecretData` returns, the nil map when it panics. -/
def dataOf : Outcome (GoMap GoString × GoMap GoString × Option GoError) → GoMap GoString
  | .returned (_, data, _) => data
  | .panicked => GoMap.empty

/-- The declared resource of the tests "Get Secret Name": the name `test` and a secret name. -/
def namedECRSecret (secretName : GoString) : ECRSecret :=
  { Name := str "test", Namespace := str "", UID := str "",
    Spec := { Registry := str "", SecretName := secretName } }

/-- A client of a cluster that holds the declared resource of the test and, under the name
`test-secret`, the secret given (none: the secret is not found); writes succeed. -/
def testClient (existing : Option Secret) : Client :=
  { GetECRSecret := fun _ => .ok testECRSecret
    GetSecret := fun _ =>
      match existing with
      | some s => .ok s
      | none => .error { err := { msg := str "not found" }, IsNotFound := true,
                         IsCacheNotStarted := false }
    Create := fun _ => none
    Update := fun _ => none
    ListNamespaces := .ok [str "default"]
    ListSecrets := fun _ => .ok existing.toList }

/-- The reconciler of the controller suite: maximum age four hours, the mock source, and a
clock set to the reading given. -/
def testReconciler (existing : Option Secret) (now : Time) : ECRSecretReconciler :=
  { Client := testClient existing
    Scheme := .ok (str "secrets.fireflycons.io/v1beta1", str "ECRSecret")
    ConfigFile := .ok (.ok testConfiguration)
    MaxAge := 14400000000000
    Clock := { Now := now }
    Auth := { SetCredentials := fun _ _ => (none, MockECRAuthentication) } }

/-- The request for the declared resource of the test. -/
def testRequest : NamespacedName := { Namespace := str "default", Name := str "test-secret" }

/-- The secrets a call of `Reconcile` submitted for creation. -/
def createdSecrets : ReconcileOutcome → List Secret
  | .returned writes _ =>
    writes.filterMap fun w =>
      match w with
      | .create s => some s
      | .update _ => none
  | _ => []

/-- The test secret with a payload, timing annotations and, as uuid annotation, the
canonical string of the UID of that content. -/
def stampedSecret (payload expires lifetime : GoString) : Secret :=
  { contentSecret payload expires lifetime with
    Annotations := (contentSecret payload expires lifetime).Annotations.set ANNOTATION_UID
      (GetSecretUuid (contentSecret payload expires lifetime)).String }


/-! ## Values for the frame of `UpdateSecret` and the renewal of a fresh secret -/

/-- The test secret with an owner reference, a foreign annotation and a foreign data key. -/
def crowdedSecret : Secret :=
  { testSecret with
    Annotations := GoMap.empty.set (str "example.com/note") (str "kept by hand")
    OwnerReferences := some [testOwner]
    Data := GoMap.empty.set (str "other") (str "bytes") }

/-- The test secret with one owner reference, as `Reconcile` creates it. -/
def ownedSecret : Secret := { testSecret with OwnerReferences := some [testOwner] }

/-- The first instant of the year 2400 (UTC), some 377 years after the expiry of the mock. -/
def YEAR_2400 : Time := { unixNano := 13569465600000000000, offset := 0 }

/-- A credential source like the mock, with another expiry. -/
def mockExpiringAt (expiresAt : Time) : ECRAuthentication :=
  { GetAuthorizationToken :=
      (some { ExpiresAt := some expiresAt, AuthorizationToken := some TEST_AUTH_DATA,
              ProxyEndpoint := some TEST_REGISTRY }, none) }

/-- The expiry of the mock in a zone 59 seconds west of UTC, as `time.FixedZone` gives. -/
def EXPIRY_WEST_59 : Time := { unixNano := 1672574400000000000, offset := -59 }

/-- The first instant of the year 10000 (UTC). -/
def YEAR_10000 : Time := { unixNano := 253402300800000000000, offset := 0 }

/-! ## The validation pattern of the registry (`api/v1beta1`)

The marker `+kubebuilder:validation:Pattern` on `ECRSecretSpec.Registry` carries a regular
expression of the RE2 syntax of Go, which the API server matches against the whole field.
A piece of the expression is a function from a text to the rests that a match of the piece
at the head of the text can leave, so that alternatives are all followed. -/

/-- A piece of a regular expression: the rests of the text after each of its matches at the
head of the text. -/
abbrev Matcher := GoString → List GoString

/-- A literal text, such as `\.` or `dkr`. -/
def reLit (w : GoString) : Matcher :=
  fun s => if s.take w.length = w then [s.drop w.length] else []

/-- The class `\d`: one ASCII digit. -/
def reDigit : Matcher
  | [] => []
  | c :: rest => if isDigitByte c then [rest] else []

/-- The unescaped `.`: one code point other than the line feed; a byte that is no valid
UTF-8 reads as U+FFFD of width one, which the class contains. -/
def reAny : Matcher :=
  fun s => if s = [] then [] else if (decodeRune s).1 = 10 then [] else [s.drop (decodeRune s).2]

/-- Two pieces in sequence. -/
def reSeq (a b : Matcher) : Matcher :=
  fun s => (a s).foldr (fun r acc => b r ++ acc) []

/-- The pieces of a list in sequence. -/
def reConcat : List Matcher → Matcher
  | [] => fun s => [s]
  | a :: rest => reSeq a (reConcat rest)

/-- The alternatives `a|b|...`. -/
def reAlt : List Matcher → Matcher
  | [] => fun _ => []
  | a :: rest => fun s => a s ++ reAlt rest s

/-- An optional piece, `(a)?`. -/
def reOpt (a : Matcher) : Matcher := fun s => a s ++ [s]

/-- A piece repeated a fixed number of times, `a{n}`. -/
def reRepeat : Nat → Matcher → Matcher
  | 0, _ => fun s => [s]
  | n + 1, a => reSeq a (reRepeat n a)

/-- The group `(ap|ca|eu|sa|us(-gov)?)` of the pattern. -/
def reArea : Matcher :=
  reAlt [reLit (str "ap"), reLit (str "ca"), reLit (str "eu"), reLit (str "sa"),
    reSeq (reLit (str "us")) (reOpt (reLit (str "-gov")))]

/-- The group `(east|northeast|southeast|north|south|southeast|central|west)` of the
pattern. -/
def reDirection : Matcher :=
  reAlt [reLit (str "east"), reLit (str "northeast"), reLit (str "southeast"),
    reLit (str "north"), reLit (str "south"), reLit (str "southeast"), reLit (str "central"),
    reLit (str "west")]

/-- The pattern between `^` and `$`:
`\d{12}\.dkr.ecr.(ap|...)-(east|...)-\d\.amazonaws\.com`.  The dots after `dkr` and after
`ecr` are not escaped in the source. -/
def registryPieces : Matcher :=
  reConcat [reRepeat 12 reDigit, reLit (str "."), reLit (str "dkr"), reAny, reLit (str "ecr"),
    reAny, reArea, reLit (str "-"), reDirection, reLit (str "-"), reDigit, reLit (str "."),
    reLit (str "amazonaws"), reLit (str "."), reLit (str "com")]

/-- Whether a registry passes the validation pattern of `ECRSecretSpec.Registry`: some match
of the pieces from the start of the text (`^`) leaves nothing of it (`$`). -/
def registryPattern (registry : GoString) : Bool :=
  (registryPieces registry).any (fun rest => rest.isEmpty)

/-- The region segment that the pattern matches in a registry: what the groups
`(ap|...)-(east|...)-\d` take, after the sixteen bytes `\d{12}\.dkr` and the two code
points around `ecr`. -/
def regionSegment (registry : GoString) : List GoString :=
  (reConcat [reRepeat 12 reDigit, reLit (str "."), reLit (str "dkr"), reAny, reLit (str "ecr"),
    reAny] registry).foldr
    (fun s acc =>
      ((reConcat [reArea, reLit (str "-"), reDirection, reLit (str "-"), reDigit] s).filter
        (fun rest => rest == str ".amazonaws.com")).map
        (fun rest => s.take (s.length - rest.length)) ++ acc) []

/-- A registry in which other bytes stand where the pattern has its unescaped dots. -/
def SLIP_REGISTRY : GoString := str "123456789012.dkrXecrXeu-west-1.amazonaws.com"

/-! ## Lemmas on the library routines -/

theorem leBytes_length (x n : Nat) : (leBytes x n).length = n := by
  simp [leBytes]

theorem leBytes_lt (x n : Nat) : ∀ b ∈ leBytes x n, b < 256 := by
  intro b hb
  simp only [leBytes, List.mem_map] at hb
  obtain ⟨k, _, rfl⟩ := hb
  exact Nat.mod_lt _ (by decide)

theorem md5Sum_length (msg : List Nat) : (md5Sum msg).length = 16 := by
  simp [md5Sum, leBytes_length]

theorem md5Sum_lt (msg : List Nat) : ∀ b ∈ md5Sum msg, b < 256 := by
  intro b hb
  simp only [md5Sum, List.mem_append] at hb
  rcases hb with ((hb | hb) | hb) | hb <;> exact leBytes_lt _ _ b hb

theorem FromBytes_md5Sum (msg : List Nat) : FromBytes (md5Sum msg) = (md5Sum msg, false) := by
  simp [FromBytes, md5Sum_length]

set_option maxRecDepth 100000 in
theorem xtob_hexDigit : ∀ b < 256, xtob (hexDigit (b / 16)) (hexDigit (b % 16)) = (b, true) := by
  decide!

/-- Parsing the canonical string of a UUID gives the UUID back. -/
theorem uuidParse_String (u : UUID) (hlen : u.length = 16) (hlt : ∀ b ∈ u, b < 256) :
    uuidParse u.String = some u := by
  match u, hlen with
  | [b0, b1, b2, b3, b4, b5, b6, b7, b8, b9, b10, b11, b12, b13, b14, b15], _ =>
    simp only [List.mem_cons, List.mem_singleton, forall_eq_or_imp, forall_eq,
      List.not_mem_nil] at hlt
    obtain ⟨h0, h1, h2, h3, h4, h5, h6, h7, h8, h9, h10, h11, h12, h13, h14, h15, -⟩ := hlt
    simp [uuidParse, UUID.String, encodeHex, parseDashed, xtobAt, xtob_hexDigit, *]

theorem wrap64_of_inRange (x : Int) (hlo : minDuration ≤ x) (hhi : x ≤ maxDuration) :
    wrap64 x = x := by
  have h1 : (-9223372036854775808 : Int) ≤ x := hlo
  have h2 : x ≤ (9223372036854775807 : Int) := hhi
  unfold wrap64
  omega

/-! ## Lemmas on `GetSecretUuid` -/

theorem GetSecretUuid_of_present (secret : Secret) (payload expires lifetime : GoString)
    (hd : secret.Data dockerConfigKey = some payload)
    (he : secret.Annotations ANNOTATION_EXPIRES = some expires)
    (hl : secret.Annotations ANNOTATION_LIFETIME = some lifetime) :
    GetSecretUuid secret = md5Sum (payload ++ expires ++ lifetime) := by
  simp [GetSecretUuid, hd, he, hl, FromBytes_md5Sum]

theorem GetSecretUuid_of_absent (secret : Secret)
    (h : secret.Data dockerConfigKey = none ∨ secret.Annotations ANNOTATION_EXPIRES = none
      ∨ secret.Annotations ANNOTATION_LIFETIME = none) :
    GetSecretUuid secret = uuidNil := by
  unfold GetSecretUuid
  rcases h with h | h | h
  · simp [h]
  · cases secret.Data dockerConfigKey <;> simp [h]
  · cases secret.Data dockerConfigKey <;> cases secret.Annotations ANNOTATION_EXPIRES <;> simp [h]

theorem GetSecretUuid_length (secret : Secret) : (GetSecretUuid secret).length = 16 := by
  unfold GetSecretUuid
  cases secret.Data dockerConfigKey <;> cases secret.Annotations ANNOTATION_EXPIRES <;>
    cases secret.Annotations ANNOTATION_LIFETIME <;>
    simp [uuidNil, FromBytes_md5Sum, md5Sum_length]

theorem GetSecretUuid_lt (secret : Secret) : ∀ b ∈ GetSecretUuid secret, b < 256 := by
  unfold GetSecretUuid
  cases secret.Data dockerConfigKey <;> cases secret.Annotations ANNOTATION_EXPIRES <;>
    cases secret.Annotations ANNOTATION_LIFETIME <;>
    simp only [uuidNil, FromBytes_md5Sum, List.mem_replicate] <;>
    first
      | exact md5Sum_lt _
      | (rintro b ⟨-, rfl⟩; decide)

/-! ## Drift detection: `IsChanged` and `GetSecretUuid` -/

/-- C1: `IsChanged` returns false exactly when the payload, the expires annotation, the
validity annotation and the uuid annotation are all present, the uuid annotation parses as
a UUID, and the parsed UUID equals the UID recomputed by `GetSecretUuid` from the payload,
expires and validity of the secret, that UID not being all-zero; in every other case it
returns true.  It is a total function. -/
theorem IsChanged_eq_false_iff (secret : Secret) :
    (IsChanged secret = false ↔
      ∃ payload expires lifetime uid statedUid,
        secret.Data dockerConfigKey = some payload ∧
        secret.Annotations ANNOTATION_EXPIRES = some expires ∧
        secret.Annotations ANNOTATION_LIFETIME = some lifetime ∧
        secret.Annotations ANNOTATION_UID = some uid ∧
        uuidParse uid = some statedUid ∧
        GetSecretUuid secret = md5Sum (payload ++ expires ++ lifetime) ∧
        GetSecretUuid secret ≠ uuidNil ∧
        statedUid = GetSecretUuid secret) ∧
    (IsChanged secret = true ↔
      ¬ ∃ payload expires lifetime uid statedUid,
        secret.Data dockerConfigKey = some payload ∧
        secret.Annotations ANNOTATION_EXPIRES = some expires ∧
        secret.Annotations ANNOTATION_LIFETIME = some lifetime ∧
        secret.Annotations ANNOTATION_UID = some uid ∧
        uuidParse uid = some statedUid ∧
        GetSecretUuid secret = md5Sum (payload ++ expires ++ lifetime) ∧
        GetSecretUuid secret ≠ uuidNil ∧
        statedUid = GetSecretUuid secret) := by
  have key : IsChanged secret = false ↔
      ∃ payload expires lifetime uid statedUid,
        secret.Data dockerConfigKey = some payload ∧
        secret.Annotations ANNOTATION_EXPIRES = some expires ∧
        secret.Annotations ANNOTATION_LIFETIME = some lifetime ∧
        secret.Annotations ANNOTATION_UID = some uid ∧
        uuidParse uid = some statedUid ∧
        GetSecretUuid secret = md5Sum (payload ++ expires ++ lifetime) ∧
        GetSecretUuid secret ≠ uuidNil ∧
        statedUid = GetSecretUuid secret := by
    constructor
    · intro h
      cases hd : secret.Data dockerConfigKey with
      | none => simp [IsChanged, GetSecretUuid_of_absent secret (Or.inl hd)] at h
      | some payload =>
        cases he : secret.Annotations ANNOTATION_EXPIRES with
        | none => simp [IsChanged, GetSecretUuid_of_absent secret (Or.inr (Or.inl he))] at h
        | some expires =>
          cases hl : secret.Annotations ANNOTATION_LIFETIME with
          | none => simp [IsChanged, GetSecretUuid_of_absent secret (Or.inr (Or.inr hl))] at h
          | some lifetime =>
            cases hu : secret.Annotations ANNOTATION_UID with
            | none => simp [IsChanged, hu] at h
            | some uid =>
              cases hp : uuidParse uid with
              | none => simp [IsChanged, hu, hp] at h
              | some statedUid =>
                simp only [IsChanged, hu, hp] at h
                by_cases hn : GetSecretUuid secret = uuidNil
                · simp [hn] at h
                · simp [hn] at h
                  exact ⟨payload, expires, lifetime, uid, statedUid, rfl, rfl, rfl, rfl, hp,
                    GetSecretUuid_of_present secret payload expires lifetime hd he hl, hn, h⟩
    · rintro ⟨payload, expires, lifetime, uid, statedUid, hd, he, hl, hu, hp, -, hn, hs⟩
      simp [IsChanged, hu, hp, hn, hs]
  refine ⟨key, ?_⟩
  rw [← key]
  cases IsChanged secret <;> simp

/-- C6: `GetSecretUuid` returns the all-zero UUID when the payload, the expires annotation
or the validity annotation is absent, and otherwise the UUID made of the 16 bytes of the
MD5 digest of payload ++ expires ++ validity (the conversion from bytes reports no error);
secrets that agree on these three values get the same UUID. -/
theorem GetSecretUuid_spec (secret : Secret) :
    ((secret.Data dockerConfigKey = none ∨ secret.Annotations ANNOTATION_EXPIRES = none
        ∨ secret.Annotations ANNOTATION_LIFETIME = none) → GetSecretUuid secret = uuidNil) ∧
    (∀ payload expires validity,
      secret.Data dockerConfigKey = some payload →
      secret.Annotations ANNOTATION_EXPIRES = some expires →
      secret.Annotations ANNOTATION_LIFETIME = some validity →
      GetSecretUuid secret = md5Sum (payload ++ expires ++ validity) ∧
      FromBytes (md5Sum (payload ++ expires ++ validity))
        = (md5Sum (payload ++ expires ++ validity), false) ∧
      (GetSecretUuid secret).length = 16 ∧ ∀ b ∈ GetSecretUuid secret, b < 256) ∧
    (∀ other : Secret,
      other.Data dockerConfigKey = secret.Data dockerConfigKey →
      other.Annotations ANNOTATION_EXPIRES = secret.Annotations ANNOTATION_EXPIRES →
      other.Annotations ANNOTATION_LIFETIME = secret.Annotations ANNOTATION_LIFETIME →
      GetSecretUuid other = GetSecretUuid secret) := by
  refine ⟨GetSecretUuid_of_absent secret, ?_, ?_⟩
  · intro payload expires validity hd he hl
    exact ⟨GetSecretUuid_of_present secret payload expires validity hd he hl,
      FromBytes_md5Sum _, GetSecretUuid_length secret, GetSecretUuid_lt secret⟩
  · intro other hd he hl
    simp only [GetSecretUuid, hd, he, hl]

/-- The UUID of the test secret with the payload of the mock and the test timing values is
the MD5 digest of their concatenation, the UUID `328bcc66-41a2-4129-9992-1d3c2adb49fb`. -/
theorem GetSecretUuid_spec_witness :
    GetSecretUuid (contentSecret (authPayload TEST_REGISTRY TEST_AUTH_DATA) TEST_EXPIRY VALID_LIFETIME)
        = md5Sum (authPayload TEST_REGISTRY TEST_AUTH_DATA ++ TEST_EXPIRY ++ VALID_LIFETIME) ∧
      GetSecretUuid testSecret = uuidNil :=
  ⟨((GetSecretUuid_spec (contentSecret (authPayload TEST_REGISTRY TEST_AUTH_DATA) TEST_EXPIRY
        VALID_LIFETIME)).2.1 _ _ _ rfl rfl rfl).1,
    (GetSecretUuid_spec testSecret).1 (Or.inl rfl)⟩

/-! ## Renewal: `IsExpired` -/

/-- C9: when the expires annotation is present and does not parse as an RFC3339 timestamp,
or the validity annotation is absent or does not parse as a duration, `IsExpired` returns
true for every maxAge and every clock, with or without owner references. -/
theorem IsExpired_of_unparsable (secret : Secret) (maxAge : Duration) (clock : Clock)
    (expires : GoString) (he : secret.Annotations ANNOTATION_EXPIRES = some expires)
    (h : timeParseRFC3339 expires = none ∨ secret.Annotations ANNOTATION_LIFETIME = none
      ∨ ∃ lifetime, secret.Annotations ANNOTATION_LIFETIME = some lifetime
          ∧ ParseDuration lifetime = none) :
    IsExpired secret maxAge clock = true := by
  unfold IsExpired
  rw [he]
  rcases h with h | h | ⟨lifetime, hl, hp⟩
  · simp [h]
  · simp only [h]
    split <;> rfl
  · simp only [hl, hp]
    split <;> rfl

set_option maxRecDepth 100000 in
/-- The three tests of the suite: an illegal month in the expires annotation, a missing
validity annotation, an illegal duration. -/
theorem IsExpired_of_unparsable_witness :
    IsExpired (timedSecret (str "2023-13-01T20:00:00Z") (str "12h") (some [])) 14400000000000
        { Now := march1 43201 } = true ∧
      IsExpired noLifetimeSecret 0 { Now := march1 43200 } = true ∧
      IsExpired (timedSecret (str "2023-01-01T20:00:00Z") (str "12x") (some [])) 14400000000000
        { Now := march1 43201 } = true :=
  ⟨IsExpired_of_unparsable _ _ _ (str "2023-13-01T20:00:00Z") rfl (Or.inl (by decide!)),
    IsExpired_of_unparsable _ _ _ (str "2023-01-01T20:00:00Z") rfl (Or.inr (Or.inl rfl)),
    IsExpired_of_unparsable _ _ _ (str "2023-01-01T20:00:00Z") rfl
      (Or.inr (Or.inr ⟨str "12x", rfl, by decide!⟩))⟩

/-- C10: a secret without expires annotation is never expired, whatever the maxAge, the
clock, its other annotations, its payload and its owner references. -/
theorem IsExpired_of_no_expires (secret : Secret) (maxAge : Duration) (clock : Clock)
    (he : secret.Annotations ANNOTATION_EXPIRES = none) :
    IsExpired secret maxAge clock = false := by
  simp [IsExpired, he]

/-- The untouched test secret at noon of the first of March 2023, maxAge zero. -/
theorem IsExpired_of_no_expires_witness :
    IsExpired testSecret 0 { Now := march1 43200 } = false :=
  IsExpired_of_no_expires testSecret 0 { Now := march1 43200 } rfl

/-! ## Regeneration: `UpdateSecret` -/

/-- C5: when the fetch of the credential source fails with error `e`, `UpdateSecret`
returns exactly `e` and the secret it leaves is the secret it was given. -/
theorem UpdateSecret_of_fetch_error (ecr : ECRAuthentication) (secret : Secret) (clock : Clock)
    (e : GoError) (h : ecr.GetAuthorizationToken.2 = some e) :
    UpdateSecret ecr secret clock = .returned (secret, some e) := by
  obtain ⟨⟨data, err⟩⟩ := ecr
  simp only at h
  subst h
  simp [UpdateSecret, GetSecretData]

/-- The failing source of the test suite leaves the test secret as it was. -/
theorem UpdateSecret_of_fetch_error_witness :
    UpdateSecret errorECRAuthentication testSecret { Now := TEST_NOW }
      = .returned (testSecret, some { msg := str "Error" }) :=
  UpdateSecret_of_fetch_error errorECRAuthentication testSecret { Now := TEST_NOW }
    { msg := str "Error" } rfl

/-- With both timing annotations parsed, `IsExpired` is the conjunction of the test for a
non-nil owner list and the comparison of the clock with the horizon. -/
theorem IsExpired_of_parsed (secret : Secret) (maxAge : Duration) (clock : Clock)
    (expires lifetime : GoString) (E : Time) (L : Duration)
    (he : secret.Annotations ANNOTATION_EXPIRES = some expires)
    (hE : timeParseRFC3339 expires = some E)
    (hl : secret.Annotations ANNOTATION_LIFETIME = some lifetime)
    (hL : ParseDuration lifetime = some L) :
    IsExpired secret maxAge clock
      = (secret.OwnerReferences.isSome
          && decide (clock.Now.unixNano > E.unixNano + wrap64 (maxAge - L))) := by
  simp [IsExpired, he, hE, hl, hL, Time.After, Time.Add, Duration.sub]

set_option maxRecDepth 100000 in
/-- C2, as stated, fails when `maxAge - lifetime` leaves the signed 64-bit range: with
expires 2023-03-01T20:00:00Z, validity `-2562047h`, one owner reference and maxAge 4h, the
clock standing at the expiry itself, `IsExpired` returns true although the clock is not
after E + (M - L). -/
theorem IsExpired_horizon_counterexample :
    (timedSecret (str "2023-03-01T20:00:00Z") (str "-2562047h") (some [testOwner])).OwnerReferences
        = some [testOwner] ∧
      timeParseRFC3339 (str "2023-03-01T20:00:00Z") = some (march1 72000) ∧
      ParseDuration (str "-2562047h") = some (-9223369200000000000) ∧
      IsExpired (timedSecret (str "2023-03-01T20:00:00Z") (str "-2562047h") (some [testOwner]))
        14400000000000 { Now := march1 72000 } = true ∧
      ¬ ((march1 72000).unixNano
          > (march1 72000).unixNano + (14400000000000 - (-9223369200000000000))) := by
  refine ⟨rfl, by decide!, by decide!, by decide!, by decide!⟩

/-- C2, amended: for a secret with at least one owner reference whose expires annotation
parses as the time E and whose validity annotation parses as the duration L, and a maxAge M
such that M - L lies in the signed 64-bit range of nanoseconds, `IsExpired` returns true
exactly when the clock is strictly after E + (M - L); it is false at E + (M - L) and true
one second later. -/
theorem IsExpired_iff_after_horizon (secret : Secret) (maxAge : Duration) (clock : Clock)
    (owners : List OwnerReference) (expires lifetime : GoString) (E : Time) (L : Duration)
    (hown : secret.OwnerReferences = some owners) (_hne : owners ≠ [])
    (he : secret.Annotations ANNOTATION_EXPIRES = some expires)
    (hE : timeParseRFC3339 expires = some E)
    (hl : secret.Annotations ANNOTATION_LIFETIME = some lifetime)
    (hL : ParseDuration lifetime = some L)
    (hlo : minDuration ≤ maxAge - L) (hhi : maxAge - L ≤ maxDuration) :
    (IsExpired secret maxAge clock = true ↔ clock.Now.unixNano > E.unixNano + (maxAge - L)) ∧
    IsExpired secret maxAge { Now := E.Add (maxAge - L) } = false ∧
    IsExpired secret maxAge { Now := (E.Add (maxAge - L)).Add Second } = true := by
  have hw := wrap64_of_inRange (maxAge - L) hlo hhi
  refine ⟨?_, ?_, ?_⟩
  · rw [IsExpired_of_parsed secret maxAge clock expires lifetime E L he hE hl hL, hw, hown]
    simp
  · rw [IsExpired_of_parsed secret maxAge _ expires lifetime E L he hE hl hL, hw, hown]
    simp [Time.Add]
  · rw [IsExpired_of_parsed secret maxAge _ expires lifetime E L he hE hl hL, hw, hown]
    simp [Time.Add, Second]

set_option maxRecDepth 100000 in
/-- The boundary tests of the suite: expires 2023-03-01T20:00:00Z, validity 12h, maxAge 4h;
the horizon is noon, and the secret is expired one second after noon. -/
theorem IsExpired_iff_after_horizon_witness :
    (IsExpired (timedSecret (str "2023-03-01T20:00:00Z") (str "12h") (some [testOwner]))
        14400000000000 { Now := march1 43201 } = true ↔
      (march1 43201).unixNano > (march1 72000).unixNano + (14400000000000 - 43200000000000)) ∧
    IsExpired (timedSecret (str "2023-03-01T20:00:00Z") (str "12h") (some [testOwner]))
      14400000000000 { Now := (march1 72000).Add (14400000000000 - 43200000000000) } = false ∧
    IsExpired (timedSecret (str "2023-03-01T20:00:00Z") (str "12h") (some [testOwner]))
      14400000000000
      { Now := ((march1 72000).Add (14400000000000 - 43200000000000)).Add Second } = true :=
  IsExpired_iff_after_horizon
    (timedSecret (str "2023-03-01T20:00:00Z") (str "12h") (some [testOwner]))
    14400000000000 { Now := march1 43201 } [testOwner] (str "2023-03-01T20:00:00Z") (str "12h")
    (march1 72000) 43200000000000 rfl (by simp) rfl (by decide!) rfl (by decide!)
    (by decide!) (by decide!)

set_option maxRecDepth 100000 in
/-- C3, as stated, fails: the secret of the test "Does not need renewal if lifetime
annotation is missing" carries an expires annotation and no owner reference, and
`IsExpired` returns true for it; so it does for the secret of the boundary test, whose
owner list is empty but not nil. -/
theorem IsExpired_ownerless_counterexample :
    noLifetimeSecret.Annotations ANNOTATION_EXPIRES = some (str "2023-01-01T20:00:00Z") ∧
      noLifetimeSecret.OwnerReferences = none ∧
      IsExpired noLifetimeSecret 0 { Now := march1 43200 } = true ∧
      (timedSecret (str "2023-03-01T20:00:00Z") (str "12h") (some [])).OwnerReferences
        = some [] ∧
      IsExpired (timedSecret (str "2023-03-01T20:00:00Z") (str "12h") (some []))
        14400000000000 { Now := march1 43201 } = true := by
  refine ⟨rfl, rfl, by decide!, rfl, by decide!⟩

/-- C3, amended: a secret whose expires annotation parses as an RFC3339 time, whose validity
annotation is present and parses as a duration, and whose owner-reference list is nil, is
not expired, whatever the maxAge and the clock. -/
theorem IsExpired_of_nil_owners (secret : Secret) (maxAge : Duration) (clock : Clock)
    (expires lifetime : GoString) (E : Time) (L : Duration)
    (hown : secret.OwnerReferences = none)
    (he : secret.Annotations ANNOTATION_EXPIRES = some expires)
    (hE : timeParseRFC3339 expires = some E)
    (hl : secret.Annotations ANNOTATION_LIFETIME = some lifetime)
    (hL : ParseDuration lifetime = some L) :
    IsExpired secret maxAge clock = false := by
  rw [IsExpired_of_parsed secret maxAge clock expires lifetime E L he hE hl hL, hown]
  rfl

set_option maxRecDepth 100000 in
/-- The secret of the boundary test without owner list, a year past its horizon. -/
theorem IsExpired_of_nil_owners_witness :
    IsExpired (timedSecret (str "2023-03-01T20:00:00Z") (str "12h") none) 14400000000000
      { Now := march1 31536000 } = false :=
  IsExpired_of_nil_owners _ 14400000000000 { Now := march1 31536000 }
    (str "2023-03-01T20:00:00Z") (str "12h") (march1 72000) 43200000000000 rfl rfl (by decide!)
    rfl (by decide!)

/-! ## The content UID as a function of the hashed bytes -/

set_option maxRecDepth 100000 in
/-- C7, as stated, fails: two secrets with the same payload, the one with expires
`2023-01-01T12:00:00Z` and validity `12h0m0s`, the other with expires
`2023-01-01T12:00:00Z1` and validity `2h0m0s`, differ in two fields and have the same UID,
the bytes hashed being the same. -/
theorem GetSecretUuid_collision_counterexample :
    (contentSecret (authPayload TEST_REGISTRY TEST_AUTH_DATA) (str "2023-01-01T12:00:00Z")
        (str "12h0m0s")).Annotations ANNOTATION_EXPIRES = some (str "2023-01-01T12:00:00Z") ∧
      (contentSecret (authPayload TEST_REGISTRY TEST_AUTH_DATA) (str "2023-01-01T12:00:00Z1")
        (str "2h0m0s")).Annotations ANNOTATION_EXPIRES = some (str "2023-01-01T12:00:00Z1") ∧
      str "2023-01-01T12:00:00Z" ≠ str "2023-01-01T12:00:00Z1" ∧
      GetSecretUuid (contentSecret (authPayload TEST_REGISTRY TEST_AUTH_DATA)
          (str "2023-01-01T12:00:00Z") (str "12h0m0s"))
        = GetSecretUuid (contentSecret (authPayload TEST_REGISTRY TEST_AUTH_DATA)
          (str "2023-01-01T12:00:00Z1") (str "2h0m0s")) := by
  refine ⟨rfl, rfl, by decide!, ?_⟩
  rw [GetSecretUuid_of_present _ (authPayload TEST_REGISTRY TEST_AUTH_DATA)
      (str "2023-01-01T12:00:00Z") (str "12h0m0s") rfl rfl rfl,
    GetSecretUuid_of_present _ (authPayload TEST_REGISTRY TEST_AUTH_DATA)
      (str "2023-01-01T12:00:00Z1") (str "2h0m0s") rfl rfl rfl]
  exact congrArg md5Sum (by decide!)

/-- C7, amended: for two secrets that both carry a payload, an expires annotation and a
validity annotation, the UIDs are equal when the triples are identical, and more generally
exactly when the MD5 digests of payload ++ expires ++ validity are equal; UIDs that differ
come from byte sequences that differ, hence from triples that differ. -/
theorem GetSecretUuid_eq_iff (s1 s2 : Secret) (p1 e1 l1 p2 e2 l2 : GoString)
    (hp1 : s1.Data dockerConfigKey = some p1)
    (he1 : s1.Annotations ANNOTATION_EXPIRES = some e1)
    (hl1 : s1.Annotations ANNOTATION_LIFETIME = some l1)
    (hp2 : s2.Data dockerConfigKey = some p2)
    (he2 : s2.Annotations ANNOTATION_EXPIRES = some e2)
    (hl2 : s2.Annotations ANNOTATION_LIFETIME = some l2) :
    ((p1, e1, l1) = (p2, e2, l2) → GetSecretUuid s1 = GetSecretUuid s2) ∧
    (GetSecretUuid s1 = GetSecretUuid s2 ↔ md5Sum (p1 ++ e1 ++ l1) = md5Sum (p2 ++ e2 ++ l2)) ∧
    (GetSecretUuid s1 ≠ GetSecretUuid s2 →
      p1 ++ e1 ++ l1 ≠ p2 ++ e2 ++ l2 ∧ (p1, e1, l1) ≠ (p2, e2, l2)) := by
  rw [GetSecretUuid_of_present s1 p1 e1 l1 hp1 he1 hl1,
    GetSecretUuid_of_present s2 p2 e2 l2 hp2 he2 hl2]
  refine ⟨?_, Iff.rfl, ?_⟩
  · intro h
    simp only [Prod.mk.injEq] at h
    obtain ⟨rfl, rfl, rfl⟩ := h
    rfl
  · intro h
    refine ⟨fun hc => h (congrArg md5Sum hc), fun hc => h ?_⟩
    simp only [Prod.mk.injEq] at hc
    obtain ⟨rfl, rfl, rfl⟩ := hc
    rfl

set_option maxRecDepth 100000 in
/-- Two copies of the prepared content have the same UID; the content with the validity
`12h0m0s` and the content with the validity `11h0m0s` have different UIDs. -/
theorem GetSecretUuid_eq_iff_witness :
    (GetSecretUuid (contentSecret (authPayload TEST_REGISTRY TEST_AUTH_DATA) TEST_EXPIRY
          VALID_LIFETIME)
        = GetSecretUuid (contentSecret (authPayload TEST_REGISTRY TEST_AUTH_DATA) TEST_EXPIRY
          (str "11h0m0s")) ↔
      md5Sum (authPayload TEST_REGISTRY TEST_AUTH_DATA ++ TEST_EXPIRY ++ VALID_LIFETIME)
        = md5Sum (authPayload TEST_REGISTRY TEST_AUTH_DATA ++ TEST_EXPIRY ++ str "11h0m0s")) ∧
      md5Sum (authPayload TEST_REGISTRY TEST_AUTH_DATA ++ TEST_EXPIRY ++ VALID_LIFETIME)
        ≠ md5Sum (authPayload TEST_REGISTRY TEST_AUTH_DATA ++ TEST_EXPIRY ++ str "11h0m0s") :=
  ⟨(GetSecretUuid_eq_iff
      (contentSecret (authPayload TEST_REGISTRY TEST_AUTH_DATA) TEST_EXPIRY VALID_LIFETIME)
      (contentSecret (authPayload TEST_REGISTRY TEST_AUTH_DATA) TEST_EXPIRY (str "11h0m0s"))
      _ _ _ _ _ _ rfl rfl rfl rfl rfl rfl).2.1, by decide!⟩

/-! ## The secret left by a successful `UpdateSecret` -/

theorem uid_ne_expires : ANNOTATION_UID ≠ ANNOTATION_EXPIRES := by decide

theorem uid_ne_lifetime : ANNOTATION_UID ≠ ANNOTATION_LIFETIME := by decide

theorem expires_ne_lifetime : ANNOTATION_EXPIRES ≠ ANNOTATION_LIFETIME := by decide

/-- What a successful `UpdateSecret` leaves: the payload rendered from the fetched endpoint
and token, the fetched expiry, the rounded validity, and the canonical string of the UID of
the secret itself. -/
theorem UpdateSecret_returned_nil (ecr : ECRAuthentication) (secret s2 : Secret) (clock : Clock)
    (h : UpdateSecret ecr secret clock = .returned (s2, none)) :
    ∃ token expiresAt proxyEndpoint,
      ecr.GetAuthorizationToken
        = (some { AuthorizationToken := some token, ExpiresAt := some expiresAt,
                  ProxyEndpoint := some proxyEndpoint }, none) ∧
      s2.Data dockerConfigKey = some (authPayload proxyEndpoint token) ∧
      s2.Annotations ANNOTATION_EXPIRES = some expiresAt.FormatRFC3339 ∧
      s2.Annotations ANNOTATION_LIFETIME
        = some ((expiresAt.Sub clock.Now).Round Minute).String ∧
      s2.Annotations ANNOTATION_UID = some (GetSecretUuid s2).String := by
  obtain ⟨⟨data, err⟩⟩ := ecr
  cases err with
  | some e => simp [UpdateSecret, GetSecretData] at h
  | none =>
    cases data with
    | none => simp [UpdateSecret, GetSecretData] at h
    | some ad =>
      obtain ⟨token, expiresAt, proxyEndpoint⟩ := ad
      cases token <;> cases expiresAt <;> cases proxyEndpoint <;>
        simp only [UpdateSecret, GetSecretData, Outcome.returned.injEq, Prod.mk.injEq,
          and_true, reduceCtorEq] at h
      rename_i token expiresAt proxyEndpoint
      subst h
      refine ⟨token, expiresAt, proxyEndpoint, rfl, ?_, ?_, ?_, ?_⟩
      · simp [GoMap.set]
      · simp [GoMap.set, uid_ne_expires.symm, expires_ne_lifetime]
      · simp [GoMap.set, uid_ne_lifetime.symm]
      · simp [GoMap.set, GetSecretUuid, uid_ne_expires.symm, uid_ne_lifetime,
          expires_ne_lifetime, uid_ne_lifetime.symm]

/-- After a successful `UpdateSecret` the uuid annotation is the canonical string of the UID
of the updated secret and parses back to it; `IsChanged` is then false exactly when that
UID, an MD5 digest, is not all-zero. -/
theorem UpdateSecret_stamps_uid (ecr : ECRAuthentication) (secret s2 : Secret) (clock : Clock)
    (h : UpdateSecret ecr secret clock = .returned (s2, none)) :
    s2.Annotations ANNOTATION_UID = some (GetSecretUuid s2).String ∧
    uuidParse (GetSecretUuid s2).String = some (GetSecretUuid s2) ∧
    (IsChanged s2 = false ↔ GetSecretUuid s2 ≠ uuidNil) := by
  obtain ⟨token, expiresAt, proxyEndpoint, -, hd, he, hl, hu⟩ :=
    UpdateSecret_returned_nil ecr secret s2 clock h
  have hp := uuidParse_String (GetSecretUuid s2) (GetSecretUuid_length s2) (GetSecretUuid_lt s2)
  refine ⟨hu, hp, ?_⟩
  by_cases hn : GetSecretUuid s2 = uuidNil
  · simp [IsChanged, hn]
  · simp [IsChanged, hn, hu, hp]

set_option maxRecDepth 100000 in
/-- The test "Should set correct UUID": the prepared secret carries the UID of its content
and has not drifted. -/
theorem preparedSecret_unchanged :
    UpdateSecret MockECRAuthentication testSecret { Now := TEST_NOW }
        = .returned (preparedSecret, none) ∧
      preparedSecret.Annotations ANNOTATION_EXPIRES = some TEST_EXPIRY ∧
      preparedSecret.Annotations ANNOTATION_LIFETIME = some VALID_LIFETIME ∧
      preparedSecret.Annotations ANNOTATION_UID
        = some (str "328bcc66-41a2-4129-9992-1d3c2adb49fb") ∧
      IsChanged preparedSecret = false := by
  refine ⟨rfl, by decide!, by decide!, by decide!, by decide!⟩

/-! ## Drift after tampering with a regenerated secret -/

set_option maxRecDepth 100000 in
/-- C8, as stated, fails: in the prepared secret, replacing the uuid annotation
`328bcc66-41a2-4129-9992-1d3c2adb49fb` by the same UUID written in capitals, a different
value, leaves `IsChanged` false. -/
theorem IsChanged_uuid_counterexample :
    UpdateSecret MockECRAuthentication testSecret { Now := TEST_NOW }
        = .returned (preparedSecret, none) ∧
      preparedSecret.Annotations ANNOTATION_UID
        = some (str "328bcc66-41a2-4129-9992-1d3c2adb49fb") ∧
      str "328BCC66-41A2-4129-9992-1D3C2ADB49FB" ≠ str "328bcc66-41a2-4129-9992-1d3c2adb49fb" ∧
      IsChanged { preparedSecret with
        Annotations := preparedSecret.Annotations.set ANNOTATION_UID
          (str "328BCC66-41A2-4129-9992-1D3C2ADB49FB") } = false := by
  refine ⟨rfl, by decide!, by decide!, by decide!⟩

/-- A secret whose uuid annotation parses to a UUID other than the recomputed one has
drifted. -/
theorem IsChanged_of_stated_ne (s : Secret) (u : GoString) (w : UUID)
    (hu : s.Annotations ANNOTATION_UID = some u) (hq : uuidParse u = some w)
    (hne : w ≠ GetSecretUuid s) : IsChanged s = true := by
  unfold IsChanged
  by_cases hn : GetSecretUuid s = uuidNil
  · simp [hn]
  · simp [hn, hu, hq, hne]

/-- C8, amended: in a secret produced by a successful `UpdateSecret`, replacing the uuid
annotation by a value that does not parse to the stamped UID makes `IsChanged` true; and
replacing the expires annotation, the validity annotation or the payload by a different
value changes the bytes that are hashed, and makes `IsChanged` true whenever the MD5 digest
of the new bytes differs from the stamped one. -/
theorem IsChanged_after_replacing (ecr : ECRAuthentication) (secret s2 : Secret) (clock : Clock)
    (p e l : GoString)
    (h : UpdateSecret ecr secret clock = .returned (s2, none))
    (hp : s2.Data dockerConfigKey = some p)
    (he : s2.Annotations ANNOTATION_EXPIRES = some e)
    (hl : s2.Annotations ANNOTATION_LIFETIME = some l) :
    (∀ v, uuidParse v ≠ some (GetSecretUuid s2) →
      IsChanged { s2 with Annotations := s2.Annotations.set ANNOTATION_UID v } = true) ∧
    (∀ v, v ≠ e → p ++ v ++ l ≠ p ++ e ++ l ∧
      (md5Sum (p ++ v ++ l) ≠ md5Sum (p ++ e ++ l) →
        IsChanged { s2 with Annotations := s2.Annotations.set ANNOTATION_EXPIRES v } = true)) ∧
    (∀ v, v ≠ l → p ++ e ++ v ≠ p ++ e ++ l ∧
      (md5Sum (p ++ e ++ v) ≠ md5Sum (p ++ e ++ l) →
        IsChanged { s2 with Annotations := s2.Annotations.set ANNOTATION_LIFETIME v } = true)) ∧
    (∀ v, v ≠ p → v ++ e ++ l ≠ p ++ e ++ l ∧
      (md5Sum (v ++ e ++ l) ≠ md5Sum (p ++ e ++ l) →
        IsChanged { s2 with Data := s2.Data.set dockerConfigKey v } = true)) := by
  obtain ⟨hu, hparse, -⟩ := UpdateSecret_stamps_uid ecr secret s2 clock h
  have huid := GetSecretUuid_of_present s2 p e l hp he hl
  refine ⟨?_, ?_, ?_, ?_⟩
  · intro v hv
    have hsame : GetSecretUuid { s2 with Annotations := s2.Annotations.set ANNOTATION_UID v }
        = GetSecretUuid s2 := by
      simp [GetSecretUuid, GoMap.set, uid_ne_expires.symm, uid_ne_lifetime.symm]
    unfold IsChanged
    simp only [hsame]
    by_cases hn : GetSecretUuid s2 = uuidNil
    · simp [hn]
    · cases hq : uuidParse v with
      | none => simp [hn, GoMap.set, hq]
      | some w =>
        have hw : w ≠ GetSecretUuid s2 := fun hc => hv (by rw [hq, hc])
        simp [hn, GoMap.set, hq, hw]
  · intro v hv
    refine ⟨by simpa using hv, fun hne => ?_⟩
    refine IsChanged_of_stated_ne _ _ (GetSecretUuid s2)
      (by simp [GoMap.set, uid_ne_expires, hu]) hparse ?_
    have hnew : GetSecretUuid { s2 with Annotations := s2.Annotations.set ANNOTATION_EXPIRES v }
        = md5Sum (p ++ v ++ l) :=
      GetSecretUuid_of_present _ p v l hp (by simp [GoMap.set])
        (by simp [GoMap.set, expires_ne_lifetime.symm, hl])
    rw [huid, hnew]
    exact fun hc => hne hc.symm
  · intro v hv
    refine ⟨by simpa using hv, fun hne => ?_⟩
    refine IsChanged_of_stated_ne _ _ (GetSecretUuid s2)
      (by simp [GoMap.set, uid_ne_lifetime, hu]) hparse ?_
    have hnew : GetSecretUuid { s2 with Annotations := s2.Annotations.set ANNOTATION_LIFETIME v }
        = md5Sum (p ++ e ++ v) :=
      GetSecretUuid_of_present _ p e v hp (by simp [GoMap.set, expires_ne_lifetime, he])
        (by simp [GoMap.set])
    rw [huid, hnew]
    exact fun hc => hne hc.symm
  · intro v hv
    refine ⟨by simpa using hv, fun hne => ?_⟩
    refine IsChanged_of_stated_ne _ _ (GetSecretUuid s2) hu hparse ?_
    have hnew : GetSecretUuid { s2 with Data := s2.Data.set dockerConfigKey v }
        = md5Sum (v ++ e ++ l) :=
      GetSecretUuid_of_present _ v e l (by simp [GoMap.set]) he hl
    rw [huid, hnew]
    exact fun hc => hne hc.symm

set_option maxRecDepth 100000 in
/-- The test "Is changed if uid annotation does not match computed uid": with the all-zero
UUID as uuid annotation the prepared secret has drifted. -/
theorem IsChanged_after_replacing_witness :
    IsChanged { preparedSecret with
      Annotations := preparedSecret.Annotations.set ANNOTATION_UID
        (str "00000000-0000-0000-0000-000000000000") } = true :=
  (IsChanged_after_replacing MockECRAuthentication testSecret preparedSecret { Now := TEST_NOW }
    (authPayload TEST_REGISTRY TEST_AUTH_DATA) TEST_EXPIRY VALID_LIFETIME rfl (by decide!)
    (by decide!) (by decide!)).1 (str "00000000-0000-0000-0000-000000000000") (by decide!)

/-! ## Loading the credentials of an account -/

/-- C19: on a decoded configuration, `LoadCredentials` returns credentials and no error
exactly when the table has an entry for the account with both `access_key` and
`secret_key`, and the credentials are these two values; otherwise it returns no credentials
and an error: for an absent account the message
`FATAL: Credentials for account '<id>' not present in configuration`, and for an entry that
lacks fields `FATAL: ` followed by the messages of exactly the missing fields, joined by a
comma and a blank. -/
theorem LoadCredentials_spec (configuration : Configuration) (accountId : GoString) :
    (∀ creds access_key secret_key,
      configuration accountId = some creds → creds ACCESS_KEY = some access_key →
      creds SECRET_KEY = some secret_key →
      LoadCredentials (.ok configuration) accountId
        = (some { AccessKeyID := access_key, SecretAccessKey := secret_key }, none)) ∧
    (configuration accountId = none →
      LoadCredentials (.ok configuration) accountId
        = (none, some { msg := (str "FATAL: Credentials for account '" ++ accountId
            ++ str "' not present in configuration") })) ∧
    (∀ creds secret_key,
      configuration accountId = some creds → creds ACCESS_KEY = none →
      creds SECRET_KEY = some secret_key →
      LoadCredentials (.ok configuration) accountId
        = (none, some { msg := str "FATAL: 'access_key' missing from config" })) ∧
    (∀ creds access_key,
      configuration accountId = some creds → creds ACCESS_KEY = some access_key →
      creds SECRET_KEY = none →
      LoadCredentials (.ok configuration) accountId
        = (none, some { msg := str "FATAL: 'secret_key' missing from config" })) ∧
    (∀ creds,
      configuration accountId = some creds → creds ACCESS_KEY = none →
      creds SECRET_KEY = none →
      LoadCredentials (.ok configuration) accountId
        = (none, some (GoError.mk (str
            "FATAL: 'access_key' missing from config, 'secret_key' missing from config")))) ∧
    ((LoadCredentials (.ok configuration) accountId).2 = none ↔
      ∃ creds access_key secret_key,
        configuration accountId = some creds ∧ creds ACCESS_KEY = some access_key ∧
        creds SECRET_KEY = some secret_key) ∧
    ((LoadCredentials (.ok configuration) accountId).1 = none ↔
      (LoadCredentials (.ok configuration) accountId).2 ≠ none) := by
  have ok : ∀ creds access_key secret_key,
      configuration accountId = some creds → creds ACCESS_KEY = some access_key →
      creds SECRET_KEY = some secret_key →
      LoadCredentials (.ok configuration) accountId
        = (some { AccessKeyID := access_key, SecretAccessKey := secret_key }, none) := by
    intro creds a s h1 h2 h3
    simp [LoadCredentials, h1, h2, h3]
  have absent : configuration accountId = none →
      LoadCredentials (.ok configuration) accountId
        = (none, some { msg := missingCredsMessage accountId }) := by
    intro h
    simp [LoadCredentials, h]
  have noAccess : ∀ creds secret_key,
      configuration accountId = some creds → creds ACCESS_KEY = none →
      creds SECRET_KEY = some secret_key →
      LoadCredentials (.ok configuration) accountId
        = (none, some { msg := str "FATAL: 'access_key' missing from config" }) := by
    intro creds s h1 h2 h3
    simp only [LoadCredentials, h1, h2, h3]
    rfl
  have noSecret : ∀ creds access_key,
      configuration accountId = some creds → creds ACCESS_KEY = some access_key →
      creds SECRET_KEY = none →
      LoadCredentials (.ok configuration) accountId
        = (none, some { msg := str "FATAL: 'secret_key' missing from config" }) := by
    intro creds a h1 h2 h3
    simp only [LoadCredentials, h1, h2, h3]
    rfl
  have neither : ∀ creds,
      configuration accountId = some creds → creds ACCESS_KEY = none →
      creds SECRET_KEY = none →
      LoadCredentials (.ok configuration) accountId
        = (none, some (GoError.mk (str
            "FATAL: 'access_key' missing from config, 'secret_key' missing from config"))) := by
    intro creds h1 h2 h3
    simp only [LoadCredentials, h1, h2, h3]
    rfl
  refine ⟨ok, absent, noAccess, noSecret, neither, ?_, ?_⟩
  · cases h1 : configuration accountId with
    | none => simp [absent h1]
    | some creds =>
      cases h2 : creds ACCESS_KEY with
      | none =>
        cases h3 : creds SECRET_KEY with
        | none => simp [neither creds h1 h2 h3, h2]
        | some s => simp [noAccess creds s h1 h2 h3, h2]
      | some a =>
        cases h3 : creds SECRET_KEY with
        | none => simp [noSecret creds a h1 h2 h3, h3]
        | some s => simp [ok creds a s h1 h2 h3, h2, h3]
  · cases h1 : configuration accountId with
    | none => simp [absent h1]
    | some creds =>
      cases h2 : creds ACCESS_KEY with
      | none =>
        cases h3 : creds SECRET_KEY with
        | none => simp [neither creds h1 h2 h3]
        | some s => simp [noAccess creds s h1 h2 h3]
      | some a =>
        cases h3 : creds SECRET_KEY with
        | none => simp [noSecret creds a h1 h2 h3]
        | some s => simp [ok creds a s h1 h2 h3]

set_option maxRecDepth 100000 in
/-- The tests of the configuration suite: both accounts load, a missing account and a
missing access key give their messages. -/
theorem LoadCredentials_spec_witness :
    LoadCredentials (.ok testConfiguration) (str "123456789012")
        = (some { AccessKeyID := str "AKAIEXAMPLE1", SecretAccessKey := str "secretEXAMPLE1" },
            none) ∧
      LoadCredentials (.ok testConfiguration) (str "999999999999")
        = (none, some { msg := (str "FATAL: Credentials for account '" ++ str "999999999999"
            ++ str "' not present in configuration") }) ∧
      LoadCredentials (.ok noAccessKeyConfiguration) (str "123456789012")
        = (none, some { msg := str "FATAL: 'access_key' missing from config" }) :=
  ⟨(LoadCredentials_spec testConfiguration (str "123456789012")).1
      ((GoMap.empty.set ACCESS_KEY (str "AKAIEXAMPLE1")).set SECRET_KEY (str "secretEXAMPLE1"))
      _ _ rfl rfl rfl,
    (LoadCredentials_spec testConfiguration (str "999999999999")).2.1 rfl,
    (LoadCredentials_spec noAccessKeyConfiguration (str "123456789012")).2.2.1
      ((GoMap.empty.set (str "accesskey") (str "AKAIEXAMPLE")).set SECRET_KEY
        (str "dsfdsfdfEXAMPLE")) _ rfl rfl rfl⟩

/-! ## The registry and the name of the secret -/

/-- The split of a piece without dot, followed by a dot and the rest. -/
theorem splitDot_append (a rest : GoString) (ha : ∀ b ∈ a, b ≠ 46) :
    splitDot (a ++ 46 :: rest) = a :: splitDot rest := by
  induction a with
  | nil => simp [splitDot]
  | cons c cs ih =>
    have hc : c ≠ 46 := ha c (List.mem_cons_self c cs)
    have hcs : ∀ b ∈ cs, b ≠ 46 := fun b hb => ha b (List.mem_cons_of_mem c hb)
    simp [splitDot, hc, ih hcs]

/-- C20: for an account id A and a region R without dot, the registry parse of `Reconcile`
on A ++ ".dkr.ecr." ++ R ++ ".amazonaws.com" yields the account id A and the region R. -/
theorem registryParts_spec (A R : GoString) (hA : ∀ b ∈ A, b ≠ 46) (hR : ∀ b ∈ R, b ≠ 46) :
    registryParts (A ++ str ".dkr.ecr." ++ R ++ str ".amazonaws.com") = .returned (A, R) := by
  have h : A ++ str ".dkr.ecr." ++ R ++ str ".amazonaws.com"
      = A ++ 46 :: (str "dkr" ++ 46 :: (str "ecr" ++ 46 :: (R ++ 46 :: str "amazonaws.com"))) := by
    simp [str]
  rw [h]
  unfold registryParts
  rw [splitDot_append A _ hA, splitDot_append (str "dkr") _ (by decide),
    splitDot_append (str "ecr") _ (by decide), splitDot_append R _ hR]
  rfl

set_option maxRecDepth 100000 in
/-- The registry of the test suite gives the account `123456789012` and the region
`eu-west-1`. -/
theorem registryParts_spec_witness :
    registryParts TEST_REGISTRY = .returned (str "123456789012", str "eu-west-1") :=
  registryParts_spec (str "123456789012") (str "eu-west-1") (by decide) (by decide)

/-- C17: `getKubeSecretName` returns the secret name of the spec when that name is not
empty after trimming white space, and otherwise the name of the resource followed by
`-secret`. -/
theorem getKubeSecretName_spec (ecrSecret : ECRSecret) :
    (TrimSpace ecrSecret.Spec.SecretName ≠ [] →
      getKubeSecretName ecrSecret = ecrSecret.Spec.SecretName) ∧
    (TrimSpace ecrSecret.Spec.SecretName = [] →
      getKubeSecretName ecrSecret = ecrSecret.Name ++ str "-secret") := by
  unfold getKubeSecretName
  constructor
  · intro h
    have : 0 < (TrimSpace ecrSecret.Spec.SecretName).length := List.length_pos.mpr h
    simp [this]
  · intro h
    simp [h]

set_option maxRecDepth 100000 in
/-- The two tests "Get Secret Name", and a secret name made of blanks. -/
theorem getKubeSecretName_spec_witness :
    getKubeSecretName (namedECRSecret (str "")) = str "test-secret" ∧
      getKubeSecretName (namedECRSecret (str "my=secret")) = str "my=secret" ∧
      getKubeSecretName (namedECRSecret (str " \t ")) = str "test-secret" :=
  ⟨(getKubeSecretName_spec _).2 (by decide!), (getKubeSecretName_spec _).1 (by decide!),
    (getKubeSecretName_spec _).2 (by decide!)⟩

/-! ## The annotations and the payload built by `GetSecretData` -/

/-- The truncated remainder of a negative number by a positive one. -/
theorem tmod_of_neg (d b : Int) (hd : d < 0) (hb : 0 < b) : Int.tmod d b = -((-d) % b) := by
  have h1 : Int.tdiv d b = -((-d) / b) := by
    have := Int.neg_tdiv (-d) b
    rw [neg_neg] at this
    rw [this, Int.tdiv_eq_ediv (by omega) (by omega)]
  rw [Int.tmod_def, h1, Int.emod_def]
  ring

/-- For a remainder of a division by the minute, `lessThanHalf` is the comparison of its
double with the minute. -/
theorem lessThanHalf_Minute (r : Int) (h0 : 0 ≤ r) (h1 : r < 60000000000) :
    lessThanHalf r Minute = decide (2 * r < 60000000000) := by
  unfold lessThanHalf toU64 Minute
  have e1 : r % 18446744073709551616 = r := Int.emod_eq_of_lt h0 (by omega)
  have e2 : (60000000000 : Int) % 18446744073709551616 = 60000000000 := by decide
  rw [e1, e2]
  have e3 : ((60000000000 : Int)).toNat = 60000000000 := by decide
  rw [e3]
  congr 1
  apply propext
  constructor <;> intro h <;> omega

/-- On the `int64` range, `Duration.Round` to the minute is the rounding to the nearest
whole minute, halves away from zero: it never saturates. -/
theorem Round_Minute_eq (d : Int) (h1 : -9223372036854775808 ≤ d)
    (h2 : d ≤ 9223372036854775807) :
    Duration.Round d Minute = roundHalfAway d Minute := by
  by_cases hd : d < 0
  · have ht : Int.tmod d 60000000000 = -((-d) % 60000000000) :=
      tmod_of_neg d 60000000000 hd (by omega)
    have hr1 : 0 ≤ (-d) % 60000000000 := Int.emod_nonneg _ (by omega)
    have hr2 : (-d) % 60000000000 < 60000000000 := Int.emod_lt_of_pos _ (by omega)
    have hq := Int.emod_add_ediv (-d) 60000000000
    have hm : ¬ ((60000000000 : Int) ≤ 0) := by omega
    have hd0 : ¬ (0 ≤ d) := by omega
    show (if Minute ≤ 0 then d else
      if d < 0 then
        if lessThanHalf (-(Int.tmod d Minute)) Minute then wrap64 (d + -(Int.tmod d Minute))
        else if wrap64 (wrap64 (d - Minute) + -(Int.tmod d Minute)) < d
          then wrap64 (wrap64 (d - Minute) + -(Int.tmod d Minute)) else minDuration
      else _) = if 0 ≤ d then _ else -((2 * (-d) + Minute) / (2 * Minute) * Minute)
    rw [if_neg (show ¬ (Minute ≤ 0) from hm), if_pos hd, if_neg hd0]
    rw [show Int.tmod d Minute = -((-d) % 60000000000) from ht, neg_neg,
      lessThanHalf_Minute _ hr1 hr2]
    generalize (-d) % 60000000000 = r at hr1 hr2 hq
    generalize (-d) / 60000000000 = q at hq
    unfold wrap64 Minute minDuration
    by_cases hh : 2 * r < 60000000000
    · rw [if_pos (decide_eq_true hh)]
      omega
    · rw [if_neg (by simpa using hh)]
      split_ifs <;> omega
  · have hd1 : 0 ≤ d := by omega
    have ht : Int.tmod d 60000000000 = d % 60000000000 :=
      Int.tmod_eq_emod hd1 (by omega)
    have hr1 : 0 ≤ d % 60000000000 := Int.emod_nonneg _ (by omega)
    have hr2 : d % 60000000000 < 60000000000 := Int.emod_lt_of_pos _ (by omega)
    have hq := Int.emod_add_ediv d 60000000000
    have hm : ¬ ((60000000000 : Int) ≤ 0) := by omega
    show (if Minute ≤ 0 then d else
      if d < 0 then _
      else
        if lessThanHalf (Int.tmod d Minute) Minute then wrap64 (d - Int.tmod d Minute)
        else if wrap64 (wrap64 (d + Minute) - Int.tmod d Minute) > d
          then wrap64 (wrap64 (d + Minute) - Int.tmod d Minute) else maxDuration)
      = if 0 ≤ d then (2 * d + Minute) / (2 * Minute) * Minute else _
    rw [if_neg (show ¬ (Minute ≤ 0) from hm), if_neg hd, if_pos hd1]
    rw [show Int.tmod d Minute = d % 60000000000 from ht, lessThanHalf_Minute _ hr1 hr2]
    generalize d % 60000000000 = r at hr1 hr2 hq
    generalize d / 60000000000 = q at hq
    unfold wrap64 Minute maxDuration
    by_cases hh : 2 * r < 60000000000
    · rw [if_pos (decide_eq_true hh)]
      omega
    · rw [if_neg (by simpa using hh)]
      split_ifs <;> omega

/-- What `GetSecretData` returns for a fetch that gives a token, an expiry and an
endpoint. -/
theorem GetSecretData_of_fetch (ecr : ECRAuthentication) (clock : Clock) (T P : GoString)
    (X : Time)
    (h : ecr.GetAuthorizationToken
      = (some { AuthorizationToken := some T, ExpiresAt := some X, ProxyEndpoint := some P },
          none)) :
    GetSecretData ecr clock
      = .returned
          (((GoMap.empty.set ANNOTATION_EXPIRES X.FormatRFC3339).set ANNOTATION_UID
              (str "00000000-0000-0000-0000-000000000000")).set ANNOTATION_LIFETIME
              ((X.Sub clock.Now).Round Minute).String,
            GoMap.empty.set dockerConfigKey (authPayload P T), none) := by
  simp [GetSecretData, h]

/-- The difference of two instants as `Time.Sub` gives it: the exact difference brought
into the `int64` range by saturation. -/
theorem Time_Sub_eq (t u : Time) : t.Sub u = clamp64 (t.unixNano - u.unixNano) := rfl

theorem clamp64_inRange (x : Int) :
    -9223372036854775808 ≤ clamp64 x ∧ clamp64 x ≤ 9223372036854775807 := by
  unfold clamp64 minDuration maxDuration
  split_ifs <;> omega

set_option maxRecDepth 100000 in
/-- C11, as stated, fails when the expiry is more than some 292 years away from the clock:
for the mock, whose expiry is 2023-01-01T12:00:00Z, and a clock that was never set (the
zero time of Go), the validity is `2562047h47m0s`, the duration 9223372020000000000 ns,
while the difference rounded to the minute is 63808171200000000000 ns. -/
theorem GetSecretData_validity_counterexample :
    MockECRAuthentication.GetAuthorizationToken.2 = none ∧
      annotationsOf (GetSecretData MockECRAuthentication { Now := zeroTime }) ANNOTATION_LIFETIME
        = some (str "2562047h47m0s") ∧
      ParseDuration (str "2562047h47m0s") = some 9223372020000000000 ∧
      roundHalfAway (testExpiryTime.unixNano - zeroTime.unixNano) Minute
        = 63808171200000000000 ∧
      (9223372020000000000 : Int)
        ≠ roundHalfAway (testExpiryTime.unixNano - zeroTime.unixNano) Minute := by
  refine ⟨rfl, by decide!, by decide!, by decide!, by decide!⟩

/-- C11, amended: for a fetch that gives a token, an endpoint and the expiry X, and every
clock, `GetSecretData` returns exactly three annotations: expires, X in RFC3339; validity,
the Go duration string of X - now brought into the signed 64-bit range by saturation and
then rounded to the nearest whole minute, halves away from zero (so of X - now rounded,
when X - now is in that range); and uuid, the all-zero placeholder. -/
theorem GetSecretData_annotations (ecr : ECRAuthentication) (clock : Clock) (T P : GoString)
    (X : Time)
    (h : ecr.GetAuthorizationToken
      = (some { AuthorizationToken := some T, ExpiresAt := some X, ProxyEndpoint := some P },
          none)) :
    GetSecretData ecr clock
      = .returned (annotationsOf (GetSecretData ecr clock), dataOf (GetSecretData ecr clock),
          none) ∧
    annotationsOf (GetSecretData ecr clock) ANNOTATION_EXPIRES = some X.FormatRFC3339 ∧
    annotationsOf (GetSecretData ecr clock) ANNOTATION_LIFETIME
      = some (Duration.String
          (roundHalfAway (clamp64 (X.unixNano - clock.Now.unixNano)) Minute)) ∧
    (minDuration ≤ X.unixNano - clock.Now.unixNano →
      X.unixNano - clock.Now.unixNano ≤ maxDuration →
      annotationsOf (GetSecretData ecr clock) ANNOTATION_LIFETIME
        = some (Duration.String (roundHalfAway (X.unixNano - clock.Now.unixNano) Minute))) ∧
    annotationsOf (GetSecretData ecr clock) ANNOTATION_UID
      = some (str "00000000-0000-0000-0000-000000000000") ∧
    (∀ k, annotationsOf (GetSecretData ecr clock) k ≠ none ↔
      k = ANNOTATION_EXPIRES ∨ k = ANNOTATION_LIFETIME ∨ k = ANNOTATION_UID) := by
  have hv : ((X.Sub clock.Now).Round Minute)
      = roundHalfAway (clamp64 (X.unixNano - clock.Now.unixNano)) Minute := by
    rw [Time_Sub_eq]
    exact Round_Minute_eq _ (clamp64_inRange _).1 (clamp64_inRange _).2
  have hl : annotationsOf (GetSecretData ecr clock) ANNOTATION_LIFETIME
      = some (Duration.String
          (roundHalfAway (clamp64 (X.unixNano - clock.Now.unixNano)) Minute)) := by
    rw [GetSecretData_of_fetch ecr clock T P X h, ← hv]
    simp [annotationsOf, GoMap.set]
  rw [hl]
  rw [GetSecretData_of_fetch ecr clock T P X h]
  refine ⟨rfl, ?_, rfl, ?_, ?_, ?_⟩
  · simp [annotationsOf, GoMap.set, uid_ne_expires.symm, expires_ne_lifetime]
  · intro hlo hhi
    have hc : clamp64 (X.unixNano - clock.Now.unixNano) = X.unixNano - clock.Now.unixNano := by
      have a1 : (-9223372036854775808 : Int) ≤ X.unixNano - clock.Now.unixNano := hlo
      have a2 : X.unixNano - clock.Now.unixNano ≤ (9223372036854775807 : Int) := hhi
      unfold clamp64 minDuration maxDuration
      split_ifs <;> omega
    rw [hc]
  · simp [annotationsOf, GoMap.set, uid_ne_lifetime]
  · intro k
    simp only [annotationsOf, GoMap.set, GoMap.empty]
    by_cases h1 : k = ANNOTATION_LIFETIME
    · simp [h1]
    · by_cases h2 : k = ANNOTATION_UID
      · simp [h2, uid_ne_lifetime]
      · by_cases h3 : k = ANNOTATION_EXPIRES
        · simp [h3, expires_ne_lifetime, uid_ne_expires.symm]
        · simp [h1, h2, h3]

set_option maxRecDepth 100000 in
/-- The tests of the suite: with the expiry 2023-01-01T12:00:00Z and the clock twelve hours
before it, the annotations are that expiry, `12h0m0s` and the all-zero UUID. -/
theorem GetSecretData_annotations_witness :
    annotationsOf (GetSecretData MockECRAuthentication { Now := TEST_NOW }) ANNOTATION_EXPIRES
        = some (str "2023-01-01T12:00:00Z") ∧
      annotationsOf (GetSecretData MockECRAuthentication { Now := TEST_NOW })
        ANNOTATION_LIFETIME = some (str "12h0m0s") ∧
      annotationsOf (GetSecretData MockECRAuthentication { Now := TEST_NOW }) ANNOTATION_UID
        = some (str "00000000-0000-0000-0000-000000000000") :=
  have w := GetSecretData_annotations MockECRAuthentication { Now := TEST_NOW } TEST_AUTH_DATA
    TEST_REGISTRY testExpiryTime rfl
  ⟨w.2.1.trans (by decide!), (w.2.2.2.1 (by decide!) (by decide!)).trans (by decide!), w.2.2.2.2.1⟩

/-- C12: for a fetch that gives the endpoint P and the token T, `GetSecretData` returns a
data map with exactly one key, `.dockerconfigjson`, whose bytes are the text
`{"auths":{"P":{"auth":"T"}}}` with P and T inserted as they are. -/
theorem GetSecretData_payload (ecr : ECRAuthentication) (clock : Clock) (T P : GoString)
    (X : Time)
    (h : ecr.GetAuthorizationToken
      = (some { AuthorizationToken := some T, ExpiresAt := some X, ProxyEndpoint := some P },
          none)) :
    GetSecretData ecr clock
      = .returned (annotationsOf (GetSecretData ecr clock), dataOf (GetSecretData ecr clock),
          none) ∧
    dataOf (GetSecretData ecr clock) dockerConfigKey
      = some (str "\x7b\"auths\":\x7b\"" ++ P ++ str "\":\x7b\"auth\":\"" ++ T
          ++ str "\"\x7d\x7d\x7d") ∧
    (∀ k, dataOf (GetSecretData ecr clock) k ≠ none ↔ k = dockerConfigKey) := by
  rw [GetSecretData_of_fetch ecr clock T P X h]
  refine ⟨rfl, ?_, ?_⟩
  · simp [dataOf, GoMap.set, authPayload]
  · intro k
    by_cases hk : k = dockerConfigKey <;> simp [dataOf, GoMap.set, GoMap.empty, hk]

set_option maxRecDepth 100000 in
/-- The test "Should get correct auth data payload": the payload for the mock holds the
registry and the authorization data of the test as they are. -/
theorem GetSecretData_payload_witness :
    dataOf (GetSecretData MockECRAuthentication { Now := TEST_NOW }) dockerConfigKey
      = some (str ("\x7b\"auths\":\x7b\"123456789012.dkr.ecr.eu-west-1.amazonaws.com\":"
          ++ "\x7b\"auth\":\"amRvZTpwYXN3b3JkMTIz\"\x7d\x7d\x7d")) :=
  (GetSecretData_payload MockECRAuthentication { Now := TEST_NOW } TEST_AUTH_DATA TEST_REGISTRY
    testExpiryTime rfl).2.1.trans (by decide!)

/-! ## The reconciler -/

/-- `Reconcile` up to the lookup of the owned secret: with the declared resource found, a
registry of four components, a configuration that holds the account and a source that
takes the credentials, the outcome is that of the branch of the lookup. -/
theorem Reconcile_of_lookup (r : ECRSecretReconciler) (req : NamespacedName)
    (ecrSecret : ECRSecret) (accountId region : GoString)
    (configStream : Except GoError Configuration) (credentials : Credentials)
    (auth : ECRAuthentication)
    (h1 : r.Client.GetECRSecret req = .ok ecrSecret)
    (h2 : registryParts ecrSecret.Spec.Registry = .returned (accountId, region))
    (h3 : r.ConfigFile = .ok configStream)
    (h4 : LoadCredentials configStream accountId = (some credentials, none))
    (h5 : r.Auth.SetCredentials credentials region = (none, auth)) :
    Reconcile r req =
      match r.Client.GetSecret
        { Name := getKubeSecretName ecrSecret, Namespace := ecrSecret.Namespace } with
      | .error e =>
        if e.IsNotFound then reconcileCreate r auth ecrSecret else .returned [] (some e.err)
      | .ok foundSecret => reconcileFound r auth foundSecret := by
  simp only [Reconcile, h1, h2, h3, h4, h5]

/-- C13: for an owned secret that `Reconcile` finds, the secret is regenerated by
`UpdateSecret` and submitted as an update exactly when `IsChanged` or `IsExpired` (with the
maximum age and the clock of the reconciler) holds and `UpdateSecret` returns nil; when
neither holds nothing is written and nil is returned; when `UpdateSecret` returns an error
nothing is written and that error is returned. -/
theorem Reconcile_found (r : ECRSecretReconciler) (req : NamespacedName)
    (ecrSecret : ECRSecret) (accountId region : GoString)
    (configStream : Except GoError Configuration) (credentials : Credentials)
    (auth : ECRAuthentication) (foundSecret : Secret)
    (h1 : r.Client.GetECRSecret req = .ok ecrSecret)
    (h2 : registryParts ecrSecret.Spec.Registry = .returned (accountId, region))
    (h3 : r.ConfigFile = .ok configStream)
    (h4 : LoadCredentials configStream accountId = (some credentials, none))
    (h5 : r.Auth.SetCredentials credentials region = (none, auth))
    (h6 : r.Client.GetSecret
      { Name := getKubeSecretName ecrSecret, Namespace := ecrSecret.Namespace }
        = .ok foundSecret) :
    (IsChanged foundSecret = false → IsExpired foundSecret r.MaxAge r.Clock = false →
      Reconcile r req = .returned [] none) ∧
    (∀ updated, (IsChanged foundSecret = true ∨ IsExpired foundSecret r.MaxAge r.Clock = true) →
      UpdateSecret auth foundSecret r.Clock = .returned (updated, none) →
      Reconcile r req = .returned [.update updated] (r.Client.Update updated)) ∧
    (∀ left e, (IsChanged foundSecret = true ∨ IsExpired foundSecret r.MaxAge r.Clock = true) →
      UpdateSecret auth foundSecret r.Clock = .returned (left, some e) →
      Reconcile r req = .returned [] (some e)) ∧
    (∀ written err, Reconcile r req = .returned [.update written] err →
      (IsChanged foundSecret = true ∨ IsExpired foundSecret r.MaxAge r.Clock = true) ∧
      UpdateSecret auth foundSecret r.Clock = .returned (written, none) ∧
      err = r.Client.Update written) := by
  have hr : Reconcile r req = reconcileFound r auth foundSecret := by
    rw [Reconcile_of_lookup r req ecrSecret accountId region configStream credentials auth
      h1 h2 h3 h4 h5, h6]
  rw [hr]
  unfold reconcileFound
  refine ⟨?_, ?_, ?_, ?_⟩
  · intro hc he
    simp [hc, he]
  · intro updated hce hu
    have : (IsChanged foundSecret || IsExpired foundSecret r.MaxAge r.Clock) = true := by
      rcases hce with h | h <;> simp [h]
    simp [this, hu]
  · intro left e hce hu
    have : (IsChanged foundSecret || IsExpired foundSecret r.MaxAge r.Clock) = true := by
      rcases hce with h | h <;> simp [h]
    simp [this, hu]
  · intro written err hw
    by_cases hce : (IsChanged foundSecret || IsExpired foundSecret r.MaxAge r.Clock) = true
    · rw [if_pos hce] at hw
      have hce2 : IsChanged foundSecret = true ∨ IsExpired foundSecret r.MaxAge r.Clock = true := by
        simpa using hce
      cases hu : UpdateSecret auth foundSecret r.Clock with
      | panicked => simp [hu] at hw
      | returned v =>
        obtain ⟨s, e⟩ := v
        cases e with
        | some e => simp [hu] at hw
        | none =>
          simp only [hu, ReconcileOutcome.returned.injEq, List.cons.injEq, Write.update.injEq,
            and_true] at hw
          obtain ⟨rfl, rfl⟩ := hw
          exact ⟨hce2, rfl, rfl⟩
    · rw [if_neg hce] at hw
      simp at hw

set_option maxRecDepth 100000 in
/-- The reconciler of the suite at `TEST_NOW` leaves the prepared secret alone, which has
not drifted and is not expired; for the bare test secret, which has drifted, it submits the
prepared secret as an update. -/
theorem Reconcile_found_witness :
    Reconcile (testReconciler (some preparedSecret) TEST_NOW) testRequest = .returned [] none ∧
      Reconcile (testReconciler (some testSecret) TEST_NOW) testRequest
        = .returned [.update preparedSecret] none :=
  ⟨(Reconcile_found (testReconciler (some preparedSecret) TEST_NOW) testRequest testECRSecret
      (str "123456789012") (str "eu-west-1") (.ok testConfiguration)
      { AccessKeyID := str "AKAIEXAMPLE1", SecretAccessKey := str "secretEXAMPLE1" }
      MockECRAuthentication preparedSecret rfl rfl rfl rfl rfl rfl).1
      (by decide!) (by decide!),
    (Reconcile_found (testReconciler (some testSecret) TEST_NOW) testRequest testECRSecret
      (str "123456789012") (str "eu-west-1") (.ok testConfiguration)
      { AccessKeyID := str "AKAIEXAMPLE1", SecretAccessKey := str "secretEXAMPLE1" }
      MockECRAuthentication testSecret rfl rfl rfl rfl rfl rfl).2.1 preparedSecret
      (Or.inl (by decide!)) rfl⟩

/-- The canonical string of the all-zero UUID is the placeholder of `GetSecretData`. -/
theorem uuidNil_String : uuidNil.String = str "00000000-0000-0000-0000-000000000000" := by
  decide

/-- The uuid annotation stamped from a UID is the all-zero placeholder exactly when the
UID is all-zero. -/
theorem GetSecretUuid_String_eq_placeholder (secret : Secret) :
    (GetSecretUuid secret).String = str "00000000-0000-0000-0000-000000000000"
      ↔ GetSecretUuid secret = uuidNil := by
  constructor
  · intro h
    have h1 := uuidParse_String (GetSecretUuid secret) (GetSecretUuid_length secret)
      (GetSecretUuid_lt secret)
    have h2 : uuidParse (str "00000000-0000-0000-0000-000000000000") = some uuidNil := by
      decide
    rw [h, h2] at h1
    exact (Option.some.inj h1).symm
  · intro h
    rw [h, uuidNil_String]

/-- A secret whose uuid annotation is the canonical string of its recomputed UID has not
drifted exactly when that UID is not all-zero. -/
theorem IsChanged_of_stamped (s : Secret)
    (hu : s.Annotations ANNOTATION_UID = some (GetSecretUuid s).String) :
    IsChanged s = false ↔ GetSecretUuid s ≠ uuidNil := by
  have hp := uuidParse_String (GetSecretUuid s) (GetSecretUuid_length s) (GetSecretUuid_lt s)
  by_cases hn : GetSecretUuid s = uuidNil
  · simp [IsChanged, hn]
  · simp [IsChanged, hn, hu, hp]

set_option maxRecDepth 100000 in
/-- C14, as stated, fails when the expiry is more than some 292 years away from the clock:
the reconciler of the suite with a clock that was never set submits a secret whose validity
is `2562047h47m0s`, the duration 9223372020000000000 ns, while the difference between the
expiry of the mock and the clock, rounded to the minute, is 63808171200000000000 ns. -/
theorem Reconcile_create_counterexample :
    (createdSecrets (Reconcile (testReconciler none zeroTime) testRequest)).map
        (fun s => s.Annotations ANNOTATION_LIFETIME) = [some (str "2562047h47m0s")] ∧
      ParseDuration (str "2562047h47m0s") = some 9223372020000000000 ∧
      (9223372020000000000 : Int)
        ≠ roundHalfAway (testExpiryTime.unixNano - zeroTime.unixNano) Minute := by
  refine ⟨by decide!, by decide!, by decide!⟩

/-- C14, amended: for a declared resource without existing secret, a scheme that knows its
kind and a fetch that gives a token, an endpoint and the expiry X, `Reconcile` submits one
secret for creation; its expires annotation is X in RFC3339; its validity is the Go
duration string of X - now brought into the signed 64-bit range by saturation and rounded
to the minute (of X - now rounded to the minute when X - now is in that range); its uuid
annotation is the canonical string of the UID computed from its own payload, expires and
validity, and parses back to it; that annotation differs from the all-zero placeholder,
and `IsChanged` is false on the secret, exactly when the UID is not all-zero. -/
theorem Reconcile_create (r : ECRSecretReconciler) (req : NamespacedName)
    (ecrSecret : ECRSecret) (accountId region : GoString)
    (configStream : Except GoError Configuration) (credentials : Credentials)
    (auth : ECRAuthentication) (e : ClientError) (apiVersion kind T P : GoString) (X : Time)
    (h1 : r.Client.GetECRSecret req = .ok ecrSecret)
    (h2 : registryParts ecrSecret.Spec.Registry = .returned (accountId, region))
    (h3 : r.ConfigFile = .ok configStream)
    (h4 : LoadCredentials configStream accountId = (some credentials, none))
    (h5 : r.Auth.SetCredentials credentials region = (none, auth))
    (h6 : r.Client.GetSecret
      { Name := getKubeSecretName ecrSecret, Namespace := ecrSecret.Namespace } = .error e)
    (h7 : e.IsNotFound = true)
    (h8 : r.Scheme = .ok (apiVersion, kind))
    (h9 : auth.GetAuthorizationToken
      = (some { AuthorizationToken := some T, ExpiresAt := some X, ProxyEndpoint := some P },
          none)) :
    ∃ secret,
      Reconcile r req = .returned [.create secret] (r.Client.Create secret) ∧
      secret.Name = getKubeSecretName ecrSecret ∧
      secret.Namespace = ecrSecret.Namespace ∧
      secret.Type_ = str "kubernetes.io/dockerconfigjson" ∧
      secret.OwnerReferences
        = some [OwnerReference.mk apiVersion kind ecrSecret.Name ecrSecret.UID] ∧
      secret.Data dockerConfigKey = some (authPayload P T) ∧
      secret.Annotations ANNOTATION_EXPIRES = some X.FormatRFC3339 ∧
      secret.Annotations ANNOTATION_LIFETIME
        = some (Duration.String
            (roundHalfAway (clamp64 (X.unixNano - r.Clock.Now.unixNano)) Minute)) ∧
      (minDuration ≤ X.unixNano - r.Clock.Now.unixNano →
        X.unixNano - r.Clock.Now.unixNano ≤ maxDuration →
        secret.Annotations ANNOTATION_LIFETIME
          = some (Duration.String (roundHalfAway (X.unixNano - r.Clock.Now.unixNano) Minute))) ∧
      secret.Annotations ANNOTATION_UID = some (GetSecretUuid secret).String ∧
      uuidParse (GetSecretUuid secret).String = some (GetSecretUuid secret) ∧
      GetSecretUuid secret
        = md5Sum (authPayload P T ++ X.FormatRFC3339
            ++ Duration.String
              (roundHalfAway (clamp64 (X.unixNano - r.Clock.Now.unixNano)) Minute)) ∧
      ((GetSecretUuid secret).String ≠ str "00000000-0000-0000-0000-000000000000"
        ↔ GetSecretUuid secret ≠ uuidNil) ∧
      (IsChanged secret = false ↔ GetSecretUuid secret ≠ uuidNil) := by
  have hv : ((X.Sub r.Clock.Now).Round Minute)
      = roundHalfAway (clamp64 (X.unixNano - r.Clock.Now.unixNano)) Minute := by
    rw [Time_Sub_eq]
    exact Round_Minute_eq _ (clamp64_inRange _).1 (clamp64_inRange _).2
  have hr : Reconcile r req = reconcileCreate r auth ecrSecret := by
    rw [Reconcile_of_lookup r req ecrSecret accountId region configStream credentials auth
      h1 h2 h3 h4 h5, h6]
    simp [h7]
  rw [hr]
  simp only [reconcileCreate, constructSecret, GetSecretData_of_fetch auth r.Clock T P X h9,
    SetControllerReference, h8, hv]
  refine ⟨_, rfl, rfl, rfl, rfl, ?_, ?_, ?_, ?_, ?_, ?_, ?_, ?_, ?_, ?_⟩
  · simp
  · simp [GoMap.set]
  · simp [GoMap.set, uid_ne_expires.symm, expires_ne_lifetime]
  · simp [GoMap.set, uid_ne_lifetime.symm]
  · intro hlo hhi
    have hc : clamp64 (X.unixNano - r.Clock.Now.unixNano)
        = X.unixNano - r.Clock.Now.unixNano := by
      have a1 : (-9223372036854775808 : Int) ≤ X.unixNano - r.Clock.Now.unixNano := hlo
      have a2 : X.unixNano - r.Clock.Now.unixNano ≤ (9223372036854775807 : Int) := hhi
      unfold clamp64 minDuration maxDuration
      split_ifs <;> omega
    simp [GoMap.set, uid_ne_lifetime.symm, hc]
  · simp [GoMap.set, GetSecretUuid, uid_ne_expires.symm, uid_ne_lifetime,
      expires_ne_lifetime, uid_ne_lifetime.symm]
  · exact uuidParse_String _ (GetSecretUuid_length _) (GetSecretUuid_lt _)
  · exact GetSecretUuid_of_present _ _ _ _ (by simp [GoMap.set])
      (by simp [GoMap.set, uid_ne_expires.symm, expires_ne_lifetime])
      (by simp [GoMap.set, uid_ne_lifetime.symm])
  · exact not_congr (GetSecretUuid_String_eq_placeholder _)
  · refine IsChanged_of_stamped _ ?_
    simp [GoMap.set, GetSecretUuid, uid_ne_expires.symm, uid_ne_lifetime,
      expires_ne_lifetime, uid_ne_lifetime.symm]


set_option maxRecDepth 100000 in
/-- The test "Should create secret": the reconciler of the suite at `TEST_NOW` submits a
secret with the expiry of the mock, the validity `12h0m0s` and the UID of its content. -/
theorem Reconcile_create_witness :
    ∃ secret,
      Reconcile (testReconciler none TEST_NOW) testRequest = .returned [.create secret] none ∧
      secret.Annotations ANNOTATION_EXPIRES = some TEST_EXPIRY ∧
      secret.Annotations ANNOTATION_LIFETIME = some VALID_LIFETIME ∧
      secret.Annotations ANNOTATION_UID = some (GetSecretUuid secret).String :=
  (Reconcile_create (testReconciler none TEST_NOW) testRequest testECRSecret
    (str "123456789012") (str "eu-west-1") (.ok testConfiguration)
    { AccessKeyID := str "AKAIEXAMPLE1", SecretAccessKey := str "secretEXAMPLE1" }
    MockECRAuthentication
    { err := { msg := str "not found" }, IsNotFound := true, IsCacheNotStarted := false }
    (str "secrets.fireflycons.io/v1beta1") (str "ECRSecret") TEST_AUTH_DATA TEST_REGISTRY
    testExpiryTime rfl rfl rfl rfl rfl rfl rfl rfl rfl).imp fun _ h =>
      ⟨h.1, h.2.2.2.2.2.2.1.trans (by decide!),
        (h.2.2.2.2.2.2.2.2.1 (by decide!) (by decide!)).trans (by decide!),
        h.2.2.2.2.2.2.2.2.2.1⟩

/-! ## The renewal scanner -/

/-- The scanner that `SetupWithManager` starts has the maximum age zero, whatever the
maximum age of the reconciler. -/
theorem SetupWithManager_maxAge (r : ECRSecretReconciler) (mgrClient : Client)
    (realClock : Clock) : (SetupWithManager r mgrClient realClock).maxAge = 0 := rfl

set_option maxRecDepth 100000 in
/-- C15 fails on the code: the scanner started for the reconciler of the suite, whose
maximum age is four hours, sends a notification at 10:00 for a secret with the expiry 20:00
and the validity 12h, which is due for renewal after 12:00 only: the scanner decides with
the maximum age zero. -/
theorem pollSecrets_ignores_MaxAge :
    (testReconciler none (march1 36000)).MaxAge = 14400000000000 ∧
      IsExpired (timedSecret (str "2023-03-01T20:00:00Z") (str "12h") (some [testOwner]))
        (testReconciler none (march1 36000)).MaxAge { Now := march1 36000 } = false ∧
      (SetupWithManager (testReconciler none (march1 36000))
        (testClient (some (timedSecret (str "2023-03-01T20:00:00Z") (str "12h")
          (some [testOwner])))) { Now := march1 36000 }).maxAge = 0 ∧
      pollSecrets (SetupWithManager (testReconciler none (march1 36000))
        (testClient (some (timedSecret (str "2023-03-01T20:00:00Z") (str "12h")
          (some [testOwner])))) { Now := march1 36000 })
        = { sent := [testECRSecret], panicked := false, err := none } := by
  refine ⟨rfl, by decide!, rfl, by decide!⟩

set_option maxRecDepth 100000 in
/-- C16 fails on the code: for the docker secret of the test "Does not need renewal if
lifetime annotation is missing", which has no owner reference, `IsExpired` returns true,
and the sweep of the scanner panics at the first element of its owner list. -/
theorem pollSecrets_panics_without_owner :
    noLifetimeSecret.Type_ = str "kubernetes.io/dockerconfigjson" ∧
      noLifetimeSecret.OwnerReferences = none ∧
      IsExpired noLifetimeSecret 0 { Now := march1 43200 } = true ∧
      (pollSecrets (CreateRenewalEvent (testClient (some noLifetimeSecret))
        { Now := march1 43200 })).panicked = true := by
  refine ⟨rfl, rfl, by decide!, by decide!⟩

/-! ## Malformed timing annotations -/

set_option maxRecDepth 100000 in
/-- C18, as stated, fails: a secret with the payload of the mock, the expires annotation
`2023-13-01T00:00:00Z` (no RFC3339 time), the validity `12x` (no duration) and the uuid
annotation computed from this content has not drifted for `IsChanged`. -/
theorem IsChanged_malformed_counterexample :
    timeParseRFC3339 (str "2023-13-01T00:00:00Z") = none ∧
      ParseDuration (str "12x") = none ∧
      (stampedSecret (authPayload TEST_REGISTRY TEST_AUTH_DATA) (str "2023-13-01T00:00:00Z")
        (str "12x")).Annotations ANNOTATION_EXPIRES = some (str "2023-13-01T00:00:00Z") ∧
      (stampedSecret (authPayload TEST_REGISTRY TEST_AUTH_DATA) (str "2023-13-01T00:00:00Z")
        (str "12x")).Annotations ANNOTATION_LIFETIME = some (str "12x") ∧
      (stampedSecret (authPayload TEST_REGISTRY TEST_AUTH_DATA) (str "2023-13-01T00:00:00Z")
        (str "12x")).Annotations ANNOTATION_UID
        = some (str "1e524f6f-b32d-5b29-3e91-606017399853") ∧
      IsChanged (stampedSecret (authPayload TEST_REGISTRY TEST_AUTH_DATA)
        (str "2023-13-01T00:00:00Z") (str "12x")) = false := by
  refine ⟨by decide!, by decide!, by decide!, by decide!, by decide!, by decide!⟩

/-- C18, amended: for a secret whose expires annotation is present and no valid RFC3339
timestamp, or whose validity annotation is present and no valid duration, the condition
that `Reconcile` tests, `IsChanged` or `IsExpired`, holds for every maxAge and every clock:
`IsChanged`, which does not parse the timing annotations, is true when a required value is
absent or the uuid annotation does not parse to the recomputed UID, and when `IsChanged` is
false `IsExpired` is true. -/
theorem IsChanged_or_IsExpired_of_malformed (secret : Secret) (maxAge : Duration)
    (clock : Clock)
    (h : (∃ expires, secret.Annotations ANNOTATION_EXPIRES = some expires
          ∧ timeParseRFC3339 expires = none)
      ∨ (∃ lifetime, secret.Annotations ANNOTATION_LIFETIME = some lifetime
          ∧ ParseDuration lifetime = none)) :
    (IsChanged secret || IsExpired secret maxAge clock) = true ∧
    (IsChanged secret = false → IsExpired secret maxAge clock = true) ∧
    ((secret.Data dockerConfigKey = none ∨ secret.Annotations ANNOTATION_EXPIRES = none
        ∨ secret.Annotations ANNOTATION_LIFETIME = none
        ∨ secret.Annotations ANNOTATION_UID = none
        ∨ ∃ uid, secret.Annotations ANNOTATION_UID = some uid
            ∧ uuidParse uid ≠ some (GetSecretUuid secret)) →
      IsChanged secret = true) := by
  have key : IsChanged secret = false → IsExpired secret maxAge clock = true := by
    intro hc
    rcases h with ⟨expires, he, hp⟩ | ⟨lifetime, hl, hp⟩
    · simp [IsExpired, he, hp]
    · cases he : secret.Annotations ANNOTATION_EXPIRES with
      | none =>
        have := GetSecretUuid_of_absent secret (Or.inr (Or.inl he))
        simp [IsChanged, this] at hc
      | some expires =>
        simp only [IsExpired, he, hl, hp]
        split <;> rfl
  refine ⟨?_, key, ?_⟩
  · cases hc : IsChanged secret with
    | true => rfl
    | false => simp [key hc]
  · intro habs
    rcases habs with h1 | h1 | h1 | h1 | ⟨uid, hu, hne⟩
    · simp [IsChanged, GetSecretUuid_of_absent secret (Or.inl h1)]
    · simp [IsChanged, GetSecretUuid_of_absent secret (Or.inr (Or.inl h1))]
    · simp [IsChanged, GetSecretUuid_of_absent secret (Or.inr (Or.inr h1))]
    · unfold IsChanged
      by_cases hn : GetSecretUuid secret = uuidNil
      · simp [hn]
      · simp [hn, h1]
    · unfold IsChanged
      by_cases hn : GetSecretUuid secret = uuidNil
      · simp [hn]
      · cases hq : uuidParse uid with
        | none => simp [hn, hu, hq]
        | some w =>
          have hw : w ≠ GetSecretUuid secret := fun hcontra => hne (by rw [hq, hcontra])
          simp [hn, hu, hq, hw]

set_option maxRecDepth 100000 in
/-- The tests "Is changed if expires annotation is invalid" and "Is changed if lifetime
annotation is invalid", whose secrets lack the uuid annotation; and the stamped secret with
malformed timing annotations, which `IsExpired` classifies as due for renewal. -/
theorem IsChanged_or_IsExpired_of_malformed_witness :
    IsChanged (contentSecret (authPayload TEST_REGISTRY TEST_AUTH_DATA) TEST_EXPIRY
        (str "12x")) = true ∧
      IsExpired (stampedSecret (authPayload TEST_REGISTRY TEST_AUTH_DATA)
        (str "2023-13-01T00:00:00Z") (str "12x")) 14400000000000 { Now := TEST_NOW } = true :=
  ⟨(IsChanged_or_IsExpired_of_malformed
      (contentSecret (authPayload TEST_REGISTRY TEST_AUTH_DATA) TEST_EXPIRY (str "12x"))
      0 { Now := TEST_NOW } (Or.inr ⟨str "12x", rfl, by decide!⟩)).2.2
      (Or.inr (Or.inr (Or.inr (Or.inl rfl)))),
    (IsChanged_or_IsExpired_of_malformed
      (stampedSecret (authPayload TEST_REGISTRY TEST_AUTH_DATA) (str "2023-13-01T00:00:00Z")
        (str "12x")) 14400000000000 { Now := TEST_NOW }
      (Or.inl ⟨str "2023-13-01T00:00:00Z", by decide!, by decide!⟩)).2.1 (by decide!)⟩

/-! ## Fractions in durations: the scale as a `float64` -/

set_option maxRecDepth 100000 in
/-- The scale of a fraction is a `float64` multiplied by ten for every digit, which from 23
digits on is no longer the power of ten: the text `0.00000000458861111111111h` parses to
16519 ns, where the division by the exact power would give 16518 ns; and a text whose sum
that one nanosecond carries past the range is refused. -/
theorem ParseDuration_float_scale :
    ParseDuration (str "0.00000000458861111111111h") = some 16519 ∧
      458861111111111 * 3600000000000 / 10 ^ 23 = 16518 ∧
      ParseDuration (str "2562047h47m16.854759289s0.00000000458861111111111h") = none ∧
      ParseDuration (str "-2562047h47m16.854759290s0.00000000458861111111111h") = none ∧
      ParseDuration (str "1.5h") = some 5400000000000 := by
  refine ⟨by decide!, by decide!, by decide!, by decide!, by decide!⟩

/-! ## The calendar: days and civil dates -/

/-- The year of the era and the day of the year of a day of the era (of 146097 days, from
the first of March): the year is below 400 and the day below 366. -/
theorem yoe_doy_bounds (doe yoe : Int) (h0 : 0 ≤ doe) (h1 : doe < 146097)
    (hy : yoe = (doe - doe / 1460 + doe / 36524 - doe / 146096) / 365) :
    0 ≤ yoe ∧ yoe ≤ 399 ∧ 0 ≤ doe - (365 * yoe + yoe / 4 - yoe / 100) ∧
    doe - (365 * yoe + yoe / 4 - yoe / 100) ≤ 365 := by
  have hd : doe / 36524 = 0 ∨ doe / 36524 = 1 ∨ doe / 36524 = 2 ∨ doe / 36524 = 3
      ∨ doe / 36524 = 4 := by omega
  have hg : yoe / 100 = 0 ∨ yoe / 100 = 1 ∨ yoe / 100 = 2 ∨ yoe / 100 = 3 := by omega
  rcases hd with hd | hd | hd | hd | hd <;> rcases hg with hg | hg | hg | hg <;> omega

/-- The day 365 of a year of the era only occurs when the civil year that ends then, with
February, is a leap year. -/
theorem yoe_leap (doe yoe : Int) (h0 : 0 ≤ doe) (h1 : doe < 146097)
    (hy : yoe = (doe - doe / 1460 + doe / 36524 - doe / 146096) / 365)
    (h365 : doe - (365 * yoe + yoe / 4 - yoe / 100) = 365) :
    (yoe + 1) % 4 = 0 ∧ ((yoe + 1) % 100 ≠ 0 ∨ yoe = 399) := by
  have he : doe / 146096 = 0 ∨ doe / 146096 = 1 := by omega
  have hd : doe / 36524 = 0 ∨ doe / 36524 = 1 ∨ doe / 36524 = 2 ∨ doe / 36524 = 3
      ∨ doe / 36524 = 4 := by omega
  have hg : yoe / 100 = 0 ∨ yoe / 100 = 1 ∨ yoe / 100 = 2 ∨ yoe / 100 = 3 := by omega
  have hi : yoe % 4 = 0 ∨ yoe % 4 = 1 ∨ yoe % 4 = 2 ∨ yoe % 4 = 3 := by omega
  rcases he with he | he <;> rcases hd with hd | hd | hd | hd | hd <;>
    rcases hg with hg | hg | hg | hg <;> rcases hi with hi | hi | hi | hi <;> omega

/-- The month (counted from March) and the day of the month of a day of the year (counted
from the first of March): the day is within the length of its month. -/
theorem mp_day_bounds (doy mp : Int) (h0 : 0 ≤ doy) (h1 : doy ≤ 365)
    (hm : mp = (5 * doy + 2) / 153) :
    0 ≤ mp ∧ mp ≤ 11 ∧ 1 ≤ doy - (153 * mp + 2) / 5 + 1 ∧
    doy - (153 * mp + 2) / 5 + 1 ≤ 31 ∧
    ((mp = 1 ∨ mp = 3 ∨ mp = 6 ∨ mp = 8) → doy - (153 * mp + 2) / 5 + 1 ≤ 30) ∧
    (mp = 11 → doy - (153 * mp + 2) / 5 + 1 ≤ 29 ∧
      (doy - (153 * mp + 2) / 5 + 1 = 29 → doy = 365)) := by
  have hmp : mp = 0 ∨ mp = 1 ∨ mp = 2 ∨ mp = 3 ∨ mp = 4 ∨ mp = 5 ∨ mp = 6 ∨ mp = 7 ∨ mp = 8
      ∨ mp = 9 ∨ mp = 10 ∨ mp = 11 := by omega
  rcases hmp with h | h | h | h | h | h | h | h | h | h | h | h <;> subst h <;> omega

/-- The era of a day number of the years 0 to 9999 and the day of the era. -/
theorem era_bounds (z era : Int) (hlo : -719528 ≤ z) (hhi : z ≤ 2932896)
    (hera : era = (z + 719468) / 146097) :
    -1 ≤ era ∧ era ≤ 24 ∧ 0 ≤ z + 719468 - era * 146097 ∧
    z + 719468 - era * 146097 < 146097 ∧
    (era = -1 → 146037 ≤ z + 719468 - era * 146097) ∧
    (era = 24 → z + 719468 - era * 146097 ≤ 146036) := by
  omega

/-- In the last sixty days of an era the year of the era is the last one and the month is
January or February; before them, in the last year, the month is neither. -/
theorem last_year_months (doe yoe doy mp : Int) (h0 : 0 ≤ doe) (h1 : doe < 146097)
    (hy0 : 0 ≤ yoe) (hy1 : yoe ≤ 399) (hdoy0 : 0 ≤ doy) (hdoy1 : doy ≤ 365)
    (hdoy : doy = doe - (365 * yoe + yoe / 4 - yoe / 100)) (hmp : mp = (5 * doy + 2) / 153) :
    (146037 ≤ doe → yoe = 399 ∧ 10 ≤ mp) ∧ (doe ≤ 146036 → yoe = 399 → mp < 10) := by
  have hg : yoe / 100 = 0 ∨ yoe / 100 = 1 ∨ yoe / 100 = 2 ∨ yoe / 100 = 3 := by omega
  rcases hg with hg | hg | hg | hg <;> omega

/-- The leap year test of `daysIn` on the civil year that ends a leap year of the era. -/
theorem leap_of_yoe (yoe era y : Int) (hy0 : 0 ≤ y) (hyv : y = yoe + era * 400 + 1)
    (hl4 : (yoe + 1) % 4 = 0) (hl100 : (yoe + 1) % 100 ≠ 0 ∨ yoe = 399) :
    y.toNat % 4 = 0 ∧ (y.toNat % 100 ≠ 0 ∨ y.toNat % 400 = 0) := by
  have hyn : (y.toNat : Int) = y := Int.toNat_of_nonneg hy0
  refine ⟨by omega, ?_⟩
  rcases hl100 with h | h
  · left; omega
  · right; omega

/-- The day of a civil date is within `daysIn` of its month, given the bounds of the day
for the months counted from March. -/
theorem day_le_daysIn (y m : Nat) (d mp : Int) (hd1 : d ≤ 31)
    (hm : (m : Int) = if mp < 10 then mp + 3 else mp - 9) (hmp0 : 0 ≤ mp) (hmp1 : mp ≤ 11)
    (hd30 : (mp = 1 ∨ mp = 3 ∨ mp = 6 ∨ mp = 8) → d ≤ 30)
    (hd29 : mp = 11 → d ≤ 29)
    (hleap : mp = 11 → d = 29 → y % 4 = 0 ∧ (y % 100 ≠ 0 ∨ y % 400 = 0)) :
    d ≤ (daysIn m y : Int) := by
  have hcases : mp = 0 ∨ mp = 1 ∨ mp = 2 ∨ mp = 3 ∨ mp = 4 ∨ mp = 5 ∨ mp = 6 ∨ mp = 7
      ∨ mp = 8 ∨ mp = 9 ∨ mp = 10 ∨ mp = 11 := by
    clear hm hd30 hd29 hleap
    omega
  rcases hcases with h | h | h | h | h | h | h | h | h | h | h | h <;> subst h <;>
    norm_num at hm <;> norm_cast at hm <;> subst hm
  · simpa [daysIn] using hd1
  · simpa [daysIn] using hd30 (by decide)
  · simpa [daysIn] using hd1
  · simpa [daysIn] using hd30 (by decide)
  · simpa [daysIn] using hd1
  · simpa [daysIn] using hd1
  · simpa [daysIn] using hd30 (by decide)
  · simpa [daysIn] using hd1
  · simpa [daysIn] using hd30 (by decide)
  · simpa [daysIn] using hd1
  · simpa [daysIn] using hd1
  · have h29 := hd29 rfl
    by_cases hl : y % 4 = 0 ∧ (y % 100 ≠ 0 ∨ y % 400 = 0)
    · simpa [daysIn, hl] using h29
    · have hne : d ≠ 29 := fun h => hl (hleap rfl h)
      have h28 : d ≤ 28 := by
        clear hleap hd30 hd29 hl
        omega
      simp only [daysIn, if_true, hl, if_false]
      exact h28

/-- The day number of a civil date given by its era, year of the era, month from March and
day of the year. -/
theorem daysFromCivil_of_parts (era yoe doy mp m d y : Int) (hy0 : 0 ≤ yoe) (hy1 : yoe ≤ 399)
    (hmp0 : 0 ≤ mp) (hmp1 : mp ≤ 11) (hd : d = doy - (153 * mp + 2) / 5 + 1)
    (hm : m = if mp < 10 then mp + 3 else mp - 9)
    (hy : y = if m ≤ 2 then yoe + era * 400 + 1 else yoe + era * 400) :
    daysFromCivil y m d = era * 146097 + (yoe * 365 + yoe / 4 - yoe / 100 + doy) - 719468 := by
  simp only [daysFromCivil]
  have hmpm : (if m > 2 then m - 3 else m + 9) = mp := by
    rw [hm]; split_ifs <;> omega
  have hyy : (if m ≤ 2 then y - 1 else y) = yoe + era * 400 := by
    rw [hy]; split_ifs <;> omega
  rw [hmpm, hyy]
  have he : (yoe + era * 400) / 400 = era := by omega
  rw [he, hd]
  have e1 : yoe + era * 400 - era * 400 = yoe := by omega
  rw [e1]
  omega

/-- The civil date of a day number between the first day of the year 0 and the last day of
the year 9999: a year of at most four digits, a month from 1 to 12 and a day of that month,
of which `daysFromCivil` is the day number again. -/
theorem civilFromDays_spec (z : Int) (hlo : -719528 ≤ z) (hhi : z ≤ 2932896) :
    ∃ y m d : Nat, civilFromDays z = ((y : Int), (m : Int), (d : Int)) ∧ y ≤ 9999 ∧
      1 ≤ m ∧ m ≤ 12 ∧ 1 ≤ d ∧ d ≤ daysIn m y ∧ daysFromCivil y m d = z := by
  obtain ⟨era, hera⟩ : ∃ era : Int, era = (z + 719468) / 146097 := ⟨_, rfl⟩
  obtain ⟨doe, hdoe⟩ : ∃ doe : Int, doe = z + 719468 - era * 146097 := ⟨_, rfl⟩
  obtain ⟨yoe, hyoe⟩ : ∃ yoe : Int,
    yoe = (doe - doe / 1460 + doe / 36524 - doe / 146096) / 365 := ⟨_, rfl⟩
  obtain ⟨doy, hdoy⟩ : ∃ doy : Int, doy = doe - (365 * yoe + yoe / 4 - yoe / 100) := ⟨_, rfl⟩
  obtain ⟨mp, hmp⟩ : ∃ mp : Int, mp = (5 * doy + 2) / 153 := ⟨_, rfl⟩
  obtain ⟨d, hd⟩ : ∃ d : Int, d = doy - (153 * mp + 2) / 5 + 1 := ⟨_, rfl⟩
  obtain ⟨m, hm⟩ : ∃ m : Int, m = if mp < 10 then mp + 3 else mp - 9 := ⟨_, rfl⟩
  obtain ⟨y, hy⟩ : ∃ y : Int, y = if m ≤ 2 then yoe + era * 400 + 1 else yoe + era * 400 :=
    ⟨_, rfl⟩
  have hcivil : civilFromDays z = (y, m, d) := by
    simp only [civilFromDays]
    rw [← hera, ← hdoe, ← hyoe, ← hdoy, ← hmp, ← hd, ← hm, ← hy]
  obtain ⟨hera0, hera1, hdoe0, hdoe1, hfirst, hlast⟩ := era_bounds z era hlo hhi hera
  rw [← hdoe] at hdoe0 hdoe1 hfirst hlast
  obtain ⟨hy0, hy1, hdoy0, hdoy1⟩ := yoe_doy_bounds doe yoe hdoe0 hdoe1 hyoe
  have hleap := yoe_leap doe yoe hdoe0 hdoe1 hyoe
  rw [← hdoy] at hdoy0 hdoy1 hleap
  obtain ⟨hmp0, hmp1, hd0, hd1, hd30, hd29⟩ := mp_day_bounds doy mp hdoy0 hdoy1 hmp
  rw [← hd] at hd0 hd1 hd30 hd29
  obtain ⟨hJan, hDec⟩ := last_year_months doe yoe doy mp hdoe0 hdoe1 hy0 hy1 hdoy0 hdoy1
    hdoy hmp
  have hback := daysFromCivil_of_parts era yoe doy mp m d y hy0 hy1 hmp0 hmp1 hd hm hy
  have hback2 : daysFromCivil y m d = z := by
    rw [hback]
    clear hback hJan hDec hd29 hd30 hleap hcivil hy hm hd hmp hyoe hfirst hlast hera
    omega
  clear hback hyoe hmp hd hera hdoe hdoy
  have hm0 : 1 ≤ m := by rw [hm]; split_ifs <;> omega
  have hm1 : m ≤ 12 := by rw [hm]; split_ifs <;> omega
  have hyear0 : 0 ≤ y := by
    rw [hy]
    by_cases he : era = -1
    · have := hJan (hfirst he)
      rw [if_pos (by rw [hm]; split_ifs <;> omega)]
      omega
    · split_ifs <;> omega
  have hyear1 : y ≤ 9999 := by
    rw [hy]
    by_cases he : era = 24
    · by_cases hy399 : yoe = 399
      · have := hDec (hlast he) hy399
        rw [if_neg (by rw [hm, if_pos this]; omega)]
        omega
      · split_ifs <;> omega
    · split_ifs <;> omega
  have hmn : ((m.toNat : Nat) : Int) = m := Int.toNat_of_nonneg (by omega)
  have hdays : d ≤ (daysIn m.toNat y.toNat : Int) := by
    refine day_le_daysIn y.toNat m.toNat d mp hd1 (hmn.trans hm) hmp0 hmp1 hd30
      (fun h => (hd29 h).1) ?_
    intro h11 h29
    refine leap_of_yoe yoe era y hyear0 ?_ (hleap ((hd29 h11).2 h29)).1
      (hleap ((hd29 h11).2 h29)).2
    rw [hy, if_pos (by rw [hm]; split_ifs <;> omega)]
  refine ⟨y.toNat, m.toNat, d.toNat, ?_, by omega, by omega, by omega, by omega, ?_, ?_⟩
  · rw [hcivil, Int.toNat_of_nonneg hyear0, Int.toNat_of_nonneg (by omega),
      Int.toNat_of_nonneg (by omega)]
  · have : ((d.toNat : Nat) : Int) = d := Int.toNat_of_nonneg (by omega)
    omega
  · rw [Int.toNat_of_nonneg hyear0, Int.toNat_of_nonneg (by omega),
      Int.toNat_of_nonneg (by omega)]
    exact hback2

/-! ## Decimal numbers: printing and reading -/

/-- The digits of zero: none. -/
theorem revDigits_zero (fuel : Nat) : revDigits fuel 0 = [] := by
  cases fuel <;> simp [revDigits]

/-- The digits of a positive number: the last digit, then the digits of the tenth. -/
theorem revDigits_succ (fuel v : Nat) (h : v ≠ 0) :
    revDigits (fuel + 1) v = (48 + v % 10) :: revDigits fuel (v / 10) := by
  simp [revDigits, h]

/-- A number below one hundred is printed in the width 2 as its two digits. -/
theorem appendInt_two (n : Nat) (h : n < 100) :
    appendInt (n : Int) 2 = [48 + n / 10, 48 + n % 10] := by
  have hneg : ¬ ((n : Int) < 0) := by omega
  simp only [appendInt, Int.natAbs_ofNat, if_neg hneg, List.nil_append, fmtInt]
  by_cases h0 : n = 0
  · subst h0; rfl
  · rw [if_neg h0, show (20 : Nat) = 19 + 1 from rfl, revDigits_succ _ _ h0]
    by_cases h1 : n / 10 = 0
    · rw [h1, revDigits_zero]
      simp
    · rw [show (19 : Nat) = 18 + 1 from rfl, revDigits_succ _ _ h1]
      have h2 : n / 10 / 10 = 0 := by omega
      rw [h2, revDigits_zero]
      have h3 : n / 10 % 10 = n / 10 := by omega
      simp [h3]

/-- A number below ten thousand is printed in the width 4 as its four digits. -/
theorem appendInt_four (n : Nat) (h : n < 10000) :
    appendInt (n : Int) 4 = [48 + n / 1000, 48 + n / 100 % 10, 48 + n / 10 % 10, 48 + n % 10] := by
  have hneg : ¬ ((n : Int) < 0) := by omega
  simp only [appendInt, Int.natAbs_ofNat, if_neg hneg, List.nil_append, fmtInt]
  by_cases h0 : n = 0
  · subst h0; rfl
  · rw [if_neg h0, show (20 : Nat) = 19 + 1 from rfl, revDigits_succ _ _ h0]
    by_cases h1 : n / 10 = 0
    · rw [h1, revDigits_zero]
      have e1 : n / 1000 = 0 := by omega
      have e2 : n / 100 = 0 := by omega
      simp [e1, e2, h1]
    · rw [show (19 : Nat) = 18 + 1 from rfl, revDigits_succ _ _ h1]
      by_cases h2 : n / 10 / 10 = 0
      · rw [h2, revDigits_zero]
        have e1 : n / 1000 = 0 := by omega
        have e2 : n / 100 = 0 := by omega
        simp [e1, e2]
      · rw [show (18 : Nat) = 17 + 1 from rfl, revDigits_succ _ _ h2]
        have e2 : n / 10 / 10 = n / 100 := by omega
        by_cases h3 : n / 10 / 10 / 10 = 0
        · rw [h3, revDigits_zero]
          have e1 : n / 1000 = 0 := by omega
          simp [e1, e2]
        · rw [show (17 : Nat) = 16 + 1 from rfl, revDigits_succ _ _ h3]
          have h4 : n / 10 / 10 / 10 / 10 = 0 := by omega
          have e1 : n / 10 / 10 / 10 = n / 1000 := by omega
          have e3 : n / 1000 % 10 = n / 1000 := by omega
          have e4 : n / 100 / 10 = n / 1000 := by omega
          rw [h4, revDigits_zero]
          simp [e2, e3, e4]

/-- The bytes `48 + k` for `k` below ten are digits. -/
theorem isDigitByte_add (k : Nat) (h : k < 10) : isDigitByte (48 + k) = true := by
  simp only [isDigitByte, decide_eq_true_eq]
  omega

/-- Reading the two digits of a number below one hundred. -/
theorem getnum_digits (n : Nat) (rest : GoString) (fixed : Bool) (h : n < 100) :
    getnum ((48 + n / 10) :: (48 + n % 10) :: rest) fixed = some (n, rest) := by
  have h1 : isDigitByte (48 + n / 10) = true := isDigitByte_add _ (by omega)
  have h2 : isDigitByte (48 + n % 10) = true := isDigitByte_add _ (by omega)
  simp only [getnum, h1, h2, Bool.not_true, Bool.false_eq_true, if_false, Option.some.injEq,
    Prod.mk.injEq, and_true]
  omega

/-- Reading the two digits of a number within the range of its field. -/
theorem getnumIn_digits (n lo hi : Nat) (rest : GoString) (fixed : Bool) (h : n < 100)
    (hlo : lo ≤ n) (hhi : n ≤ hi) :
    getnumIn ((48 + n / 10) :: (48 + n % 10) :: rest) fixed lo hi = some (n, rest) := by
  simp only [getnumIn, getnum_digits n rest fixed h]
  rw [if_pos ⟨hlo, hhi⟩]

/-- Reading the four digits of a year. -/
theorem parseYear_digits (y : Nat) (rest : GoString) (h : y < 10000) :
    parseYear ((48 + y / 1000) :: (48 + y / 100 % 10) :: (48 + y / 10 % 10) :: (48 + y % 10)
      :: rest) = some (y, rest) := by
  have h0 : isDigitByte (48 + y / 1000) = true := isDigitByte_add _ (by omega)
  have h1 : isDigitByte (48 + y / 100 % 10) = true := isDigitByte_add _ (by omega)
  have h2 : isDigitByte (48 + y / 10 % 10) = true := isDigitByte_add _ (by omega)
  have h3 : isDigitByte (48 + y % 10) = true := isDigitByte_add _ (by omega)
  simp only [parseYear, h0, h1, h2, h3, Bool.and_self, if_true, digitsValue, List.foldl_cons,
    List.foldl_nil, Option.some.injEq, Prod.mk.injEq, and_true]
  omega

/-- No fractional second is read from a text that starts with the zone. -/
theorem parseFraction_zone (c : Nat) (rest : GoString) (h46 : c ≠ 46) (h44 : c ≠ 44) :
    parseFraction (c :: rest) = (0, c :: rest) := by
  cases rest with
  | nil => rfl
  | cons d rest => simp [parseFraction, h46, h44]

/-- The zone printed for an offset of whole minutes below twenty-five hours, which is `Z`
for the offset zero, reads as that offset. -/
theorem parseZone_format (offset : Int) (hmin : offset % 60 = 0) (hlo : -90000 < offset)
    (hhi : offset < 90000) :
    ∃ c rest, (if offset = 0 then str "Z"
      else (if Int.tdiv offset 60 < 0 then [45] else [43])
        ++ appendInt ((Int.tdiv offset 60).natAbs / 60 : Nat) 2 ++ [58]
        ++ appendInt ((Int.tdiv offset 60).natAbs % 60 : Nat) 2) = c :: rest ∧ c ≠ 46 ∧ c ≠ 44 ∧
      parseZone (c :: rest) = some (offset, []) := by
  by_cases h0 : offset = 0
  · subst h0
    exact ⟨90, [], rfl, by decide, by decide, rfl⟩
  · rw [if_neg h0]
    obtain ⟨k, hk⟩ : ∃ k : Nat, k = (Int.tdiv offset 60).natAbs := ⟨_, rfl⟩
    rw [← hk]
    have hdiv : Int.tdiv offset 60 * 60 = offset :=
      Int.tdiv_mul_cancel (Int.dvd_of_emod_eq_zero hmin)
    have hk1 : k < 1500 := by omega
    have hh : k / 60 < 100 := by omega
    have hmm : k % 60 < 100 := by omega
    have h24 : ¬ (k / 60 > 24 ∨ k % 60 > 60) := by omega
    rw [appendInt_two _ hh, appendInt_two _ hmm]
    by_cases hneg : Int.tdiv offset 60 < 0
    · rw [if_pos hneg]
      refine ⟨45, [48 + k / 60 / 10, 48 + k / 60 % 10, 58, 48 + k % 60 / 10, 48 + k % 60 % 10],
        rfl, by decide, by decide, ?_⟩
      simp only [parseZone, ne_eq, not_true_eq_false, if_false, getnum_digits _ [] true hh,
        getnum_digits _ [] true hmm, if_neg h24]
      simp only [show ¬ ((45 : Nat) = 43) by decide, if_false, if_true, Option.some.injEq,
        Prod.mk.injEq, and_true]
      omega
    · rw [if_neg hneg]
      refine ⟨43, [48 + k / 60 / 10, 48 + k / 60 % 10, 58, 48 + k % 60 / 10, 48 + k % 60 % 10],
        rfl, by decide, by decide, ?_⟩
      simp only [parseZone, ne_eq, not_true_eq_false, if_false, getnum_digits _ [] true hh,
        getnum_digits _ [] true hmm, if_neg h24]
      simp only [if_true, Option.some.injEq, Prod.mk.injEq, and_true]
      omega

/-- The text that `Format` gives for the layout RFC3339, in terms of the civil date, the
clock time and the zone. -/
theorem FormatRFC3339_eq (t : Time) (y m d hh mi ss : Nat) (zone : GoString)
    (hciv : civilFromDays ((t.unixNano / 1000000000 + t.offset) / 86400)
      = ((y : Int), (m : Int), (d : Int)))
    (hy : y < 10000) (hm : m < 100) (hd : d < 100) (hhh : hh < 100) (hmi : mi < 100)
    (hss : ss < 100)
    (h1 : ((hh : Nat) : Int) = (t.unixNano / 1000000000 + t.offset) % 86400 / 3600)
    (h2 : ((mi : Nat) : Int) = (t.unixNano / 1000000000 + t.offset) % 86400 % 3600 / 60)
    (h3 : ((ss : Nat) : Int) = (t.unixNano / 1000000000 + t.offset) % 86400 % 60)
    (hz : (if t.offset = 0 then str "Z"
      else (if Int.tdiv t.offset 60 < 0 then [45] else [43])
        ++ appendInt ((Int.tdiv t.offset 60).natAbs / 60 : Nat) 2 ++ [58]
        ++ appendInt ((Int.tdiv t.offset 60).natAbs % 60 : Nat) 2) = zone) :
    t.FormatRFC3339
      = (48 + y / 1000) :: (48 + y / 100 % 10) :: (48 + y / 10 % 10) :: (48 + y % 10) :: 45
        :: (48 + m / 10) :: (48 + m % 10) :: 45 :: (48 + d / 10) :: (48 + d % 10) :: 84
        :: (48 + hh / 10) :: (48 + hh % 10) :: 58 :: (48 + mi / 10) :: (48 + mi % 10) :: 58
        :: (48 + ss / 10) :: (48 + ss % 10) :: zone := by
  simp only [Time.FormatRFC3339, hciv]
  rw [hz, ← h1, ← h2, ← h3, appendInt_four y hy, appendInt_two m hm, appendInt_two d hd,
    appendInt_two hh hhh, appendInt_two mi hmi, appendInt_two ss hss]
  simp only [List.cons_append, List.nil_append, List.append_assoc]

/-- Reading the text of a civil date, a clock time and a zone: `time.Parse` gives the
instant of that date and time at the offset of the zone. -/
theorem timeParseRFC3339_digits (y m d hh mi ss c : Nat) (zrest : GoString) (offset : Int)
    (hy : y < 10000) (hm0 : 1 ≤ m) (hm1 : m ≤ 12) (hd0 : 1 ≤ d) (hd1 : d ≤ daysIn m y)
    (hd2 : d < 100) (hhh : hh ≤ 23) (hmi : mi ≤ 59) (hss : ss ≤ 59)
    (h46 : c ≠ 46) (h44 : c ≠ 44) (hz : parseZone (c :: zrest) = some (offset, [])) :
    timeParseRFC3339 ((48 + y / 1000) :: (48 + y / 100 % 10) :: (48 + y / 10 % 10)
        :: (48 + y % 10) :: 45
        :: (48 + m / 10) :: (48 + m % 10) :: 45 :: (48 + d / 10) :: (48 + d % 10) :: 84
        :: (48 + hh / 10) :: (48 + hh % 10) :: 58 :: (48 + mi / 10) :: (48 + mi % 10) :: 58
        :: (48 + ss / 10) :: (48 + ss % 10) :: c :: zrest)
      = some (dateTime y m d hh mi ss 0 offset) := by
  have hday : ¬ (d < 1 ∨ d > daysIn m y) := by omega
  simp only [timeParseRFC3339, parseDate, parseClock, parseYear_digits y _ hy, skipByte,
    getnumIn_digits m 1 12 _ true (by omega) hm0 hm1, getnum_digits d _ true hd2,
    getnumIn_digits hh 0 23 _ false (by omega) (Nat.zero_le _) hhh,
    getnumIn_digits mi 0 59 _ true (by omega) (Nat.zero_le _) hmi,
    getnumIn_digits ss 0 59 _ true (by omega) (Nat.zero_le _) hss,
    parseFraction_zone c zrest h46 h44, hz, Option.bind_eq_bind, Option.some_bind, if_true,
    ne_eq, not_true_eq_false, false_or, if_neg hday]

/-- The round trip of an instant through `Format` and `Parse` with the layout RFC3339: for
an instant of the years 0 to 9999 in a zone of whole minutes below twenty-five hours, the
text parses, to the instant cut to whole seconds, at the same offset. -/
theorem timeParseRFC3339_Format (t : Time) (hmin : t.offset % 60 = 0)
    (hzlo : -90000 < t.offset) (hzhi : t.offset < 90000)
    (hlo : -62167219200 ≤ t.unixNano / 1000000000 + t.offset)
    (hhi : t.unixNano / 1000000000 + t.offset < 253402300800) :
    timeParseRFC3339 t.FormatRFC3339
      = some { unixNano := t.unixNano / 1000000000 * 1000000000, offset := t.offset } := by
  obtain ⟨secs, hsecs⟩ : ∃ secs : Int, secs = t.unixNano / 1000000000 + t.offset := ⟨_, rfl⟩
  rw [← hsecs] at hlo hhi
  obtain ⟨y, m, d, hciv, hy, hm0, hm1, hd0, hd1, hback⟩ :=
    civilFromDays_spec (secs / 86400) (by omega) (by omega)
  obtain ⟨c, zrest, hz, h46, h44, hpz⟩ := parseZone_format t.offset hmin hzlo hzhi
  have hd31 : daysIn m y ≤ 31 := by
    unfold daysIn
    split_ifs <;> decide
  have h1 : (((secs % 86400 / 3600).toNat : Nat) : Int) = secs % 86400 / 3600 :=
    Int.toNat_of_nonneg (by omega)
  have h2 : (((secs % 86400 % 3600 / 60).toNat : Nat) : Int) = secs % 86400 % 3600 / 60 :=
    Int.toNat_of_nonneg (by omega)
  have h3 : (((secs % 86400 % 60).toNat : Nat) : Int) = secs % 86400 % 60 :=
    Int.toNat_of_nonneg (by omega)
  rw [hsecs] at hciv h1 h2 h3
  rw [FormatRFC3339_eq t y m d _ _ _ (c :: zrest) hciv (by omega) (by omega) (by omega)
    (by omega) (by omega) (by omega) h1 h2 h3 hz]
  rw [timeParseRFC3339_digits y m d _ _ _ c zrest t.offset (by omega) hm0 hm1 hd0 hd1
    (by omega) (by omega) (by omega) (by omega) h46 h44 hpz]
  simp only [dateTime, hback, Option.some.injEq, Time.mk.injEq, and_true]
  rw [h1, h2, h3, ← hsecs]
  omega

/-! ## Durations: printing and reading whole minutes -/

/-- Reading on from an accumulator at a text that does not start with a digit. -/
theorem leadingInt_stop (rest : GoString) (x : Nat)
    (hrest : ∀ c t, rest = c :: t → isDigitByte c = false) :
    leadingInt rest x = some (x, rest) := by
  cases rest with
  | nil => rfl
  | cons c t => simp [leadingInt, hrest c t rfl]

/-- Reading the digits of a number into an accumulator: the accumulator is shifted by the
digits and the number is added, as long as the result stays within `1 << 63`. -/
theorem leadingInt_revDigits (fuel : Nat) : ∀ (v x : Nat) (rest : GoString), v < 10 ^ fuel →
    x * 10 ^ (revDigits fuel v).length + v ≤ 9223372036854775808 →
    leadingInt ((revDigits fuel v).reverse ++ rest) x
      = leadingInt rest (x * 10 ^ (revDigits fuel v).length + v) := by
  induction fuel with
  | zero =>
    intro v x rest hv _
    have h0 : v = 0 := by simpa using hv
    subst h0
    simp [revDigits]
  | succ f ih =>
    intro v x rest hv hb
    by_cases h0 : v = 0
    · subst h0
      simp [revDigits_zero]
    · rw [revDigits_succ f v h0] at hb ⊢
      rw [List.reverse_cons, List.append_assoc, List.singleton_append, List.length_cons] at *
      have hv10 : v / 10 < 10 ^ f := by
        rw [pow_succ] at hv
        omega
      have hpow : x * 10 ^ ((revDigits f (v / 10)).length + 1)
          = x * 10 ^ (revDigits f (v / 10)).length * 10 := by
        rw [pow_succ, mul_assoc]
      rw [hpow] at hb ⊢
      have hb2 : x * 10 ^ (revDigits f (v / 10)).length + v / 10 ≤ 9223372036854775808 := by
        generalize x * 10 ^ (revDigits f (v / 10)).length = P at hb
        omega
      rw [ih (v / 10) x _ hv10 hb2]
      generalize x * 10 ^ (revDigits f (v / 10)).length = P at hb hb2 ⊢
      have hd : isDigitByte (48 + v % 10) = true := isDigitByte_add _ (by omega)
      have e1 : ¬ (P + v / 10 > 9223372036854775808 / 10) := by omega
      have e2 : (P + v / 10) * 10 + (48 + v % 10 - 48) = P * 10 + v := by omega
      have e3 : ¬ (P * 10 + v > 9223372036854775808) := by omega
      simp only [leadingInt, hd, Bool.not_true, Bool.false_eq_true, if_false, e1, e2, e3]

/-- Every byte that `revDigits` gives is a digit. -/
theorem revDigits_digits (fuel : Nat) : ∀ (v c : Nat), c ∈ revDigits fuel v →
    isDigitByte c = true := by
  induction fuel with
  | zero => intro v c hc; simp [revDigits] at hc
  | succ f ih =>
    intro v c hc
    by_cases h0 : v = 0
    · subst h0; simp [revDigits_zero] at hc
    · rw [revDigits_succ f v h0, List.mem_cons] at hc
      rcases hc with hc | hc
      · rw [hc]; exact isDigitByte_add _ (by omega)
      · exact ih _ c hc

/-- The decimal form of a number starts with a digit. -/
theorem fmtInt_head (n : Nat) : ∃ c t, fmtInt n = c :: t ∧ isDigitByte c = true := by
  unfold fmtInt
  by_cases h0 : n = 0
  · exact ⟨48, [], by rw [if_pos h0], by decide⟩
  · rw [if_neg h0]
    cases hr : (revDigits 20 n).reverse with
    | nil =>
      rw [List.reverse_eq_nil_iff, show (20 : Nat) = 19 + 1 from rfl, revDigits_succ _ _ h0] at hr
      exact absurd hr (List.cons_ne_nil _ _)
    | cons c t =>
      refine ⟨c, t, rfl, revDigits_digits 20 n c ?_⟩
      rw [← List.mem_reverse, hr]
      exact List.mem_cons_self c t

/-- Reading the decimal form of a number of at most `1 << 63`, before a text that does not
start with a digit. -/
theorem leadingInt_fmtInt (n : Nat) (rest : GoString) (hn : n ≤ 9223372036854775808)
    (hrest : ∀ c t, rest = c :: t → isDigitByte c = false) :
    leadingInt (fmtInt n ++ rest) 0 = some (n, rest) := by
  unfold fmtInt
  by_cases h0 : n = 0
  · subst h0
    rw [if_pos rfl]
    simp only [List.singleton_append, leadingInt]
    simpa [isDigitByte] using leadingInt_stop rest 0 hrest
  · rw [if_neg h0, leadingInt_revDigits 20 n 0 rest (by omega) (by omega), Nat.zero_mul,
      Nat.zero_add]
    exact leadingInt_stop rest n hrest

/-- The unit name at the head of a text is the one letter before a digit or the end. -/
theorem unitSpan_letter (u : Nat) (rest : GoString) (hu46 : u ≠ 46)
    (hud : isDigitByte u = false)
    (hrest : rest = [] ∨ ∃ c t, rest = c :: t ∧ isDigitByte c = true) :
    unitSpan (u :: rest) = ([u], rest) := by
  have hr : unitSpan rest = ([], rest) := by
    rcases hrest with h | ⟨c, t, h, hc⟩
    · subst h; rfl
    · subst h; simp [unitSpan, hc]
  simp [unitSpan, hu46, hud, hr]

/-- One round of the loop of `ParseDuration` on a whole number followed by one of the units
`h`, `m` and `s`: the number of nanoseconds is added to the sum. -/
theorem parseDurationLoop_term (fuel n d u unit : Nat) (rest : GoString)
    (hu : (u = 104 ∧ unit = 3600000000000) ∨ (u = 109 ∧ unit = 60000000000)
      ∨ (u = 115 ∧ unit = 1000000000))
    (hrest : rest = [] ∨ ∃ c t, rest = c :: t ∧ isDigitByte c = true)
    (hsum : d + n * unit ≤ 9223372036854775808) :
    parseDurationLoop (fuel + 1) (fmtInt n ++ u :: rest) d
      = parseDurationLoop fuel rest (d + n * unit) := by
  obtain ⟨c, t, hfmt, hc⟩ := fmtInt_head n
  have hunit : 0 < unit := by omega
  have hud : isDigitByte u = false := by
    rcases hu with h | h | h <;> rw [h.1] <;> decide
  have hu46 : u ≠ 46 := by omega
  have hmap : unitMap [u] = some unit := by
    rcases hu with h | h | h <;> rw [h.1, h.2] <;> decide
  have hn : n ≤ 9223372036854775808 := by
    have : n ≤ n * unit := Nat.le_mul_of_pos_right n hunit
    omega
  have hlead : leadingInt (c :: (t ++ u :: rest)) 0 = some (n, u :: rest) := by
    have := leadingInt_fmtInt n (u :: rest) hn (by
      intro c2 t2 h
      rw [List.cons.injEq] at h
      rw [← h.1]; exact hud)
    rwa [hfmt] at this
  have hdiv : ¬ (n > 9223372036854775808 / unit) := by
    have h1 : n * unit ≤ 9223372036854775808 := by omega
    have := (Nat.le_div_iff_mul_le hunit).mpr h1
    omega
  have hmod : (d + n * unit) % 18446744073709551616 = d + n * unit := by omega
  have hlen : ((c :: (t ++ u :: rest)).length != (u :: rest).length) = true := by
    simp only [List.length_cons, List.length_append, bne_iff_ne, ne_eq]
    omega
  have hspan := unitSpan_letter u rest hu46 hud hrest
  have hbig : ¬ (d + n * unit > 9223372036854775808) := by omega
  rw [hfmt, List.cons_append]
  rw [parseDurationLoop]
  simp only [hc, Bool.or_true, Bool.not_true, Bool.false_eq_true, if_false, hlead, hlen,
    decide_True, or_true, decide_False, Bool.not_false, Bool.and_false]
  rcases hu with h | h | h <;> obtain ⟨h1, h2⟩ := h <;> subst h1 <;> subst h2 <;>
    simp only [hspan, hmap, hdiv, hmod, hbig, Bool.false_and, Bool.false_eq_true, if_false,
      List.cons_ne_nil, gt_iff_lt, Nat.lt_irrefl, false_and, if_false]

/-- The loop of `fmtFrac` over low digits that are all zero keeps nothing. -/
theorem fmtFracLoop_zeros (prec : Nat) : ∀ (v : Nat) (acc : GoString),
    fmtFracLoop prec (v * 10 ^ prec) false acc = (acc, false, v) := by
  induction prec with
  | zero => intro v acc; simp [fmtFracLoop]
  | succ p ih =>
    intro v acc
    have h1 : v * 10 ^ (p + 1) % 10 = 0 := by
      rw [pow_succ, ← mul_assoc]
      exact Nat.mul_mod_left _ _
    have h2 : v * 10 ^ (p + 1) / 10 = v * 10 ^ p := by
      rw [pow_succ, ← mul_assoc]
      exact Nat.mul_div_cancel _ (by decide)
    simp only [fmtFracLoop, h1, h2, bne_self_eq_false, Bool.or_false, Bool.false_eq_true,
      if_false]
    exact ih v acc

/-- The text of a positive number of whole minutes, as `Duration.String` prints it: the
hours when there are any, the minutes and `0s`. -/
theorem String_body (k : Nat) (hk0 : 0 < k) (hk : k ≤ 153722867) :
    Duration.String (60000000000 * (k : Int))
        = (if k / 60 > 0 then fmtInt (k / 60) ++ 104 :: (fmtInt (k % 60) ++ 109 :: [48, 115])
            else fmtInt (k % 60) ++ 109 :: [48, 115]) ∧
      Duration.String (-(60000000000 * (k : Int)))
        = 45 :: (if k / 60 > 0
            then fmtInt (k / 60) ++ 104 :: (fmtInt (k % 60) ++ 109 :: [48, 115])
            else fmtInt (k % 60) ++ 109 :: [48, 115]) := by
  have hu1 : toU64 (60000000000 * (k : Int)) = 60 * k * 10 ^ 9 := by
    have e1 : (60000000000 * (k : Int)) % 18446744073709551616 = 60000000000 * (k : Int) :=
      Int.emod_eq_of_lt (by omega) (by omega)
    have e2 : 60000000000 * (k : Int) = ((60 * k * 10 ^ 9 : Nat) : Int) := by
      push_cast
      ring
    rw [toU64, e1, e2, Int.toNat_ofNat]
  have hu2 : toU64 (-(-(60000000000 * (k : Int)))) = 60 * k * 10 ^ 9 := by
    rw [neg_neg]; exact hu1
  have hfrac : fmtFrac (60 * k * 10 ^ 9) 9 = ([], 60 * k) := by
    simp only [fmtFrac, fmtFracLoop_zeros 9 (60 * k) [], Bool.false_eq_true, if_false]
  have hbig : ¬ (60 * k * 10 ^ 9 < 1000000000) := by
    have : 60 * k * 10 ^ 9 = 60000000000 * k := by ring
    omega
  have hv1 : 60 * k % 60 = 0 := by omega
  have hv2 : 60 * k / 60 = k := by omega
  have hpos : ¬ (60000000000 * (k : Int) < 0) := by omega
  have hneg : -(60000000000 * (k : Int)) < 0 := by omega
  constructor
  · simp only [Duration.String, hpos, decide_False, Bool.false_eq_true, if_false, hu1, hbig,
      hfrac, hv1, hv2, hk0, if_true, gt_iff_lt]
    split_ifs <;> simp [fmtInt, str]
  · simp only [Duration.String, hneg, decide_True, if_true, hu2, hbig, if_false,
      hfrac, hv1, hv2, hk0, gt_iff_lt]
    split_ifs <;> simp [fmtInt, str]

/-- The loop of `ParseDuration` at the end of the text returns the sum. -/
theorem parseDurationLoop_nil (fuel d : Nat) : parseDurationLoop fuel [] d = some d := by
  cases fuel <;> simp [parseDurationLoop]

/-- The loop of `ParseDuration` on the text of a positive number of whole minutes. -/
theorem parseDurationLoop_body (k fuel : Nat) (hk0 : 0 < k) (hk : k ≤ 153722867)
    (hf : 3 ≤ fuel) :
    parseDurationLoop fuel
        (if k / 60 > 0 then fmtInt (k / 60) ++ 104 :: (fmtInt (k % 60) ++ 109 :: [48, 115])
          else fmtInt (k % 60) ++ 109 :: [48, 115]) 0
      = some (60000000000 * k) := by
  obtain ⟨f, hfuel⟩ : ∃ f, fuel = f + 1 + 1 + 1 := ⟨fuel - 3, by omega⟩
  subst hfuel
  have hsec : ∀ g : Nat,
      parseDurationLoop (g + 1) [48, 115] (60000000000 * k) = some (60000000000 * k) := by
    intro g
    have := parseDurationLoop_term g 0 (60000000000 * k) 115 1000000000 []
      (Or.inr (Or.inr ⟨rfl, rfl⟩)) (Or.inl rfl) (by omega)
    rw [show fmtInt 0 ++ [115] = [48, 115] from rfl] at this
    rw [this, parseDurationLoop_nil, Nat.zero_mul, Nat.add_zero]
  have hmin : ∀ (g d : Nat), d + k % 60 * 60000000000 = 60000000000 * k →
      parseDurationLoop (g + 1 + 1) (fmtInt (k % 60) ++ 109 :: [48, 115]) d
        = some (60000000000 * k) := by
    intro g d hd
    rw [parseDurationLoop_term (g + 1) (k % 60) d 109 60000000000 [48, 115]
      (Or.inr (Or.inl ⟨rfl, rfl⟩)) (Or.inr ⟨48, [115], rfl, by decide⟩) (by omega), hd]
    exact hsec g
  by_cases hh : k / 60 > 0
  · rw [if_pos hh]
    obtain ⟨c, t, hfmt, hc⟩ := fmtInt_head (k % 60)
    rw [parseDurationLoop_term (f + 1 + 1) (k / 60) 0 104 3600000000000 _
      (Or.inl ⟨rfl, rfl⟩) (Or.inr ⟨c, t ++ 109 :: [48, 115], by rw [hfmt]; rfl, hc⟩) (by omega)]
    exact hmin f _ (by omega)
  · rw [if_neg hh]
    exact hmin (f + 1) 0 (by omega)

/-- The text of a positive number of whole minutes starts with a digit and has at least
three bytes more. -/
theorem body_head (k : Nat) :
    ∃ c t, (if k / 60 > 0 then fmtInt (k / 60) ++ 104 :: (fmtInt (k % 60) ++ 109 :: [48, 115])
        else fmtInt (k % 60) ++ 109 :: [48, 115]) = c :: t ∧ isDigitByte c = true ∧
      3 ≤ t.length := by
  by_cases hh : k / 60 > 0
  · obtain ⟨c, t, hfmt, hc⟩ := fmtInt_head (k / 60)
    refine ⟨c, t ++ 104 :: (fmtInt (k % 60) ++ 109 :: [48, 115]), by rw [if_pos hh, hfmt]; rfl,
      hc, ?_⟩
    simp only [List.length_append, List.length_cons, List.length_nil]
    omega
  · obtain ⟨c, t, hfmt, hc⟩ := fmtInt_head (k % 60)
    refine ⟨c, t ++ 109 :: [48, 115], by rw [if_neg hh, hfmt]; rfl, hc, ?_⟩
    simp only [List.length_append, List.length_cons, List.length_nil]
    omega

/-- A text that starts with a digit and is not `0`: `ParseDuration` runs its loop on the
whole text and returns the sum, unless it exceeds the largest duration. -/
theorem ParseDuration_unsigned (c : Nat) (t : GoString) (hc : isDigitByte c = true)
    (ht : 1 ≤ t.length) (d : Nat) (hd : d ≤ 9223372036854775807)
    (hloop : parseDurationLoop (c :: t).length (c :: t) 0 = some d) :
    ParseDuration (c :: t) = some (d : Int) := by
  have h45 : c ≠ 45 := by
    intro h; rw [h] at hc; exact absurd hc (by decide)
  have h43 : c ≠ 43 := by
    intro h; rw [h] at hc; exact absurd hc (by decide)
  have hne0 : c :: t ≠ str "0" := by
    intro h
    have h2 := congrArg List.length h
    rw [List.length_cons] at h2
    have h3 : (str "0").length = 1 := rfl
    omega
  unfold ParseDuration
  split
  rename_i x neg s heq
  have hpair : (neg, s) = (false, c :: t) := by
    rw [← heq]
    split
    · rename_i h; exact absurd (List.cons.inj h).1 h45
    · rename_i h; exact absurd (List.cons.inj h).1 h43
    · rfl
  obtain ⟨h1, h2⟩ := Prod.mk.inj hpair
  subst h1; subst h2
  rw [if_neg hne0, if_neg (List.cons_ne_nil c t), hloop]
  simp only [Bool.false_eq_true, if_false]
  rw [if_neg (by omega)]

/-- A text that starts with a minus sign and then a digit: `ParseDuration` runs its loop on
the text after the sign and returns the negated sum. -/
theorem ParseDuration_negative (c : Nat) (t : GoString) (ht : 1 ≤ t.length) (d : Nat)
    (hloop : parseDurationLoop (c :: t).length (c :: t) 0 = some d) :
    ParseDuration (45 :: c :: t) = some (wrap64 (-(d : Int))) := by
  have hne0 : c :: t ≠ str "0" := by
    intro h
    have h2 := congrArg List.length h
    rw [List.length_cons] at h2
    have h3 : (str "0").length = 1 := rfl
    omega
  unfold ParseDuration
  simp only [if_neg hne0, if_neg (List.cons_ne_nil c t), hloop, if_true]

/-- The round trip of a duration of whole minutes through `Duration.String` and
`ParseDuration`: the text parses, to the same duration. -/
theorem ParseDuration_String (d : Int) (hmul : d % 60000000000 = 0)
    (hlo : -9223372020000000000 ≤ d) (hhi : d ≤ 9223372020000000000) :
    ParseDuration (Duration.String d) = some d := by
  rcases lt_trichotomy d 0 with hneg | hzero | hpos
  · obtain ⟨k, hk⟩ : ∃ k : Nat, (k : Int) = -d / 60000000000 := ⟨(-d / 60000000000).toNat,
      Int.toNat_of_nonneg (by omega)⟩
    have hd : d = -(60000000000 * (k : Int)) := by omega
    have hk0 : 0 < k := by omega
    have hk1 : k ≤ 153722867 := by omega
    obtain ⟨c, t, hbody, hc, ht⟩ := body_head k
    rw [hd, (String_body k hk0 hk1).2, hbody]
    have hloop := parseDurationLoop_body k (c :: t).length hk0 hk1 (by
      rw [List.length_cons]; omega)
    rw [hbody] at hloop
    rw [ParseDuration_negative c t (by omega) _ hloop]
    congr 1
    unfold wrap64
    push_cast
    omega
  · subst hzero
    rfl
  · obtain ⟨k, hk⟩ : ∃ k : Nat, (k : Int) = d / 60000000000 := ⟨(d / 60000000000).toNat,
      Int.toNat_of_nonneg (by omega)⟩
    have hd : d = 60000000000 * (k : Int) := by omega
    have hk0 : 0 < k := by omega
    have hk1 : k ≤ 153722867 := by omega
    obtain ⟨c, t, hbody, hc, ht⟩ := body_head k
    rw [hd, (String_body k hk0 hk1).1, hbody]
    have hloop := parseDurationLoop_body k (c :: t).length hk0 hk1 (by
      rw [List.length_cons]; omega)
    rw [hbody] at hloop
    rw [ParseDuration_unsigned c t hc (by omega) _ (by omega) hloop]
    push_cast
    rfl

/-! ## The renewal of a secret that was just regenerated -/

/-- The rounding to the minute gives a multiple of the minute at most thirty seconds away. -/
theorem roundHalfAway_Minute (d : Int) :
    roundHalfAway d Minute % 60000000000 = 0 ∧ d - 30000000000 ≤ roundHalfAway d Minute ∧
    roundHalfAway d Minute ≤ d + 30000000000 := by
  unfold roundHalfAway Minute
  split_ifs <;> omega

/-- A successful fetch makes `UpdateSecret` return without error. -/
theorem UpdateSecret_of_fetch (ecr : ECRAuthentication) (secret : Secret) (clock : Clock)
    (T P : GoString) (X : Time)
    (h : ecr.GetAuthorizationToken
      = (some { AuthorizationToken := some T, ExpiresAt := some X, ProxyEndpoint := some P },
          none)) :
    UpdateSecret ecr secret clock
      = .returned (secretAfter secret (UpdateSecret ecr secret clock), none) := by
  simp only [UpdateSecret, GetSecretData_of_fetch ecr clock T P X h, secretAfter]

/-- The timing annotations that a successful `UpdateSecret` writes parse back: the expiry to
the fetched expiry cut to whole seconds, the validity to the rounded difference. -/
theorem UpdateSecret_timing (ecr : ECRAuthentication) (secret : Secret) (clock : Clock)
    (T P : GoString) (X : Time)
    (h : ecr.GetAuthorizationToken
      = (some { AuthorizationToken := some T, ExpiresAt := some X, ProxyEndpoint := some P },
          none))
    (hmin : X.offset % 60 = 0) (hzlo : -90000 < X.offset) (hzhi : X.offset < 90000)
    (hlo : -62167219200 ≤ X.unixNano / 1000000000 + X.offset)
    (hhi : X.unixNano / 1000000000 + X.offset < 253402300800) :
    ∃ expires lifetime,
      (secretAfter secret (UpdateSecret ecr secret clock)).Annotations ANNOTATION_EXPIRES
        = some expires ∧
      timeParseRFC3339 expires
        = some { unixNano := X.unixNano / 1000000000 * 1000000000, offset := X.offset } ∧
      (secretAfter secret (UpdateSecret ecr secret clock)).Annotations ANNOTATION_LIFETIME
        = some lifetime ∧
      ParseDuration lifetime
        = some (roundHalfAway (clamp64 (X.unixNano - clock.Now.unixNano)) Minute) := by
  have hret := UpdateSecret_of_fetch ecr secret clock T P X h
  obtain ⟨token, expiresAt, proxyEndpoint, hg, -, he, hl, -⟩ :=
    UpdateSecret_returned_nil ecr secret _ clock hret
  rw [h] at hg
  simp only [Prod.mk.injEq, Option.some.injEq, AuthorizationData.mk.injEq, and_true] at hg
  obtain ⟨-, hx, -⟩ := hg
  subst hx
  have hv : ((X.Sub clock.Now).Round Minute)
      = roundHalfAway (clamp64 (X.unixNano - clock.Now.unixNano)) Minute := by
    rw [Time_Sub_eq]
    exact Round_Minute_eq _ (clamp64_inRange _).1 (clamp64_inRange _).2
  rw [hv] at hl
  refine ⟨_, _, he, timeParseRFC3339_Format X hmin hzlo hzhi hlo hhi, hl, ?_⟩
  obtain ⟨h1, h2, h3⟩ := roundHalfAway_Minute (clamp64 (X.unixNano - clock.Now.unixNano))
  obtain ⟨h4, h5⟩ := clamp64_inRange (X.unixNano - clock.Now.unixNano)
  exact ParseDuration_String _ h1 (by omega) (by omega)

set_option maxRecDepth 100000 in
/-- C22, as stated, fails when the clock is more than some 292 years after the fetched
expiry: for the secret with one owner reference, the mock (expiry 2023-01-01T12:00:00Z), a
clock at the start of the year 2400 and maxAge 4h, `UpdateSecret` succeeds and writes the
validity `-2562047h47m0s`; maxAge minus that lifetime leaves the signed 64-bit range, and
`IsExpired` of the secret just regenerated is true at that same instant. -/
theorem IsExpired_fresh_counterexample :
    ownedSecret.OwnerReferences = some [testOwner] ∧
      MockECRAuthentication.GetAuthorizationToken.2 = none ∧
      Minute ≤ (14400000000000 : Duration) ∧
      UpdateSecret MockECRAuthentication ownedSecret { Now := YEAR_2400 }
        = .returned (secretAfter ownedSecret
            (UpdateSecret MockECRAuthentication ownedSecret { Now := YEAR_2400 }), none) ∧
      (secretAfter ownedSecret
          (UpdateSecret MockECRAuthentication ownedSecret { Now := YEAR_2400 })).Annotations
        ANNOTATION_LIFETIME = some (str "-2562047h47m0s") ∧
      IsExpired (secretAfter ownedSecret
          (UpdateSecret MockECRAuthentication ownedSecret { Now := YEAR_2400 }))
        14400000000000 { Now := YEAR_2400 } = true := by
  refine ⟨rfl, rfl, by decide!, rfl, by decide!, by decide!⟩

/-- The arithmetic of the renewal horizon of a fresh secret: with the expiry cut by less
than a second, the lifetime rounded by at most thirty seconds and a maximum age of at least
a minute, the maximum age less the lifetime stays in the signed 64-bit range and the
horizon is not before the clock. -/
theorem fresh_horizon (M x N E L R c : Int) (hm1 : 60000000000 ≤ M)
    (hm2 : M ≤ 9223372036854775807) (hw : M - R ≤ 9223372036854775807)
    (hsec : x - 999999999 ≤ E) (hR1 : x - N - 30000000000 ≤ R) (hR2 : R ≤ x - N + 30000000000)
    (hL1 : c - 30000000000 ≤ L) (hL2 : L ≤ c + 30000000000)
    (hc : c = if x - N < -9223372036854775808 then -9223372036854775808
      else if x - N > 9223372036854775807 then 9223372036854775807 else x - N)
    (hLR : c = x - N → L = R) :
    -9223372036854775808 ≤ M - L ∧ M - L ≤ 9223372036854775807 ∧ N ≤ E + (M - L) := by
  by_cases h1 : x - N < -9223372036854775808
  · omega
  · rw [if_neg h1] at hc
    by_cases h2 : x - N > 9223372036854775807
    · rw [if_pos h2] at hc
      omega
    · rw [if_neg h2] at hc
      have := hLR hc
      omega

/-- C22, amended: for every secret with at least one owner reference, every fetch that
gives a token, an endpoint and an expiry X whose zone offset is a whole number of minutes
below twenty-five hours and whose year, in that zone, is one of 0 to 9999, every clock time
now and every maxAge of at least one minute such that maxAge minus X - now rounded to the
minute does not exceed the largest duration, `UpdateSecret` at the time now succeeds and
the secret it leaves is not renewal-due at that same instant: `IsExpired` is false. -/
theorem IsExpired_fresh (ecr : ECRAuthentication) (secret : Secret) (clock : Clock)
    (maxAge : Duration) (owners : List OwnerReference) (T P : GoString) (X : Time)
    (_hown : secret.OwnerReferences = some owners) (_hne : owners ≠ [])
    (hfetch : ecr.GetAuthorizationToken
      = (some { AuthorizationToken := some T, ExpiresAt := some X, ProxyEndpoint := some P },
          none))
    (hzone : X.offset % 60 = 0 ∧ -90000 < X.offset ∧ X.offset < 90000)
    (hyear : -62167219200 ≤ X.unixNano / 1000000000 + X.offset ∧
      X.unixNano / 1000000000 + X.offset < 253402300800)
    (hmin : Minute ≤ maxAge) (hmax : maxAge ≤ maxDuration)
    (hwrap : maxAge - roundHalfAway (X.unixNano - clock.Now.unixNano) Minute ≤ maxDuration) :
    UpdateSecret ecr secret clock
        = .returned (secretAfter secret (UpdateSecret ecr secret clock), none) ∧
      IsExpired (secretAfter secret (UpdateSecret ecr secret clock)) maxAge clock = false := by
  refine ⟨UpdateSecret_of_fetch ecr secret clock T P X hfetch, ?_⟩
  obtain ⟨expires, lifetime, he, hE, hl, hL⟩ := UpdateSecret_timing ecr secret clock T P X
    hfetch hzone.1 hzone.2.1 hzone.2.2 hyear.1 hyear.2
  rw [IsExpired_of_parsed _ maxAge clock expires lifetime _ _ he hE hl hL]
  obtain ⟨-, hR1, hR2⟩ := roundHalfAway_Minute (X.unixNano - clock.Now.unixNano)
  obtain ⟨-, hL1, hL2⟩ := roundHalfAway_Minute (clamp64 (X.unixNano - clock.Now.unixNano))
  have key := fresh_horizon maxAge X.unixNano clock.Now.unixNano
    (X.unixNano / 1000000000 * 1000000000)
    (roundHalfAway (clamp64 (X.unixNano - clock.Now.unixNano)) Minute)
    (roundHalfAway (X.unixNano - clock.Now.unixNano) Minute)
    (clamp64 (X.unixNano - clock.Now.unixNano)) hmin hmax hwrap (by omega) (by omega) hR2
    (by omega) hL2 rfl (fun h => by rw [h])
  rw [wrap64_of_inRange _ key.1 key.2.1]
  simp only [Bool.and_eq_false_imp, decide_eq_false_iff_not, not_lt, gt_iff_lt]
  intro _
  exact key.2.2

set_option maxRecDepth 100000 in
/-- The secret with one owner reference, regenerated from the mock twelve hours before the
expiry 2023-01-01T12:00:00Z, is not renewal-due at that instant for a maximum age of 4h. -/
theorem IsExpired_fresh_witness :
    UpdateSecret MockECRAuthentication ownedSecret { Now := TEST_NOW }
        = .returned (secretAfter ownedSecret
            (UpdateSecret MockECRAuthentication ownedSecret { Now := TEST_NOW }), none) ∧
      IsExpired (secretAfter ownedSecret
          (UpdateSecret MockECRAuthentication ownedSecret { Now := TEST_NOW }))
        14400000000000 { Now := TEST_NOW } = false :=
  IsExpired_fresh MockECRAuthentication ownedSecret { Now := TEST_NOW } 14400000000000
    [testOwner] TEST_AUTH_DATA TEST_REGISTRY testExpiryTime rfl (by simp) rfl
    (by decide!) (by decide!) (by decide!) (by decide!) (by decide!)


set_option maxRecDepth 100000 in
/-- A zone offset that is not a whole number of minutes: an expiry in a zone 59 seconds west
of UTC is printed with the zone `+00:00` and reads back 59 seconds early; with the clock 20
seconds after twelve hours before the expiry and maxAge one minute, the secret just
regenerated is renewal-due at once. -/
theorem IsExpired_fresh_zone_seconds :
    (secretAfter ownedSecret
        (UpdateSecret (mockExpiringAt EXPIRY_WEST_59) ownedSecret
          { Now := TEST_NOW.Add (20 * Second) })).Annotations ANNOTATION_EXPIRES
        = some (str "2023-01-01T11:59:01+00:00") ∧
      (secretAfter ownedSecret
        (UpdateSecret (mockExpiringAt EXPIRY_WEST_59) ownedSecret
          { Now := TEST_NOW.Add (20 * Second) })).Annotations ANNOTATION_LIFETIME
        = some (str "12h0m0s") ∧
      IsExpired (secretAfter ownedSecret
          (UpdateSecret (mockExpiringAt EXPIRY_WEST_59) ownedSecret
            { Now := TEST_NOW.Add (20 * Second) }))
        Minute { Now := TEST_NOW.Add (20 * Second) } = true := by
  refine ⟨by decide!, by decide!, by decide!⟩

set_option maxRecDepth 100000 in
/-- A year beyond 9999: an expiry in the year 10000 is printed with a year of five digits,
which `time.Parse` rejects, so that the secret just regenerated is renewal-due at once. -/
theorem IsExpired_fresh_year_10000 :
    (secretAfter ownedSecret
        (UpdateSecret (mockExpiringAt YEAR_10000) ownedSecret
          { Now := YEAR_10000.Add (-43200000000000) })).Annotations ANNOTATION_EXPIRES
        = some (str "10000-01-01T00:00:00Z") ∧
      timeParseRFC3339 (str "10000-01-01T00:00:00Z") = none ∧
      IsExpired (secretAfter ownedSecret
          (UpdateSecret (mockExpiringAt YEAR_10000) ownedSecret
            { Now := YEAR_10000.Add (-43200000000000) }))
        14400000000000 { Now := YEAR_10000.Add (-43200000000000) } = true := by
  refine ⟨by decide!, by decide!, by decide!⟩

/-! ## The validation pattern and the registry parse -/

/-- A rest left by a literal: the text is the literal followed by the rest. -/
theorem mem_reLit (w s r : GoString) (h : r ∈ reLit w s) : s = w ++ r := by
  unfold reLit at h
  split at h
  · rename_i hw
    rw [List.mem_singleton] at h
    rw [h]
    nth_rewrite 1 [← List.take_append_drop w.length s]
    rw [hw]
  · simp at h

/-- A rest left by the class of digits: the text is a digit followed by the rest. -/
theorem mem_reDigit (s r : GoString) (h : r ∈ reDigit s) :
    ∃ c, isDigitByte c = true ∧ s = c :: r := by
  cases s with
  | nil => simp [reDigit] at h
  | cons c cs =>
    by_cases hc : isDigitByte c = true
    · simp only [reDigit, hc, if_true, List.mem_singleton] at h
      exact ⟨c, hc, by rw [h]⟩
    · simp [reDigit, hc] at h

/-- A rest left by the unescaped dot: the text is some bytes followed by the rest. -/
theorem mem_reAny (s r : GoString) (h : r ∈ reAny s) : ∃ p, s = p ++ r := by
  unfold reAny at h
  split at h
  · simp at h
  · split at h
    · simp at h
    · rw [List.mem_singleton] at h
      exact ⟨s.take (decodeRune s).2, by rw [h, List.take_append_drop]⟩

/-- A rest left by two pieces in sequence: a rest of the second piece on a rest of the
first. -/
theorem mem_reSeq (a b : Matcher) (s r : GoString) (h : r ∈ reSeq a b s) :
    ∃ m, m ∈ a s ∧ r ∈ b m := by
  unfold reSeq at h
  generalize a s = l at h
  induction l with
  | nil => simp at h
  | cons x xs ih =>
    rw [List.foldr_cons, List.mem_append] at h
    rcases h with h | h
    · exact ⟨x, List.mem_cons_self x xs, h⟩
    · obtain ⟨m, hm, hr⟩ := ih h
      exact ⟨m, List.mem_cons_of_mem x hm, hr⟩

/-- A rest left by a repeated class of digits: the text is that many digits followed by the
rest. -/
theorem mem_reRepeat_reDigit (n : Nat) (s r : GoString) (h : r ∈ reRepeat n reDigit s) :
    ∃ ds : GoString, ds.length = n ∧ (∀ c ∈ ds, isDigitByte c = true) ∧ s = ds ++ r := by
  induction n generalizing s with
  | zero =>
    simp only [reRepeat, List.mem_singleton] at h
    exact ⟨[], rfl, by simp, by simp [h]⟩
  | succ n ih =>
    obtain ⟨m, hm, hr⟩ := mem_reSeq _ _ _ _ h
    obtain ⟨c, hc, hs⟩ := mem_reDigit _ _ hm
    obtain ⟨ds, hlen, hds, hm2⟩ := ih m hr
    refine ⟨c :: ds, by simp [hlen], ?_, by rw [hs, hm2]; rfl⟩
    intro x hx
    rcases List.mem_cons.mp hx with hx | hx
    · rw [hx]; exact hc
    · exact hds x hx

/-- A rest left by a list of pieces of which the first is taken apart. -/
theorem mem_reConcat_cons (a : Matcher) (rest : List Matcher) (s r : GoString)
    (h : r ∈ reConcat (a :: rest) s) : ∃ m, m ∈ a s ∧ r ∈ reConcat rest m :=
  mem_reSeq a (reConcat rest) s r h

/-- Every text is a text before the literals `\.amazonaws\.com` when these end a list of
pieces that leaves nothing. -/
theorem reConcat_tail (s : GoString)
    (h : [] ∈ reConcat [reLit (str "."), reLit (str "amazonaws"), reLit (str "."),
      reLit (str "com")] s) : s = str ".amazonaws.com" := by
  obtain ⟨m1, h1, h⟩ := mem_reConcat_cons _ _ _ _ h
  obtain ⟨m2, h2, h⟩ := mem_reConcat_cons _ _ _ _ h
  obtain ⟨m3, h3, h⟩ := mem_reConcat_cons _ _ _ _ h
  obtain ⟨m4, h4, h⟩ := mem_reConcat_cons _ _ _ _ h
  simp only [reConcat, List.mem_singleton] at h
  rw [mem_reLit _ _ _ h1, mem_reLit _ _ _ h2, mem_reLit _ _ _ h3, mem_reLit _ _ _ h4, ← h]
  rfl

/-- A rest left by the group of areas: the text is some bytes followed by the rest. -/
theorem mem_reArea (s r : GoString) (h : r ∈ reArea s) : ∃ p : GoString, s = p ++ r := by
  simp only [reArea, reAlt, List.mem_append, List.not_mem_nil, or_false] at h
  rcases h with h | h | h | h | h
  · exact ⟨_, mem_reLit _ _ _ h⟩
  · exact ⟨_, mem_reLit _ _ _ h⟩
  · exact ⟨_, mem_reLit _ _ _ h⟩
  · exact ⟨_, mem_reLit _ _ _ h⟩
  · obtain ⟨m, hm, hr⟩ := mem_reSeq _ _ _ _ h
    simp only [reOpt, List.mem_append, List.mem_singleton] at hr
    rcases hr with hr | hr
    · exact ⟨str "us" ++ str "-gov", by
        rw [mem_reLit _ _ _ hm, mem_reLit _ _ _ hr, List.append_assoc]⟩
    · exact ⟨str "us", by rw [mem_reLit _ _ _ hm, hr]⟩

/-- A rest left by the group of directions: the text is some bytes followed by the rest. -/
theorem mem_reDirection (s r : GoString) (h : r ∈ reDirection s) :
    ∃ p : GoString, s = p ++ r := by
  simp only [reDirection, reAlt, List.mem_append, List.not_mem_nil, or_false] at h
  rcases h with h | h | h | h | h | h | h | h <;> exact ⟨_, mem_reLit _ _ _ h⟩

/-- The shape of a registry that passes the validation pattern: twelve digits, a dot, some
text, and `.amazonaws.com`. -/
theorem registryPattern_shape (registry : GoString) (h : registryPattern registry = true) :
    ∃ ds mid : GoString, ds.length = 12 ∧ (∀ c ∈ ds, isDigitByte c = true) ∧
      registry = ds ++ 46 :: (mid ++ str ".amazonaws.com") := by
  unfold registryPattern at h
  rw [List.any_eq_true] at h
  obtain ⟨r, hr, hre⟩ := h
  have hr0 : r = [] := List.isEmpty_iff.mp hre
  subst hr0
  unfold registryPieces at hr
  obtain ⟨m1, h1, hr⟩ := mem_reConcat_cons _ _ _ _ hr
  obtain ⟨m2, h2, hr⟩ := mem_reConcat_cons _ _ _ _ hr
  obtain ⟨m3, h3, hr⟩ := mem_reConcat_cons _ _ _ _ hr
  obtain ⟨m4, h4, hr⟩ := mem_reConcat_cons _ _ _ _ hr
  obtain ⟨m5, h5, hr⟩ := mem_reConcat_cons _ _ _ _ hr
  obtain ⟨m6, h6, hr⟩ := mem_reConcat_cons _ _ _ _ hr
  obtain ⟨m7, h7, hr⟩ := mem_reConcat_cons _ _ _ _ hr
  obtain ⟨m8, h8, hr⟩ := mem_reConcat_cons _ _ _ _ hr
  obtain ⟨m9, h9, hr⟩ := mem_reConcat_cons _ _ _ _ hr
  obtain ⟨m10, h10, hr⟩ := mem_reConcat_cons _ _ _ _ hr
  obtain ⟨m11, h11, hr⟩ := mem_reConcat_cons _ _ _ _ hr
  have htail := reConcat_tail m11 hr
  obtain ⟨ds, hlen, hds, e1⟩ := mem_reRepeat_reDigit 12 registry m1 h1
  have e2 := mem_reLit _ _ _ h2
  have e3 := mem_reLit _ _ _ h3
  obtain ⟨p4, e4⟩ := mem_reAny _ _ h4
  have e5 := mem_reLit _ _ _ h5
  obtain ⟨p6, e6⟩ := mem_reAny _ _ h6
  obtain ⟨p7, e7⟩ := mem_reArea _ _ h7
  have e8 := mem_reLit _ _ _ h8
  obtain ⟨p9, e9⟩ := mem_reDirection _ _ h9
  have e10 := mem_reLit _ _ _ h10
  obtain ⟨c, hc, e11⟩ := mem_reDigit _ _ h11
  refine ⟨ds, str "dkr" ++ p4 ++ str "ecr" ++ p6 ++ p7 ++ str "-" ++ p9 ++ str "-" ++ [c],
    hlen, hds, ?_⟩
  rw [e1, e2, e3, e4, e5, e6, e7, e8, e9, e10, e11, htail]
  simp [str]

/-- The number of pieces of the split on dots: one more than there are dots. -/
theorem splitDot_length (s : GoString) : (splitDot s).length = s.count 46 + 1 := by
  induction s with
  | nil => rfl
  | cons c cs ih =>
    by_cases hc : c = 46
    · simp [splitDot, hc, ih]
    · cases hsp : splitDot cs with
      | nil => rw [hsp] at ih; simp at ih
      | cons piece pieces =>
        rw [hsp] at ih
        simp only [splitDot, hc, if_false, hsp, List.length_cons, List.count_cons]
        simpa [hc] using ih

/-- No digit is a dot. -/
theorem ne_dot_of_isDigitByte (ds : GoString) (h : ∀ c ∈ ds, isDigitByte c = true) :
    ∀ b ∈ ds, b ≠ 46 := by
  intro b hb hb46
  have := h b hb
  rw [hb46] at this
  exact absurd this (by decide)

/-- For every registry that passes the validation pattern, the split on dots has at least
four pieces, the registry parse of `Reconcile` returns, and the account id it extracts is
the prefix of twelve digits. -/
theorem registryParts_of_registryPattern (registry : GoString)
    (h : registryPattern registry = true) :
    4 ≤ (splitDot registry).length ∧
    (∃ region, registryParts registry = .returned (registry.take 12, region)) ∧
    (registry.take 12).length = 12 ∧ ∀ c ∈ registry.take 12, isDigitByte c = true := by
  obtain ⟨ds, mid, hlen, hds, hreg⟩ := registryPattern_shape registry h
  have htake : registry.take 12 = ds := by
    rw [hreg, ← hlen, List.take_left]
  have hsplit : splitDot registry = ds :: splitDot (mid ++ str ".amazonaws.com") := by
    rw [hreg]
    exact splitDot_append ds _ (ne_dot_of_isDigitByte ds hds)
  have hcount : 3 ≤ (splitDot (mid ++ str ".amazonaws.com")).length := by
    rw [splitDot_length, List.count_append]
    have : (str ".amazonaws.com").count 46 = 2 := by decide
    omega
  have h4 : 4 ≤ (splitDot registry).length := by
    rw [hsplit, List.length_cons]
    omega
  refine ⟨h4, ?_, by rw [htake, hlen], by rw [htake]; exact hds⟩
  unfold registryParts
  rw [hsplit] at h4 ⊢
  rw [htake]
  match hm : splitDot (mid ++ str ".amazonaws.com"), hcount with
  | a :: b :: c :: rest, _ => exact ⟨c, rfl⟩

set_option maxRecDepth 100000 in
/-- C23: the validation pattern of `ECRSecretSpec.Registry` leaves the dots after `dkr` and
after `ecr` unescaped, so that it accepts `123456789012.dkrXecrXeu-west-1.amazonaws.com`;
the split of that registry on dots has four pieces and the account id is the prefix of
twelve digits, but the region that `Reconcile` extracts is `com`, not the region segment
`eu-west-1` that the pattern matched. -/
theorem registryParts_region_slip :
    registryPattern SLIP_REGISTRY = true ∧
      (splitDot SLIP_REGISTRY).length = 4 ∧
      regionSegment SLIP_REGISTRY = [str "eu-west-1"] ∧
      registryParts SLIP_REGISTRY = .returned (str "123456789012", str "com") ∧
      str "com" ≠ str "eu-west-1" :=
  ⟨by decide!, by decide!, by decide!, rfl, by decide!⟩

/-! ## The frame of `UpdateSecret` -/

/-- The secret a successful `UpdateSecret` leaves, field by field: the annotations and the
data are the maps built by `GetSecretData`, the uuid annotation being replaced; the other
fields are those of the secret given. -/
theorem UpdateSecret_fields (ecr : ECRAuthentication) (secret s2 : Secret) (clock : Clock)
    (h : UpdateSecret ecr secret clock = .returned (s2, none)) :
    ∃ expires validity payload uid : GoString,
      s2.Annotations
        = ((((GoMap.empty.set ANNOTATION_EXPIRES expires).set ANNOTATION_UID
            (str "00000000-0000-0000-0000-000000000000")).set ANNOTATION_LIFETIME validity).set
            ANNOTATION_UID uid) ∧
      s2.Data = GoMap.empty.set dockerConfigKey payload ∧
      s2.Name = secret.Name ∧ s2.Namespace = secret.Namespace ∧ s2.Type_ = secret.Type_ ∧
      s2.OwnerReferences = secret.OwnerReferences := by
  obtain ⟨⟨data, err⟩⟩ := ecr
  cases err with
  | some e => simp [UpdateSecret, GetSecretData] at h
  | none =>
    cases data with
    | none => simp [UpdateSecret, GetSecretData] at h
    | some ad =>
      obtain ⟨token, expiresAt, proxyEndpoint⟩ := ad
      cases token <;> cases expiresAt <;> cases proxyEndpoint <;>
        simp only [UpdateSecret, GetSecretData, Outcome.returned.injEq, Prod.mk.injEq,
          and_true, reduceCtorEq] at h
      subst h
      exact ⟨_, _, _, _, rfl, rfl, rfl, rfl, rfl, rfl⟩

/-- C24: after a successful `UpdateSecret` the annotation map of the secret holds exactly the
three keys uuid, expires and validity and its data map exactly the key `.dockerconfigjson`,
whatever keys they held before; the name, the namespace, the type and the owner references
of the secret are unchanged. -/
theorem UpdateSecret_frame (ecr : ECRAuthentication) (secret s2 : Secret) (clock : Clock)
    (h : UpdateSecret ecr secret clock = .returned (s2, none)) :
    (∀ k, s2.Annotations k ≠ none ↔
      k = ANNOTATION_UID ∨ k = ANNOTATION_EXPIRES ∨ k = ANNOTATION_LIFETIME) ∧
    (∀ k, s2.Data k ≠ none ↔ k = dockerConfigKey) ∧
    s2.Name = secret.Name ∧ s2.Namespace = secret.Namespace ∧ s2.Type_ = secret.Type_ ∧
    s2.OwnerReferences = secret.OwnerReferences := by
  obtain ⟨expires, validity, payload, uid, ha, hd, hn, hns, ht, ho⟩ :=
    UpdateSecret_fields ecr secret s2 clock h
  refine ⟨?_, ?_, hn, hns, ht, ho⟩
  · intro k
    rw [ha]
    simp only [GoMap.set, GoMap.empty]
    by_cases h1 : k = ANNOTATION_UID
    · simp [h1]
    · by_cases h2 : k = ANNOTATION_LIFETIME
      · simp [h2, uid_ne_lifetime.symm]
      · by_cases h3 : k = ANNOTATION_EXPIRES
        · simp [h3, uid_ne_expires.symm, expires_ne_lifetime]
        · simp [h1, h2, h3]
  · intro k
    rw [hd]
    by_cases hk : k = dockerConfigKey <;> simp [GoMap.set, GoMap.empty, hk]

set_option maxRecDepth 100000 in
/-- A secret with a foreign annotation and a foreign data key, updated from the mock: the
two foreign keys are gone, the owner references are kept. -/
theorem UpdateSecret_frame_witness :
    (crowdedSecret.Annotations (str "example.com/note") ≠ none ∧
      crowdedSecret.Data (str "other") ≠ none) ∧
    (secretAfter crowdedSecret
        (UpdateSecret MockECRAuthentication crowdedSecret { Now := TEST_NOW })).Annotations
        (str "example.com/note") = none ∧
      (secretAfter crowdedSecret
        (UpdateSecret MockECRAuthentication crowdedSecret { Now := TEST_NOW })).Data
        (str "other") = none ∧
      (secretAfter crowdedSecret
        (UpdateSecret MockECRAuthentication crowdedSecret { Now := TEST_NOW })).OwnerReferences
        = some [testOwner] :=
  have w := UpdateSecret_frame MockECRAuthentication crowdedSecret
    (secretAfter crowdedSecret
      (UpdateSecret MockECRAuthentication crowdedSecret { Now := TEST_NOW }))
    { Now := TEST_NOW } rfl
  ⟨⟨by decide!, by decide!⟩,
    not_not.mp (fun hne => absurd ((w.1 _).mp hne) (by decide!)),
    not_not.mp (fun hne => absurd ((w.2.1 _).mp hne) (by decide!)),
    w.2.2.2.2.2⟩


end EcrSecret
